import Mathlib

/-!
# qtxdg-mat: command-line parsing and default-application resolution

A shallow embedding of the `qtxdg-mat` subcommands found under `src/mat`:
`defapp`, `open`, `def-web-browser`, `def-email-client`, `def-file-manager`
and `def-terminal`.

* The Qt and libqtxdg collaborators (`QUrl`, `QFileInfo`, `QMimeDatabase`,
  `XdgMimeApps`, `XdgDefaultApps`, `XdgDesktopFile`) are a parameter: a
  `World σ` over an arbitrary state type `σ`.  Calls that may change the
  outside world return the new state.
* The shared `QCommandLineParser` is represented by what the subcommands read
  from it after `parse(QCoreApplication::arguments())`.
* Every output line and every call into a collaborator is recorded, in program
  order, as an `Event`.
-/

set_option autoImplicit false

namespace QtXdgMat

/-! ## Collaborators -/

/-- An application descriptor (`XdgDesktopFile`), as far as the tool reads it. -/
structure XdgDesktopFile where
  fileName : String
  name : String
  isValid : Bool
deriving DecidableEq, Repr

/-- The four fixed categories served by `XdgDefaultApps`. -/
inductive Category where
  | webBrowser
  | emailClient
  | fileManager
  | terminal
deriving DecidableEq, Repr

/-- The external operations used by the subcommands, over a world state `σ`. -/
structure World (σ : Type) where
  /-- Stands for `QUrl(s).scheme()` -/
  urlScheme : String → String
  /-- Stands for `QUrl(s).toLocalFile()` -/
  toLocalFile : String → String
  /-- Stands for `QFileInfo(path).exists()` -/
  fileExists : σ → String → Bool
  /-- Stands for `QMimeDatabase::mimeTypeForFile(path).name()` -/
  mimeTypeForFile : σ → String → String
  /-- Stands for `XdgMimeApps::defaultApp(key)`; `none` is the null pointer -/
  defaultApp : σ → String → Option XdgDesktopFile
  /-- Stands for `XdgMimeApps::setDefaultApp(key, app)` -/
  setDefaultApp : σ → String → XdgDesktopFile → Bool × σ
  /-- Stands for `XdgDesktopFile::load(name)`; `none` when it returns false -/
  load : σ → String → Option XdgDesktopFile
  /-- Stands for `XdgDesktopFile::startDetached(arg)` -/
  startDetached : σ → XdgDesktopFile → String → Bool × σ
  /-- Stands for `XdgDesktopFile::id(fileName)` -/
  desktopId : String → String
  /-- Stands for `QFileInfo(fileName).fileName()` -/
  baseName : String → String
  /-- Stands for `XdgDefaultApps::webBrowser()` and its three siblings -/
  namedDefault : Category → σ → Option XdgDesktopFile
  /-- Stands for `XdgDefaultApps::setWebBrowser(app)` and its three siblings -/
  setNamedDefault : Category → σ → XdgDesktopFile → Bool × σ
  /-- Stands for `XdgDefaultApps::webBrowsers()` and its three siblings -/
  namedCandidates : Category → σ → List XdgDesktopFile
  /-- The text printed for `--version` -/
  versionText : String

/-- One observable action of a run, in program order. -/
inductive Event where
  | stdout (text : String)
  | stderr (text : String)
  | fileExists (path : String) (result : Bool)
  | mimeTypeForFile (path : String) (result : String)
  | defaultApp (key : String) (result : Option XdgDesktopFile)
  | setDefaultApp (key : String) (app : XdgDesktopFile) (result : Bool)
  | load (name : String) (result : Option XdgDesktopFile)
  | startDetached (app : XdgDesktopFile) (arg : String) (result : Bool)
  | namedDefault (category : Category) (result : Option XdgDesktopFile)
  | setNamedDefault (category : Category) (app : XdgDesktopFile) (result : Bool)
  | namedCandidates (category : Category) (result : List XdgDesktopFile)
  | delete (app : XdgDesktopFile)
deriving DecidableEq, Repr

/-- The constant `EXIT_SUCCESS` -/
def EXIT_SUCCESS : Int := 0

/-- The constant `EXIT_FAILURE` -/
def EXIT_FAILURE : Int := 1

/-- What a subcommand leaves behind: exit status, actions, and the world. -/
structure RunResult (σ : Type) where
  exitCode : Int
  trace : List Event
  world : σ

/-! ## The shared command-line parser -/

/-- The state of the shared `QCommandLineParser` that a subcommand reads after
calling `parse(QCoreApplication::arguments())` with its own options added. -/
structure QCommandLineParser where
  /-- The return value of `parse` -/
  parseOk : Bool
  errorText : String
  helpText : String
  /-- Answer of `isSet(versionOption)` -/
  isSetVersion : Bool
  /-- Answer of `isSet(helpOption)` -/
  isSetHelp : Bool
  /-- Answer of `isSet("help-all")` -/
  isSetHelpAll : Bool
  /-- Answer of `isSet` of the option `s`, `set` -/
  isSetSet : Bool
  /-- Answer of `value` of the option `s`, `set` -/
  valueSet : String
  /-- Answer of `isSet` of the option `l`, `list-available` -/
  isSetListAvailable : Bool
  positionalArguments : List String
deriving DecidableEq, Repr

/-- The enum `CommandLineParseResult` of `matglobals.h`. -/
inductive CommandLineParseResult where
  | CommandLineOk
  | CommandLineError
  | CommandLineVersionRequested
  | CommandLineHelpRequested
deriving DecidableEq, Repr

open CommandLineParseResult

/-- Modelled from the spec: `showVersion`, of `MatCommandInterface` and of
`QCommandLineParser`, is not among the sources; it prints the version to
standard output and ends the process with exit status 0. -/
def showVersion {σ : Type} (W : World σ) (w : σ) : RunResult σ :=
  ⟨EXIT_SUCCESS, [Event.stdout W.versionText], w⟩

/-- Modelled from the spec: `showHelp`, of `MatCommandInterface` and of
`QCommandLineParser`, is not among the sources; it prints the help text to
standard output and ends the process with exit status 0. -/
def showHelp {σ : Type} (parser : QCommandLineParser) (w : σ) : RunResult σ :=
  ⟨EXIT_SUCCESS, [Event.stdout parser.helpText], w⟩

/-- The `CommandLineError` arm shared by every `run`: message, blank line, help
text on standard error, then `EXIT_FAILURE`. -/
def reportError {σ : Type} (parser : QCommandLineParser) (errorMessage : String) (w : σ) :
    RunResult σ :=
  ⟨EXIT_FAILURE,
   [Event.stderr errorMessage, Event.stderr "\n\n", Event.stderr parser.helpText], w⟩

/-- The method `QList::removeAt(i)`: the index must be valid; `none` is the failed
precondition (the assertion `index out of range`). -/
def removeAt (l : List String) (i : Nat) : Option (List String) :=
  if i < l.length then some (l.eraseIdx i) else none

/-! ## `open` (openmatcommand.cpp) -/

namespace OpenMatCommand

/-- The function `parseCommandLine` of openmatcommand.cpp: result code, `*files`,
`*errorMessage`. -/
def parseCommandLine (parser : QCommandLineParser) (files : List String)
    (errorMessage : String) : CommandLineParseResult × List String × String :=
  if !parser.parseOk then
    (CommandLineError, files, parser.errorText)
  else if parser.isSetVersion then
    (CommandLineVersionRequested, files, errorMessage)
  else if parser.isSetHelp || parser.isSetHelpAll then
    (CommandLineHelpRequested, files, errorMessage)
  else
    let fs := parser.positionalArguments
    if fs.length < 2 then
      (CommandLineError, files, "No file or URL given")
    else
      (CommandLineOk, fs.eraseIdx 0, errorMessage)

/-- The variables of `run` that live across iterations of its `for` loop. -/
structure LoopState (σ : Type) where
  isLocalFile : Bool
  localFilename : String
  success : Bool
  /-- Whether the loop was left through `break` -/
  stopped : Bool
  world : σ

/-- Lines 118-126: the scheme decides what is assigned; with any other scheme
nothing is assigned. -/
def classify {σ : Type} (W : World σ) (s : LoopState σ) (urlString : String) : LoopState σ :=
  let scheme := W.urlScheme urlString
  if scheme = "" then
    { s with isLocalFile := true, localFilename := urlString }
  else if scheme = "file" then
    { s with isLocalFile := true, localFilename := W.toLocalFile urlString }
  else
    s

/-- Lines 142-152: launch the application found, or say there is none. -/
def launch {σ : Type} (W : World σ) (s : LoopState σ) (urlString : String)
    (df : Option XdgDesktopFile) : LoopState σ × List Event :=
  match df with
  | some app =>
    let arg := if s.isLocalFile then s.localFilename else urlString
    let r := W.startDetached s.world app arg
    if !r.1 then
      ({ s with success := false, world := r.2 },
       [Event.startDetached app arg r.1,
        Event.stderr ("Error while running the default application (" ++ app.name ++ ") for "
          ++ urlString ++ "\n"),
        Event.delete app])
    else
      ({ s with world := r.2 }, [Event.startDetached app arg r.1, Event.delete app])
  | none =>
    (s, [Event.stdout ("No default application for '" ++ urlString ++ "'\n")])

/-- One iteration of the `for` loop of `run` (lines 118-152): the variables
after it and the actions it performed. -/
def loopBody {σ : Type} (W : World σ) (s0 : LoopState σ) (urlString : String) :
    LoopState σ × List Event :=
  let s := classify W s0 urlString
  if s.isLocalFile then
    let e := W.fileExists s.world s.localFilename
    if !e then
      ({ s with stopped := true },
       [Event.fileExists s.localFilename e,
        Event.stderr ("Cannot access " ++ urlString ++ ": No such file or directory\n")])
    else
      let mimeType := W.mimeTypeForFile s.world s.localFilename
      let df := W.defaultApp s.world mimeType
      let r := launch W s urlString df
      (r.1, [Event.fileExists s.localFilename e, Event.mimeTypeForFile s.localFilename mimeType,
             Event.defaultApp mimeType df] ++ r.2)
  else
    let contentType := "x-scheme-handler/" ++ W.urlScheme urlString
    let df := W.defaultApp s.world contentType
    let r := launch W s urlString df
    (r.1, Event.defaultApp contentType df :: r.2)

/-- The `for` loop of `run` over `files`. -/
def runLoop {σ : Type} (W : World σ) : LoopState σ → List String → LoopState σ × List Event
  | s, [] => (s, [])
  | s, urlString :: rest =>
    let r := loopBody W s urlString
    if r.1.stopped then r
    else
      let r2 := runLoop W r.1 rest
      (r2.1, r.2 ++ r2.2)

/-- The loop variables as declared at lines 92 and 112-116. -/
def initialState {σ : Type} (w : σ) : LoopState σ :=
  { isLocalFile := false, localFilename := "", success := true, stopped := false, world := w }

/-- The method `OpenMatCommand::run`. -/
def run {σ : Type} (W : World σ) (w : σ) (parser : QCommandLineParser) : RunResult σ :=
  match parseCommandLine parser [] "" with
  | (CommandLineOk, files, _) =>
    let r := runLoop W (initialState w) files
    ⟨if r.1.success then EXIT_SUCCESS else EXIT_FAILURE, r.2, r.1.world⟩
  | (CommandLineError, _, errorMessage) => reportError parser errorMessage w
  | (CommandLineVersionRequested, _, _) => showVersion W w
  | (CommandLineHelpRequested, _, _) => showHelp parser w

end OpenMatCommand

/-! ## `defapp` (defappmatcommand.cpp) -/

inductive DefAppCommandMode where
  | CommandModeGetDefApp
  | CommandModeSetDefApp
deriving DecidableEq, Repr

structure DefAppData where
  mode : DefAppCommandMode := DefAppCommandMode.CommandModeGetDefApp
  defAppName : String := ""
  mimeTypes : List String := []
deriving DecidableEq, Repr

namespace DefAppMatCommand

open DefAppCommandMode

/-- The function `parseCommandLine` of defappmatcommand.cpp: result code, `*data`,
`*errorMessage`. -/
def parseCommandLine (parser : QCommandLineParser) (data : DefAppData)
    (errorMessage : String) : CommandLineParseResult × DefAppData × String :=
  if !parser.parseOk then
    (CommandLineError, data, parser.errorText)
  else if parser.isSetVersion then
    (CommandLineVersionRequested, data, errorMessage)
  else if parser.isSetHelp || parser.isSetHelpAll then
    (CommandLineHelpRequested, data, errorMessage)
  else
    let isDefAppNameSet := parser.isSetSet
    let defAppName := if isDefAppNameSet then parser.valueSet else ""
    if isDefAppNameSet = true ∧ defAppName = "" then
      (CommandLineError, data, "No application name")
    else
      let mimeTypes := parser.positionalArguments
      if mimeTypes.length < 2 then
        (CommandLineError, data, "MimeType missing")
      else
        let mimeTypes := mimeTypes.eraseIdx 0
        if isDefAppNameSet = false ∧ mimeTypes.length > 1 then
          (CommandLineError, data, "Only one mimeType, please")
        else
          (CommandLineOk,
           { mode := if isDefAppNameSet then CommandModeSetDefApp else CommandModeGetDefApp,
             defAppName := defAppName,
             mimeTypes := mimeTypes },
           errorMessage)

/-- The `for` loop of the Set branch of `run` (lines 163-170): world, `success`
and actions after it. -/
def setLoop {σ : Type} (W : World σ) (app : XdgDesktopFile) :
    σ → Bool → List String → σ × Bool × List Event
  | w, success, [] => (w, success, [])
  | w, success, mimeType :: rest =>
    let r := W.setDefaultApp w mimeType app
    if !r.1 then
      let r2 := setLoop W app r.2 false rest
      (r2.1, r2.2.1,
       [Event.setDefaultApp mimeType app r.1,
        Event.stderr ("Could not set '" ++ app.fileName ++ "' as default for '" ++ mimeType
          ++ "'\n")] ++ r2.2.2)
    else
      let r2 := setLoop W app r.2 success rest
      (r2.1, r2.2.1,
       [Event.setDefaultApp mimeType app r.1,
        Event.stdout ("Set '" ++ app.fileName ++ "' as default for '" ++ mimeType ++ "'\n")]
         ++ r2.2.2)

/-- The method `DefAppMatCommand::run`, given a non-null parser.  `none` is the failed
precondition of `constFirst()` on an empty list. -/
def run {σ : Type} (W : World σ) (w : σ) (parser : QCommandLineParser) :
    Option (RunResult σ) :=
  match parseCommandLine parser {} "" with
  | (CommandLineOk, data, _) =>
    match data.mode with
    | CommandModeGetDefApp =>
      match data.mimeTypes with
      | [] => none
      | mimeType :: _ =>
        let defApp := W.defaultApp w mimeType
        match defApp with
        | some app =>
          some ⟨EXIT_SUCCESS,
            [Event.defaultApp mimeType defApp,
             Event.stdout (W.desktopId app.fileName ++ "\n"), Event.delete app], w⟩
        | none => some ⟨EXIT_SUCCESS, [Event.defaultApp mimeType defApp], w⟩
    | CommandModeSetDefApp =>
      match W.load w data.defAppName with
      | none =>
        some ⟨EXIT_FAILURE,
          [Event.load data.defAppName none,
           Event.stderr ("Could not find find '" ++ data.defAppName ++ "'\n")], w⟩
      | some app =>
        let r := setLoop W app w true data.mimeTypes
        some ⟨if r.2.1 then EXIT_SUCCESS else EXIT_FAILURE,
          Event.load data.defAppName (some app) :: r.2.2, r.1⟩
  | (CommandLineError, _, errorMessage) => some (reportError parser errorMessage w)
  | (CommandLineVersionRequested, _, _) => some (showVersion W w)
  | (CommandLineHelpRequested, _, _) => some (showHelp parser w)

end DefAppMatCommand

/-! ## `def-web-browser` (defwebbrowsermatcommand.cpp) -/

inductive DefWebBrowserCommandMode where
  | CommandModeGetDefWebBrowser
  | CommandModeSetDefWebBrowser
  | CommandModeListAvailableWebBrowsers
deriving DecidableEq, Repr

structure DefWebBrowserData where
  mode : DefWebBrowserCommandMode := DefWebBrowserCommandMode.CommandModeGetDefWebBrowser
  defWebBrowserName : String := ""
deriving DecidableEq, Repr

namespace DefWebBrowserMatCommand

open DefWebBrowserCommandMode

/-- The function `parseCommandLine` of defwebbrowsermatcommand.cpp: result code, `*data`,
`*errorMessage`; `none` when `removeAt(0)` is out of range. -/
def parseCommandLine (parser : QCommandLineParser) (data : DefWebBrowserData)
    (errorMessage : String) : Option (CommandLineParseResult × DefWebBrowserData × String) :=
  if !parser.parseOk then
    some (CommandLineError, data, parser.errorText)
  else if parser.isSetVersion then
    some (CommandLineVersionRequested, data, errorMessage)
  else if parser.isSetHelp || parser.isSetHelpAll then
    some (CommandLineHelpRequested, data, errorMessage)
  else
    let isListAvailableSet := parser.isSetListAvailable
    let isDefWebBrowserNameSet := parser.isSetSet
    let defWebBrowserName := if isDefWebBrowserNameSet then parser.valueSet else ""
    match removeAt parser.positionalArguments 0 with
    | none => none
    | some posArgs =>
      if isDefWebBrowserNameSet = true ∧ ¬ posArgs = [] then
        some (CommandLineError, data,
          "Extra arguments given: " ++ String.intercalate "," posArgs)
      else if isDefWebBrowserNameSet = false ∧ ¬ posArgs = [] then
        some (CommandLineError, data, "To set the default browser use the -s/--set option")
      else if isListAvailableSet = true ∧ (isDefWebBrowserNameSet = true ∨ ¬ posArgs = []) then
        some (CommandLineError, data,
          "list-available can't be used with other options and doesn't take arguments")
      else if isListAvailableSet then
        some (CommandLineOk, { data with mode := CommandModeListAvailableWebBrowsers }, errorMessage)
      else
        some (CommandLineOk,
          { mode := if isDefWebBrowserNameSet then CommandModeSetDefWebBrowser
                    else CommandModeGetDefWebBrowser,
            defWebBrowserName := defWebBrowserName },
          errorMessage)

/-- The method `DefWebBrowserMatCommand::run`, given a non-null parser; `none` when
`parseCommandLine` fails its assertion. -/
def run {σ : Type} (W : World σ) (w : σ) (parser : QCommandLineParser) :
    Option (RunResult σ) :=
  match parseCommandLine parser {} "" with
  | none => none
  | some (CommandLineOk, data, _) =>
    match data.mode with
    | CommandModeListAvailableWebBrowsers =>
      let webBrowsers := W.namedCandidates Category.webBrowser w
      some ⟨EXIT_SUCCESS,
        Event.namedCandidates Category.webBrowser webBrowsers
          :: (webBrowsers.map (fun app => Event.stdout (W.desktopId app.fileName ++ "\n"))
              ++ webBrowsers.map Event.delete), w⟩
    | CommandModeGetDefWebBrowser =>
      let defWebBrowser := W.namedDefault Category.webBrowser w
      match defWebBrowser with
      | some app =>
        if app.isValid then
          some ⟨EXIT_SUCCESS,
            [Event.namedDefault Category.webBrowser defWebBrowser,
             Event.stdout (W.desktopId app.fileName ++ "\n"), Event.delete app], w⟩
        else
          some ⟨EXIT_SUCCESS, [Event.namedDefault Category.webBrowser defWebBrowser], w⟩
      | none => some ⟨EXIT_SUCCESS, [Event.namedDefault Category.webBrowser defWebBrowser], w⟩
    | CommandModeSetDefWebBrowser =>
      match W.load w data.defWebBrowserName with
      | some toSetDefWebBrowser =>
        let r := W.setNamedDefault Category.webBrowser w toSetDefWebBrowser
        if r.1 then
          some ⟨EXIT_SUCCESS,
            [Event.load data.defWebBrowserName (some toSetDefWebBrowser),
             Event.setNamedDefault Category.webBrowser toSetDefWebBrowser r.1,
             Event.stdout ("Set '" ++ toSetDefWebBrowser.fileName ++ "' as the default web browser\n")],
            r.2⟩
        else
          some ⟨EXIT_FAILURE,
            [Event.load data.defWebBrowserName (some toSetDefWebBrowser),
             Event.setNamedDefault Category.webBrowser toSetDefWebBrowser r.1,
             Event.stderr ("Could not set '" ++ toSetDefWebBrowser.fileName
               ++ "' as the default web browser\n")],
            r.2⟩
      | none =>
        some ⟨EXIT_FAILURE,
          [Event.load data.defWebBrowserName none,
           Event.stderr ("Could not find find '" ++ data.defWebBrowserName ++ "'\n")], w⟩
  | some (CommandLineError, _, errorMessage) => some (reportError parser errorMessage w)
  | some (CommandLineVersionRequested, _, _) => some (showVersion W w)
  | some (CommandLineHelpRequested, _, _) => some (showHelp parser w)

end DefWebBrowserMatCommand

/-! ## `def-email-client` (defemailclientmatcommand.cpp) -/

inductive DefEmailClientCommandMode where
  | CommandModeGetDefEmailClient
  | CommandModeSetDefEmailClient
  | CommandModeListAvailableEmailClients
deriving DecidableEq, Repr

structure DefEmailClientData where
  mode : DefEmailClientCommandMode := DefEmailClientCommandMode.CommandModeGetDefEmailClient
  defEmailClientName : String := ""
deriving DecidableEq, Repr

namespace DefEmailClientMatCommand

open DefEmailClientCommandMode

/-- The function `parseCommandLine` of defemailclientmatcommand.cpp: result code, `*data`,
`*errorMessage`; `none` when `removeAt(0)` is out of range. -/
def parseCommandLine (parser : QCommandLineParser) (data : DefEmailClientData)
    (errorMessage : String) : Option (CommandLineParseResult × DefEmailClientData × String) :=
  if !parser.parseOk then
    some (CommandLineError, data, parser.errorText)
  else if parser.isSetVersion then
    some (CommandLineVersionRequested, data, errorMessage)
  else if parser.isSetHelp || parser.isSetHelpAll then
    some (CommandLineHelpRequested, data, errorMessage)
  else
    let isListAvailableSet := parser.isSetListAvailable
    let isDefEmailClientNameSet := parser.isSetSet
    let defEmailClientName := if isDefEmailClientNameSet then parser.valueSet else ""
    match removeAt parser.positionalArguments 0 with
    | none => none
    | some posArgs =>
      if isDefEmailClientNameSet = true ∧ ¬ posArgs = [] then
        some (CommandLineError, data,
          "Extra arguments given: " ++ String.intercalate "," posArgs)
      else if isDefEmailClientNameSet = false ∧ ¬ posArgs = [] then
        some (CommandLineError, data, "To set the default email client use the -s/--set option")
      else if isListAvailableSet = true ∧ (isDefEmailClientNameSet = true ∨ ¬ posArgs = []) then
        some (CommandLineError, data,
          "list-available can't be used with other options and doesn't take arguments")
      else if isListAvailableSet then
        some (CommandLineOk, { data with mode := CommandModeListAvailableEmailClients }, errorMessage)
      else
        some (CommandLineOk,
          { mode := if isDefEmailClientNameSet then CommandModeSetDefEmailClient
                    else CommandModeGetDefEmailClient,
            defEmailClientName := defEmailClientName },
          errorMessage)

/-- The method `DefEmailClientMatCommand::run`, given a non-null parser; `none` when
`parseCommandLine` fails its assertion. -/
def run {σ : Type} (W : World σ) (w : σ) (parser : QCommandLineParser) :
    Option (RunResult σ) :=
  match parseCommandLine parser {} "" with
  | none => none
  | some (CommandLineOk, data, _) =>
    match data.mode with
    | CommandModeListAvailableEmailClients =>
      let emailClients := W.namedCandidates Category.emailClient w
      some ⟨EXIT_SUCCESS,
        Event.namedCandidates Category.emailClient emailClients
          :: (emailClients.map (fun app => Event.stdout (W.desktopId app.fileName ++ "\n"))
              ++ emailClients.map Event.delete), w⟩
    | CommandModeGetDefEmailClient =>
      let defEmailClient := W.namedDefault Category.emailClient w
      match defEmailClient with
      | some app =>
        if app.isValid then
          some ⟨EXIT_SUCCESS,
            [Event.namedDefault Category.emailClient defEmailClient,
             Event.stdout (W.desktopId app.fileName ++ "\n"), Event.delete app], w⟩
        else
          some ⟨EXIT_SUCCESS, [Event.namedDefault Category.emailClient defEmailClient], w⟩
      | none => some ⟨EXIT_SUCCESS, [Event.namedDefault Category.emailClient defEmailClient], w⟩
    | CommandModeSetDefEmailClient =>
      match W.load w data.defEmailClientName with
      | some toSetDefEmailClient =>
        let r := W.setNamedDefault Category.emailClient w toSetDefEmailClient
        if r.1 then
          some ⟨EXIT_SUCCESS,
            [Event.load data.defEmailClientName (some toSetDefEmailClient),
             Event.setNamedDefault Category.emailClient toSetDefEmailClient r.1,
             Event.stdout ("Set '" ++ toSetDefEmailClient.fileName ++ "' as the default email client\n")],
            r.2⟩
        else
          some ⟨EXIT_FAILURE,
            [Event.load data.defEmailClientName (some toSetDefEmailClient),
             Event.setNamedDefault Category.emailClient toSetDefEmailClient r.1,
             Event.stderr ("Could not set '" ++ toSetDefEmailClient.fileName
               ++ "' as the default email client\n")],
            r.2⟩
      | none =>
        some ⟨EXIT_FAILURE,
          [Event.load data.defEmailClientName none,
           Event.stderr ("Could not find find '" ++ data.defEmailClientName ++ "'\n")], w⟩
  | some (CommandLineError, _, errorMessage) => some (reportError parser errorMessage w)
  | some (CommandLineVersionRequested, _, _) => some (showVersion W w)
  | some (CommandLineHelpRequested, _, _) => some (showHelp parser w)

end DefEmailClientMatCommand

/-! ## `def-file-manager` (deffilemanagermatcommand.cpp) -/

inductive DefFileManagerCommandMode where
  | CommandModeGetDefFileManager
  | CommandModeSetDefFileManager
  | CommandModeListAvailableFileManagers
deriving DecidableEq, Repr

structure DefFileManagerData where
  mode : DefFileManagerCommandMode := DefFileManagerCommandMode.CommandModeGetDefFileManager
  defFileManagerName : String := ""
deriving DecidableEq, Repr

namespace DefFileManagerMatCommand

open DefFileManagerCommandMode

/-- The function `parseCommandLine` of deffilemanagermatcommand.cpp: result code, `*data`,
`*errorMessage`; `none` when `removeAt(0)` is out of range. -/
def parseCommandLine (parser : QCommandLineParser) (data : DefFileManagerData)
    (errorMessage : String) : Option (CommandLineParseResult × DefFileManagerData × String) :=
  if !parser.parseOk then
    some (CommandLineError, data, parser.errorText)
  else if parser.isSetVersion then
    some (CommandLineVersionRequested, data, errorMessage)
  else if parser.isSetHelp || parser.isSetHelpAll then
    some (CommandLineHelpRequested, data, errorMessage)
  else
    let isListAvailableSet := parser.isSetListAvailable
    let isDefFileManagerNameSet := parser.isSetSet
    let defFileManagerName := if isDefFileManagerNameSet then parser.valueSet else ""
    match removeAt parser.positionalArguments 0 with
    | none => none
    | some posArgs =>
      if isDefFileManagerNameSet = true ∧ ¬ posArgs = [] then
        some (CommandLineError, data,
          "Extra arguments given: " ++ String.intercalate "," posArgs)
      else if isDefFileManagerNameSet = false ∧ ¬ posArgs = [] then
        some (CommandLineError, data, "To set the default file manager use the -s/--set option")
      else if isListAvailableSet = true ∧ (isDefFileManagerNameSet = true ∨ ¬ posArgs = []) then
        some (CommandLineError, data,
          "list-available can't be used with other options and doesn't take arguments")
      else if isListAvailableSet then
        some (CommandLineOk, { data with mode := CommandModeListAvailableFileManagers }, errorMessage)
      else
        some (CommandLineOk,
          { mode := if isDefFileManagerNameSet then CommandModeSetDefFileManager
                    else CommandModeGetDefFileManager,
            defFileManagerName := defFileManagerName },
          errorMessage)

/-- The method `DefFileManagerMatCommand::run`, given a non-null parser; `none` when
`parseCommandLine` fails its assertion. -/
def run {σ : Type} (W : World σ) (w : σ) (parser : QCommandLineParser) :
    Option (RunResult σ) :=
  match parseCommandLine parser {} "" with
  | none => none
  | some (CommandLineOk, data, _) =>
    match data.mode with
    | CommandModeListAvailableFileManagers =>
      let fileManagers := W.namedCandidates Category.fileManager w
      some ⟨EXIT_SUCCESS,
        Event.namedCandidates Category.fileManager fileManagers
          :: (fileManagers.map (fun app => Event.stdout (W.desktopId app.fileName ++ "\n"))
              ++ fileManagers.map Event.delete), w⟩
    | CommandModeGetDefFileManager =>
      let defFileManager := W.namedDefault Category.fileManager w
      match defFileManager with
      | some app =>
        if app.isValid then
          some ⟨EXIT_SUCCESS,
            [Event.namedDefault Category.fileManager defFileManager,
             Event.stdout (W.desktopId app.fileName ++ "\n"), Event.delete app], w⟩
        else
          some ⟨EXIT_SUCCESS, [Event.namedDefault Category.fileManager defFileManager], w⟩
      | none => some ⟨EXIT_SUCCESS, [Event.namedDefault Category.fileManager defFileManager], w⟩
    | CommandModeSetDefFileManager =>
      match W.load w data.defFileManagerName with
      | some toSetDefFileManager =>
        let r := W.setNamedDefault Category.fileManager w toSetDefFileManager
        if r.1 then
          some ⟨EXIT_SUCCESS,
            [Event.load data.defFileManagerName (some toSetDefFileManager),
             Event.setNamedDefault Category.fileManager toSetDefFileManager r.1,
             Event.stdout ("Set '" ++ toSetDefFileManager.fileName ++ "' as the default file manager\n")],
            r.2⟩
        else
          some ⟨EXIT_FAILURE,
            [Event.load data.defFileManagerName (some toSetDefFileManager),
             Event.setNamedDefault Category.fileManager toSetDefFileManager r.1,
             Event.stderr ("Could not set '" ++ toSetDefFileManager.fileName
               ++ "' as the default file manager\n")],
            r.2⟩
      | none =>
        some ⟨EXIT_FAILURE,
          [Event.load data.defFileManagerName none,
           Event.stderr ("Could not find find '" ++ data.defFileManagerName ++ "'\n")], w⟩
  | some (CommandLineError, _, errorMessage) => some (reportError parser errorMessage w)
  | some (CommandLineVersionRequested, _, _) => some (showVersion W w)
  | some (CommandLineHelpRequested, _, _) => some (showHelp parser w)

end DefFileManagerMatCommand

/-! ## `def-terminal` (defterminalmatcommand.cpp) -/

inductive DefTerminalCommandMode where
  | CommandModeGetDefTerminal
  | CommandModeSetDefTerminal
  | CommandModeListAvailableTerminals
deriving DecidableEq, Repr

structure DefTerminalData where
  mode : DefTerminalCommandMode := DefTerminalCommandMode.CommandModeGetDefTerminal
  defTerminalName : String := ""
deriving DecidableEq, Repr

namespace DefTerminalMatCommand

open DefTerminalCommandMode

/-- The function `parseCommandLine` of defterminalmatcommand.cpp: result code, `*data`,
`*errorMessage`; `none` when `removeAt(0)` is out of range. -/
def parseCommandLine (parser : QCommandLineParser) (data : DefTerminalData)
    (errorMessage : String) : Option (CommandLineParseResult × DefTerminalData × String) :=
  if !parser.parseOk then
    some (CommandLineError, data, parser.errorText)
  else if parser.isSetVersion then
    some (CommandLineVersionRequested, data, errorMessage)
  else if parser.isSetHelp || parser.isSetHelpAll then
    some (CommandLineHelpRequested, data, errorMessage)
  else
    let isListAvailableSet := parser.isSetListAvailable
    let isDefTerminalNameSet := parser.isSetSet
    let defTerminalName := if isDefTerminalNameSet then parser.valueSet else ""
    match removeAt parser.positionalArguments 0 with
    | none => none
    | some posArgs =>
      if isDefTerminalNameSet = true ∧ ¬ posArgs = [] then
        some (CommandLineError, data,
          "Extra arguments given: " ++ String.intercalate "," posArgs)
      else if isDefTerminalNameSet = false ∧ ¬ posArgs = [] then
        some (CommandLineError, data, "To set the default terminal use the -s/--set option")
      else if isListAvailableSet = true ∧ (isDefTerminalNameSet = true ∨ ¬ posArgs = []) then
        some (CommandLineError, data,
          "list-available can't be used with other options and doesn't take arguments")
      else if isListAvailableSet then
        some (CommandLineOk, { data with mode := CommandModeListAvailableTerminals }, errorMessage)
      else
        some (CommandLineOk,
          { mode := if isDefTerminalNameSet then CommandModeSetDefTerminal
                    else CommandModeGetDefTerminal,
            defTerminalName := defTerminalName },
          errorMessage)

/-- The method `DefTerminalMatCommand::run`, given a non-null parser; `none` when
`parseCommandLine` fails its assertion. -/
def run {σ : Type} (W : World σ) (w : σ) (parser : QCommandLineParser) :
    Option (RunResult σ) :=
  match parseCommandLine parser {} "" with
  | none => none
  | some (CommandLineOk, data, _) =>
    match data.mode with
    | CommandModeListAvailableTerminals =>
      let terminals := W.namedCandidates Category.terminal w
      some ⟨EXIT_SUCCESS,
        Event.namedCandidates Category.terminal terminals
          :: (terminals.map (fun app => Event.stdout (W.baseName app.fileName ++ "\n"))
              ++ terminals.map Event.delete), w⟩
    | CommandModeGetDefTerminal =>
      let defTerminal := W.namedDefault Category.terminal w
      match defTerminal with
      | some app =>
        if app.isValid then
          some ⟨EXIT_SUCCESS,
            [Event.namedDefault Category.terminal defTerminal,
             Event.stdout (W.baseName app.fileName ++ "\n"), Event.delete app], w⟩
        else
          some ⟨EXIT_SUCCESS, [Event.namedDefault Category.terminal defTerminal], w⟩
      | none => some ⟨EXIT_SUCCESS, [Event.namedDefault Category.terminal defTerminal], w⟩
    | CommandModeSetDefTerminal =>
      match W.load w data.defTerminalName with
      | some toSetDefTerminal =>
        let r := W.setNamedDefault Category.terminal w toSetDefTerminal
        if r.1 then
          some ⟨EXIT_SUCCESS,
            [Event.load data.defTerminalName (some toSetDefTerminal),
             Event.setNamedDefault Category.terminal toSetDefTerminal r.1,
             Event.stdout ("Set '" ++ toSetDefTerminal.fileName ++ "' as the default terminal\n")],
            r.2⟩
        else
          some ⟨EXIT_FAILURE,
            [Event.load data.defTerminalName (some toSetDefTerminal),
             Event.setNamedDefault Category.terminal toSetDefTerminal r.1,
             Event.stderr ("Could not set '" ++ toSetDefTerminal.fileName
               ++ "' as the default terminal\n")],
            r.2⟩
      | none =>
        some ⟨EXIT_FAILURE,
          [Event.load data.defTerminalName none,
           Event.stderr ("Could not find find '" ++ data.defTerminalName ++ "'\n")], w⟩
  | some (CommandLineError, _, errorMessage) => some (reportError parser errorMessage w)
  | some (CommandLineVersionRequested, _, _) => some (showVersion W w)
  | some (CommandLineHelpRequested, _, _) => some (showHelp parser w)

end DefTerminalMatCommand

/-! ## Tokenization

`QCommandLineParser::parse` belongs to Qt, not to the repository.  The entry
point below takes it as a parameter (`Tokenizer`).  For concrete argument
vectors, `QCommandLineParser.parse` follows Qt's algorithm in its default modes:
short options may be compacted, options are recognised after positional
arguments, and an option that takes a value reads it after `=` or from the next
argument.  The help text is not generated. -/

/-- An option as registered with `addOption`: its names, and the name of its
value, empty when the option takes none. -/
structure QCommandLineOption where
  names : List String
  valueName : String := ""
deriving DecidableEq, Repr

/-- Tokenization of the process arguments for the options registered so far,
as the parser state read afterwards. -/
abbrev Tokenizer : Type := List QCommandLineOption → List String → QCommandLineParser

/-- The two options added by `addHelpOption`. -/
def helpOptions : List QCommandLineOption := [⟨["h", "help"], ""⟩, ⟨["help-all"], ""⟩]

/-- The option added by `addVersionOption`. -/
def versionOption : QCommandLineOption := ⟨["v", "version"], ""⟩

/-- The option `-l`, `--list-available` of the named-default commands. -/
def listAvailableOption : QCommandLineOption := ⟨["l", "list-available"], ""⟩

/-- The options a named-default parser registers, in order: `-s`, `--set` with
the given value name, `-l`, `--list-available`, help and version. -/
def namedDefaultOptions (valueName : String) : List QCommandLineOption :=
  [⟨["s", "set"], valueName⟩, listAvailableOption] ++ helpOptions ++ [versionOption]

/-- The working state of Qt's parser. -/
structure QCommandLineParserPrivate where
  error : Bool := false
  errorText : String := ""
  optionNames : List String := []
  unknownOptionNames : List String := []
  /-- The values found, each with the names of its option -/
  optionValues : List (List String × String) := []
  positionalArgumentList : List String := []
  forcePositional : Bool := false
  /-- The option whose value is the next argument, and the argument naming it -/
  awaiting : Option (List String × String) := none
deriving DecidableEq, Repr

namespace QCommandLineParserPrivate

/-- The characters before the first `=`. -/
def beforeAssign : List Char → List Char
  | [] => []
  | c :: cs => if c = '=' then [] else c :: beforeAssign cs

/-- The characters after the first `=`, if there is one. -/
def afterAssign : List Char → Option (List Char)
  | [] => none
  | c :: cs => if c = '=' then some cs else afterAssign cs

/-- The registered option that has `name` among its names. -/
def findOption (options : List QCommandLineOption) (name : String) : Option QCommandLineOption :=
  options.find? (fun o => o.names.contains name)

/-- Qt's `parseOptionValue`: the value of a known option is what follows `=` in
the argument, or else the next argument; a flag must not have `=`. -/
def parseOptionValue (options : List QCommandLineOption) (st : QCommandLineParserPrivate)
    (optionName argument : String) : QCommandLineParserPrivate :=
  match findOption options optionName with
  | none => st
  | some o =>
    if o.valueName ≠ "" then
      match afterAssign argument.data with
      | none => { st with awaiting := some (o.names, argument) }
      | some v => { st with optionValues := st.optionValues ++ [(o.names, String.mk v)] }
    else
      match afterAssign argument.data with
      | some _ =>
        { st with
          error := true,
          errorText := "Unexpected value after '" ++ String.mk (beforeAssign argument.data)
            ++ "'." }
      | none => st

/-- The loop over the characters of a compacted short-option argument: the
state, whether a value was found, and the last option name looked at. -/
def scanShort (options : List QCommandLineOption) :
    QCommandLineParserPrivate → List Char → String → QCommandLineParserPrivate × Bool × String
  | st, [], last => (st, false, last)
  | st, c :: cs, _ =>
    match findOption options (String.singleton c) with
    | none =>
      scanShort options
        { st with error := true,
                  unknownOptionNames := st.unknownOptionNames ++ [String.singleton c] }
        cs (String.singleton c)
    | some o =>
      if o.valueName ≠ "" then
        match cs with
        | [] => ({ st with optionNames := st.optionNames ++ [String.singleton c] }, false,
                 String.singleton c)
        | '=' :: v =>
          ({ st with optionNames := st.optionNames ++ [String.singleton c],
                     optionValues := st.optionValues ++ [(o.names, String.mk v)] }, true,
           String.singleton c)
        | v =>
          ({ st with optionNames := st.optionNames ++ [String.singleton c],
                     optionValues := st.optionValues ++ [(o.names, String.mk v)] }, true,
           String.singleton c)
      else
        match cs with
        | '=' :: _ =>
          ({ st with optionNames := st.optionNames ++ [String.singleton c] }, false,
           String.singleton c)
        | _ =>
          scanShort options { st with optionNames := st.optionNames ++ [String.singleton c] }
            cs (String.singleton c)

/-- One argument of the loop of Qt's `parse`. -/
def step (options : List QCommandLineOption) (st : QCommandLineParserPrivate)
    (argument : String) : QCommandLineParserPrivate :=
  match st.awaiting with
  | some (names, _) =>
    { st with optionValues := st.optionValues ++ [(names, argument)], awaiting := none }
  | none =>
    if st.forcePositional then
      { st with positionalArgumentList := st.positionalArgumentList ++ [argument] }
    else
      match argument.data with
      | ['-', '-'] => { st with forcePositional := true }
      | '-' :: '-' :: body =>
        match findOption options (String.mk (beforeAssign body)) with
        | some _ =>
          parseOptionValue options
            { st with optionNames := st.optionNames ++ [String.mk (beforeAssign body)] }
            (String.mk (beforeAssign body)) argument
        | none =>
          { st with error := true,
                    unknownOptionNames :=
                      st.unknownOptionNames ++ [String.mk (beforeAssign body)] }
      | ['-'] => { st with positionalArgumentList := st.positionalArgumentList ++ [argument] }
      | '-' :: shorts =>
        let r := scanShort options st shorts ""
        if r.2.1 then r.1 else parseOptionValue options r.1 r.2.2 argument
      | _ => { st with positionalArgumentList := st.positionalArgumentList ++ [argument] }

/-- The end of the arguments: an option still waiting for its value is an
error. -/
def finish (st : QCommandLineParserPrivate) : QCommandLineParserPrivate :=
  match st.awaiting with
  | some (_, argument) =>
    { st with error := true, errorText := "Missing value after '" ++ argument ++ "'.",
              awaiting := none }
  | none => st

/-- Qt's `isSet(name)`. -/
def isSet (options : List QCommandLineOption) (st : QCommandLineParserPrivate)
    (name : String) : Bool :=
  match findOption options name with
  | none => st.optionNames.contains name
  | some o => st.optionNames.any (fun n => o.names.contains n)

/-- Qt's `value(name)`: the last value given, or the empty string. -/
def value (options : List QCommandLineOption) (st : QCommandLineParserPrivate)
    (name : String) : String :=
  match findOption options name with
  | none => ""
  | some o =>
    (((st.optionValues.filter (fun p => p.1 = o.names)).map (fun p => p.2)).getLast?).getD ""

/-- Qt's `errorText()`. -/
def finalErrorText (st : QCommandLineParserPrivate) : String :=
  if st.errorText ≠ "" then st.errorText
  else
    match st.unknownOptionNames with
    | [] => ""
    | [name] => "Unknown option '" ++ name ++ "'."
    | names => "Unknown options: " ++ String.intercalate ", " names ++ "."

end QCommandLineParserPrivate

/-- Qt's `parse(arguments)` for the registered `options`; the first argument is
the executable name. -/
def QCommandLineParser.parse : Tokenizer := fun options argv =>
  let st := QCommandLineParserPrivate.finish
    ((argv.drop 1).foldl (QCommandLineParserPrivate.step options) {})
  { parseOk := !st.error && !argv.isEmpty,
    errorText := QCommandLineParserPrivate.finalErrorText st,
    helpText := "",
    isSetVersion := QCommandLineParserPrivate.isSet options st "version",
    isSetHelp := QCommandLineParserPrivate.isSet options st "help",
    isSetHelpAll := QCommandLineParserPrivate.isSet options st "help-all",
    isSetSet := QCommandLineParserPrivate.isSet options st "set",
    valueSet := QCommandLineParserPrivate.value options st "set",
    isSetListAvailable := QCommandLineParserPrivate.isSet options st "list-available",
    positionalArguments := st.positionalArgumentList }

/-! ## The entry point (qtxdg-mat.cpp) -/

/-- Modelled from the spec: `MatCommandInterface` (matcommandinterface.h is not
among the sources), a subcommand with its name, its short description and its
`run`, which receives the positional arguments. -/
structure MatCommandInterface (σ : Type) where
  name : String
  description : String
  run : List String → σ → Option (RunResult σ)

/-- Modelled from the spec: `MatCommandManager::add` (matcommandmanager.cpp is
not among the sources) registers a command after those already present; a name
that is already present is fatal (`none`). -/
def MatCommandManager.add {σ : Type} (commands : List (MatCommandInterface σ))
    (cmd : MatCommandInterface σ) : Option (List (MatCommandInterface σ)) :=
  if commands.any (fun c => c.name = cmd.name) then none else some (commands ++ [cmd])

/-- Modelled from the spec: `MatCommandManager::descriptionsHelpText`
(matcommandmanager.cpp is not among the sources) concatenates, in registration
order, the name and the short description of each command; one line per command
is assumed. -/
def MatCommandManager.descriptionsHelpText {σ : Type}
    (commands : List (MatCommandInterface σ)) : String :=
  String.join (commands.map (fun c => c.name ++ "  " ++ c.description ++ "\n"))

/-- The command object built by `new DefAppMatCommand(&parser)`; its `run`
ignores its argument and parses the process arguments with the options that
`parseCommandLine` of defappmatcommand.cpp registers. -/
def DefAppMatCommand.command {σ : Type} (tok : Tokenizer) (W : World σ) (argv : List String) :
    MatCommandInterface σ :=
  { name := "defapp",
    description := "Get/Set the default application for a mimetype",
    run := fun _ w =>
      DefAppMatCommand.run W w
        (tok ([⟨["s", "set"], "app name"⟩] ++ helpOptions ++ [versionOption]) argv) }

/-- The command object built by `new OpenMatCommand(&parser)`. -/
def OpenMatCommand.command {σ : Type} (tok : Tokenizer) (W : World σ) (argv : List String) :
    MatCommandInterface σ :=
  { name := "open",
    description := "Open files with the default application",
    run := fun _ w => some (OpenMatCommand.run W w (tok (helpOptions ++ [versionOption]) argv)) }

/-- The command object built by `new DefWebBrowserMatCommand(&parser)`. -/
def DefWebBrowserMatCommand.command {σ : Type} (tok : Tokenizer) (W : World σ)
    (argv : List String) : MatCommandInterface σ :=
  { name := "def-web-browser",
    description := "Get/Set the default web browser",
    run := fun _ w =>
      DefWebBrowserMatCommand.run W w
        (tok (namedDefaultOptions "web bowser") argv) }

/-- The command object built by `new DefEmailClientMatCommand(&parser)`. -/
def DefEmailClientMatCommand.command {σ : Type} (tok : Tokenizer) (W : World σ)
    (argv : List String) : MatCommandInterface σ :=
  { name := "def-email-client",
    description := "Get/Set the default email client",
    run := fun _ w =>
      DefEmailClientMatCommand.run W w
        (tok (namedDefaultOptions "email client") argv) }

/-- The command object built by `new DefFileManagerMatCommand(&parser)`. -/
def DefFileManagerMatCommand.command {σ : Type} (tok : Tokenizer) (W : World σ)
    (argv : List String) : MatCommandInterface σ :=
  { name := "def-file-manager",
    description := "Get/Set the default file manager",
    run := fun _ w =>
      DefFileManagerMatCommand.run W w
        (tok (namedDefaultOptions "file manager") argv) }

/-- The command object built by `new DefTerminalMatCommand(&parser)`. -/
def DefTerminalMatCommand.command {σ : Type} (tok : Tokenizer) (W : World σ)
    (argv : List String) : MatCommandInterface σ :=
  { name := "def-terminal",
    description := "Get/Set the default terminal",
    run := fun _ w =>
      DefTerminalMatCommand.run W w
        (tok (namedDefaultOptions "terminal") argv) }

namespace Main

/-- The function `showHelp` of qtxdg-mat.cpp (lines 41-55). -/
def showHelp {σ : Type} (parserHelp commandsDescription : String) (exitCode : Int) (w : σ) :
    RunResult σ :=
  ⟨exitCode,
   [Event.stdout (parserHelp ++ "\n" ++ "Available commands:\n" ++ commandsDescription ++ "\n")],
   w⟩

/-- Lines 72-93 of `main`: the seven commands are added in this order.
`mimeTypeCmd` stands for `new MimeTypeMatCommand(&parser)`, whose source is not
among the sources. -/
def registerCommands {σ : Type} (tok : Tokenizer) (W : World σ)
    (mimeTypeCmd : MatCommandInterface σ) (argv : List String) :
    Option (List (MatCommandInterface σ)) := do
  let m ← MatCommandManager.add [] (DefAppMatCommand.command tok W argv)
  let m ← MatCommandManager.add m (OpenMatCommand.command tok W argv)
  let m ← MatCommandManager.add m mimeTypeCmd
  let m ← MatCommandManager.add m (DefWebBrowserMatCommand.command tok W argv)
  let m ← MatCommandManager.add m (DefEmailClientMatCommand.command tok W argv)
  let m ← MatCommandManager.add m (DefFileManagerMatCommand.command tok W argv)
  MatCommandManager.add m (DefTerminalMatCommand.command tok W argv)

/-- The `for` loop of `main` (lines 119-126): `none` when no command was found,
otherwise the outcome of the `run` of the command found. -/
def runFirstMatch {σ : Type} (command : String) (args : List String) (w : σ) :
    List (MatCommandInterface σ) → Option (Option (RunResult σ))
  | [] => none
  | cmd :: rest =>
    if command = cmd.name then some (cmd.run args w)
    else runFirstMatch command args w rest

/-- The function `main` of qtxdg-mat.cpp for the process arguments `argv`;
`none` is a fatal end (a failed registration or a failed assertion). -/
def main {σ : Type} (tok : Tokenizer) (W : World σ) (mimeTypeCmd : MatCommandInterface σ)
    (argv : List String) (w : σ) : Option (RunResult σ) :=
  match registerCommands tok W mimeTypeCmd argv with
  | none => none
  | some commands =>
    let args := (tok [] argv).positionalArguments
    match args with
    | [] =>
      let parser := tok (helpOptions ++ [versionOption]) argv
      if parser.isSetHelp || parser.isSetHelpAll then
        some (showHelp parser.helpText (MatCommandManager.descriptionsHelpText commands)
          EXIT_SUCCESS w)
      else if parser.isSetVersion then
        some (showVersion W w)
      else
        some (showHelp parser.helpText (MatCommandManager.descriptionsHelpText commands)
          EXIT_FAILURE w)
    | command :: _ =>
      match runFirstMatch command args w commands with
      | some result => result
      | none =>
        let parser := tok (helpOptions ++ [versionOption]) argv
        some (showHelp parser.helpText (MatCommandManager.descriptionsHelpText commands)
          EXIT_FAILURE w)

end Main

/-! ## Concrete inputs -/

/-- The parser state for an argument vector without options: tokenization
succeeded and every token is positional. -/
def positionalOnly (args : List String) : QCommandLineParser :=
  { parseOk := true, errorText := "", helpText := "", isSetVersion := false,
    isSetHelp := false, isSetHelpAll := false, isSetSet := false, valueSet := "",
    isSetListAvailable := false, positionalArguments := args }

def editor : XdgDesktopFile := ⟨"/usr/share/applications/editor.desktop", "Editor", true⟩

def browser : XdgDesktopFile := ⟨"/usr/share/applications/browser.desktop", "Browser", true⟩

/-- A desktop in which `existing.txt` is the only file, text files open in
`editor`, `http` URLs open in `browser`, every launch succeeds, and the store
accepts every key but `image/png`. -/
def demoWorld : World Unit :=
  { urlScheme := fun s => if s = "http://example.com" then "http" else "",
    toLocalFile := fun s => s,
    fileExists := fun _ path => decide (path = "existing.txt"),
    mimeTypeForFile := fun _ _ => "text/plain",
    defaultApp := fun _ key =>
      if key = "text/plain" then some editor
      else if key = "x-scheme-handler/http" then some browser
      else none,
    setDefaultApp := fun _ key _ => (decide (key ≠ "image/png"), ()),
    load := fun _ name => if name = "editor" then some editor else none,
    startDetached := fun _ _ _ => (true, ()),
    desktopId := fun fileName => fileName,
    baseName := fun fileName => fileName,
    namedDefault := fun _ _ => none,
    setNamedDefault := fun _ _ _ => (true, ()),
    namedCandidates := fun _ _ => [],
    versionText := "qtxdg-mat" }

/-- The desktop of `demoWorld`, except that every launch fails. -/
def failingLaunchWorld : World Unit :=
  { demoWorld with startDetached := fun _ _ _ => (false, ()) }

/-- What tokenization failure, `--version` and `--help` demand of a parser's
answer `out` for the caller's record `data` and message `errorMessage`. -/
def PriorityOrder {α : Type} (parser : QCommandLineParser) (data : α) (errorMessage : String)
    (out : Option (CommandLineParseResult × α × String)) : Prop :=
  (parser.parseOk = false → out = some (CommandLineError, data, parser.errorText))
  ∧ (parser.parseOk = true → parser.isSetVersion = true →
      out = some (CommandLineVersionRequested, data, errorMessage))
  ∧ (parser.parseOk = true → parser.isSetVersion = false →
      (parser.isSetHelp = true ∨ parser.isSetHelpAll = true) →
      out = some (CommandLineHelpRequested, data, errorMessage))

/-- An argument vector with `--version`, `--help`, `--list-available` and
`--set` with an empty value all given, and no MIME type. -/
def everythingSet : QCommandLineParser :=
  { positionalOnly ["defapp"] with
    isSetVersion := true, isSetHelp := true, isSetSet := true, isSetListAvailable := true }

/-- The parser state for `<command> -l foo`. -/
def listWithArgument (command : String) : QCommandLineParser :=
  { positionalOnly [command, "foo"] with isSetListAvailable := true }

/-- The parser state for `<command> -l -s x foo`. -/
def listSetWithArgument (command : String) : QCommandLineParser :=
  { positionalOnly [command, "foo"] with
    isSetListAvailable := true, isSetSet := true, valueSet := "x" }

/-- The parser state for `<command> -s <value> <arguments>`. -/
def setTo (command value : String) (arguments : List String) : QCommandLineParser :=
  { positionalOnly (command :: arguments) with isSetSet := true, valueSet := value }

/-- A call that asks the store to change an association. -/
def Event.isStoreWrite : Event → Bool
  | Event.setDefaultApp _ _ _ => true
  | Event.setNamedDefault _ _ _ => true
  | _ => false

/-- The answers of the store when `setDefaultApp` is called once for each key,
in list order, each call acting on the world the previous one left. -/
def storeAnswers {σ : Type} (W : World σ) (app : XdgDesktopFile) : σ → List String → List Bool
  | _, [] => []
  | w, key :: rest =>
    (W.setDefaultApp w key app).1 :: storeAnswers W app (W.setDefaultApp w key app).2 rest

/-- The world after `setDefaultApp` was called once for each key, in list order. -/
def storeAfter {σ : Type} (W : World σ) (app : XdgDesktopFile) : σ → List String → σ
  | w, [] => w
  | w, key :: rest => storeAfter W app (W.setDefaultApp w key app).2 rest

/-- The call of `setDefaultApp` for `key` that the store answered with `ok`, and
the one line `defapp` prints for it. -/
def setCallAndLine (app : XdgDesktopFile) (key : String) (ok : Bool) : List Event :=
  [Event.setDefaultApp key app ok,
   if ok then Event.stdout ("Set '" ++ app.fileName ++ "' as default for '" ++ key ++ "'\n")
   else Event.stderr ("Could not set '" ++ app.fileName ++ "' as default for '" ++ key ++ "'\n")]

/-- The texts written to standard output, in order. -/
def stdoutText : List Event → List String
  | [] => []
  | Event.stdout text :: rest => text :: stdoutText rest
  | _ :: rest => stdoutText rest

/-- The texts written to standard error, in order. -/
def stderrText : List Event → List String
  | [] => []
  | Event.stderr text :: rest => text :: stderrText rest
  | _ :: rest => stderrText rest

/-- The lookup `open` makes for a target with a scheme other than `file`, when
the store has no handler for it, and the line it prints then. -/
def noHandlerActions {σ : Type} (W : World σ) (target : String) : List Event :=
  [Event.defaultApp ("x-scheme-handler/" ++ W.urlScheme target) none,
   Event.stdout ("No default application for '" ++ target ++ "'\n")]

/-- The parser state for `<command> -l`. -/
def listOnly (command : String) : QCommandLineParser :=
  { positionalOnly [command] with isSetListAvailable := true }

/-- A `DefAppData` record that already holds values. -/
def usedRecord : DefAppData :=
  { mode := DefAppCommandMode.CommandModeSetDefApp, defAppName := "before",
    mimeTypes := ["x/y"] }

/-- The desktop of `demoWorld` without any handler for URL schemes. -/
def noHandlerWorld : World Unit :=
  { demoWorld with defaultApp := fun _ _ => none }

def xterm : XdgDesktopFile := ⟨"/usr/share/applications/xterm.desktop", "XTerm", true⟩

def qterminal : XdgDesktopFile :=
  ⟨"/usr/share/applications/qterminal.desktop", "QTerminal", true⟩

/-- The desktop of `demoWorld` with two installed terminals; `baseName` knows
their file names. -/
def twoTerminalsWorld : World Unit :=
  { demoWorld with
    namedCandidates := fun category _ =>
      if category = Category.terminal then [xterm, qterminal] else [],
    baseName := fun fileName =>
      if fileName = "/usr/share/applications/xterm.desktop" then "xterm.desktop"
      else if fileName = "/usr/share/applications/qterminal.desktop" then "qterminal.desktop"
      else fileName }

/-- A stand-in for the `mimetype` command, whose source is not among the
sources; it does nothing. -/
def mimeTypeStub : MatCommandInterface Unit :=
  { name := "mimetype", description := "", run := fun _ w => some ⟨EXIT_SUCCESS, [], w⟩ }

/-- The message `list-available` is refused with. -/
def listAvailableMessage : String :=
  "list-available can't be used with other options and doesn't take arguments"

/-- The decision described for the four named-default parsers, for a parser
state that tokenized without version and help and the positional arguments
`rest` left after the command token: the error message, or `none` for Ok.  The
`noun` is the only thing in which the four differ. -/
def namedDefaultError (noun : String) (parser : QCommandLineParser) (rest : List String) :
    Option String :=
  if rest ≠ [] ∧ parser.isSetSet = true then
    some ("Extra arguments given: " ++ String.intercalate "," rest)
  else if rest ≠ [] then
    some ("To set the default " ++ noun ++ " use the -s/--set option")
  else if parser.isSetListAvailable = true ∧ parser.isSetSet = true then
    some listAvailableMessage
  else
    none

/-- The handles the store handed out, in order: every non-null result of a
lookup and every element of a candidate list. -/
def acquired : List Event → List XdgDesktopFile
  | [] => []
  | Event.defaultApp _ (some app) :: rest => app :: acquired rest
  | Event.namedDefault _ (some app) :: rest => app :: acquired rest
  | Event.namedCandidates _ apps :: rest => apps ++ acquired rest
  | _ :: rest => acquired rest

/-- The handles released with `delete` or `qDeleteAll`, in order. -/
def released : List Event → List XdgDesktopFile
  | [] => []
  | Event.delete app :: rest => app :: released rest
  | _ :: rest => released rest

/-- A desktop entry that loads but is not valid. -/
def brokenEntry : XdgDesktopFile := ⟨"/usr/share/applications/broken.desktop", "", false⟩

/-- The desktop of `demoWorld` in which the default of every category is the
entry `brokenEntry`, which is not valid. -/
def invalidDefaultWorld : World Unit :=
  { demoWorld with namedDefault := fun _ _ => some brokenEntry }

/-! ## `open`: the loop -/

namespace OpenMatCommand

theorem classify_success {σ : Type} (W : World σ) (s : LoopState σ) (u : String) :
    (classify W s u).success = s.success ∧ (classify W s u).stopped = s.stopped
      ∧ (classify W s u).world = s.world := by
  unfold classify
  dsimp only
  split_ifs <;> simp

theorem classify_own_scheme {σ : Type} (W : World σ) (s : LoopState σ) (u : String)
    (h : W.urlScheme u = "" ∨ W.urlScheme u = "file") :
    (classify W s u).isLocalFile = true
      ∧ (classify W s u).localFilename = (if W.urlScheme u = "" then u else W.toLocalFile u) := by
  unfold classify
  dsimp only
  rcases h with h | h
  · simp [h]
  · by_cases h0 : W.urlScheme u = ""
    · simp [h0]
    · simp [h0, h]

theorem launch_stopped {σ : Type} (W : World σ) (s : LoopState σ) (u : String)
    (df : Option XdgDesktopFile) : (launch W s u df).1.stopped = s.stopped := by
  unfold launch
  cases df with
  | none => rfl
  | some app =>
    dsimp only
    split_ifs <;> rfl

theorem launch_success {σ : Type} (W : World σ) (s : LoopState σ) (u : String)
    (df : Option XdgDesktopFile) :
    (launch W s u df).1.success = true ↔
      (s.success = true ∧
        ∀ app arg r, Event.startDetached app arg r ∈ (launch W s u df).2 → r = true) := by
  unfold launch
  cases df with
  | none => simp
  | some app =>
    dsimp only
    by_cases h : (W.startDetached s.world app
        (if s.isLocalFile = true then s.localFilename else u)).1 = true
    · simp [h]
    · simp only [Bool.not_eq_true] at h
      simp [h]

theorem loopBody_success {σ : Type} (W : World σ) (s : LoopState σ) (u : String) :
    (loopBody W s u).1.success = true ↔
      (s.success = true ∧
        ∀ app arg r, Event.startDetached app arg r ∈ (loopBody W s u).2 → r = true) := by
  have hc := classify_success W s u
  unfold loopBody
  dsimp only
  split_ifs with h1 h2
  · simp [hc.1]
  · simp only [launch_success, hc.1]
    simp
  · simp only [launch_success, hc.1]
    simp

theorem runLoop_success {σ : Type} (W : World σ) (files : List String) :
    ∀ s : LoopState σ, (runLoop W s files).1.success = true ↔
      (s.success = true ∧
        ∀ app arg r, Event.startDetached app arg r ∈ (runLoop W s files).2 → r = true) := by
  induction files with
  | nil => intro s; simp [runLoop]
  | cons u rest ih =>
    intro s
    unfold runLoop
    dsimp only
    split_ifs with h
    · exact loopBody_success W s u
    · simp only [ih, loopBody_success, List.mem_append]
      constructor
      · rintro ⟨⟨h1, h2⟩, h3⟩
        refine ⟨h1, ?_⟩
        intro app arg r hr
        rcases hr with hr | hr
        · exact h2 app arg r hr
        · exact h3 app arg r hr
      · rintro ⟨h1, h2⟩
        exact ⟨⟨h1, fun app arg r hr => h2 app arg r (Or.inl hr)⟩,
          fun app arg r hr => h2 app arg r (Or.inr hr)⟩

theorem runLoop_cons {σ : Type} (W : World σ) (s : LoopState σ) (u : String)
    (rest : List String) :
    runLoop W s (u :: rest) =
      if (loopBody W s u).1.stopped then loopBody W s u
      else ((runLoop W (loopBody W s u).1 rest).1,
            (loopBody W s u).2 ++ (runLoop W (loopBody W s u).1 rest).2) := by
  rw [runLoop]

theorem runLoop_append {σ : Type} (W : World σ) (pre rest : List String) :
    ∀ s : LoopState σ, (runLoop W s pre).1.stopped = false →
      runLoop W s (pre ++ rest)
        = ((runLoop W (runLoop W s pre).1 rest).1,
           (runLoop W s pre).2 ++ (runLoop W (runLoop W s pre).1 rest).2) := by
  induction pre with
  | nil => intro s _; simp [runLoop]
  | cons u pre ih =>
    intro s h
    rw [List.cons_append, runLoop_cons]
    rw [runLoop_cons] at h
    by_cases hs : (loopBody W s u).1.stopped = true
    · simp [hs] at h
    · simp only [hs, if_false] at h
      simp only [runLoop_cons, hs, if_false]
      rw [ih _ h]
      simp [List.append_assoc]

theorem loopBody_missing {σ : Type} (W : World σ) (s : LoopState σ) (u : String)
    (hlocal : (classify W s u).isLocalFile = true)
    (hmissing : W.fileExists s.world (classify W s u).localFilename = false) :
    (loopBody W s u).1.stopped = true ∧
      (loopBody W s u).2 =
        [Event.fileExists (classify W s u).localFilename false,
         Event.stderr ("Cannot access " ++ u ++ ": No such file or directory\n")] := by
  have hw := (classify_success W s u).2.2
  unfold loopBody
  dsimp only
  rw [hw]
  simp [hlocal, hmissing]

theorem run_of_ok {σ : Type} (W : World σ) (w : σ) (parser : QCommandLineParser)
    (files : List String) (e : String)
    (hparse : parseCommandLine parser [] "" = (CommandLineOk, files, e)) :
    run W w parser =
      ⟨if (runLoop W (initialState w) files).1.success then EXIT_SUCCESS else EXIT_FAILURE,
       (runLoop W (initialState w) files).2, (runLoop W (initialState w) files).1.world⟩ := by
  unfold run
  rw [hparse]

theorem launch_events_no_lookup {σ : Type} (W : World σ) (s : LoopState σ) (u : String)
    (df : Option XdgDesktopFile) (key : String) (r : Option XdgDesktopFile) :
    Event.defaultApp key r ∉ (launch W s u df).2 := by
  unfold launch
  cases df with
  | none => simp
  | some app =>
    dsimp only
    split_ifs <;> simp

theorem launch_none_success {σ : Type} (W : World σ) (s : LoopState σ) (u : String) :
    (launch W s u none).1.success = s.success := by
  simp [launch]

theorem loopBody_stopped_events {σ : Type} (W : World σ) (s : LoopState σ) (u : String)
    (hs : s.stopped = false) (h : (loopBody W s u).1.stopped = true) :
    (loopBody W s u).2 =
      [Event.fileExists (classify W s u).localFilename false,
       Event.stderr ("Cannot access " ++ u ++ ": No such file or directory\n")] := by
  have hc := (classify_success W s u).2.1
  unfold loopBody at h ⊢
  dsimp only at h ⊢
  split_ifs at h ⊢ with h1 h2
  · simp only [Bool.not_eq_true'] at h2
    simp [h2]
  · rw [launch_stopped, hc, hs] at h
    exact absurd h (by decide)
  · rw [launch_stopped, hc, hs] at h
    exact absurd h (by decide)

theorem loopBody_launch_continues {σ : Type} (W : World σ) (s : LoopState σ) (u : String)
    (hs : s.stopped = false)
    (h : (∃ app arg r, Event.startDetached app arg r ∈ (loopBody W s u).2)
          ∨ (∃ key r, Event.defaultApp key r ∈ (loopBody W s u).2)) :
    (loopBody W s u).1.stopped = false := by
  by_cases hst : (loopBody W s u).1.stopped = true
  · have hev := loopBody_stopped_events W s u hs hst
    rw [hev] at h
    simp at h
  · simpa using hst

theorem loopBody_no_default_success {σ : Type} (W : World σ) (s : LoopState σ) (u : String)
    (key : String) (h : Event.defaultApp key none ∈ (loopBody W s u).2) :
    (loopBody W s u).1.success = s.success := by
  have hc := (classify_success W s u).1
  unfold loopBody at h ⊢
  dsimp only at h ⊢
  split_ifs at h ⊢ with h1 h2
  · simp at h
  · simp only [List.cons_append, List.nil_append, List.mem_cons, Event.defaultApp.injEq,
      reduceCtorEq, false_or] at h
    rcases h with h | h
    · rw [← h.2, launch_none_success, hc]
    · exact absurd h (launch_events_no_lookup W _ u _ key none)
  · simp only [List.mem_cons, Event.defaultApp.injEq] at h
    rcases h with h | h
    · rw [← h.2, launch_none_success, hc]
    · exact absurd h (launch_events_no_lookup W _ u _ key none)

theorem run_trace_split {σ : Type} (W : World σ) (w : σ) (parser : QCommandLineParser)
    (pre post : List String) (t e : String)
    (hparse : parseCommandLine parser [] "" = (CommandLineOk, pre ++ t :: post, e))
    (hreach : (runLoop W (initialState w) pre).1.stopped = false)
    (hgo : (loopBody W (runLoop W (initialState w) pre).1 t).1.stopped = false) :
    (run W w parser).trace =
      (runLoop W (initialState w) pre).2
        ++ (loopBody W (runLoop W (initialState w) pre).1 t).2
        ++ (runLoop W (loopBody W (runLoop W (initialState w) pre).1 t).1 post).2 := by
  rw [run_of_ok W w parser _ e hparse]
  simp only
  rw [runLoop_append W pre (t :: post) _ hreach, runLoop_cons]
  simp [hgo, List.append_assoc]

end OpenMatCommand

/-! ## Claims about `open` -/

/-- C1 (defect in the code): in `open existing.txt http://example.com` the second
target has scheme `http` and a handler is registered for it, yet it is handled
as the local file of the first target: no lookup under `x-scheme-handler/http`
is made and the editor is launched a second time with `existing.txt`. -/
theorem open_second_target_inherits_local_flag :
    demoWorld.urlScheme "http://example.com" = "http"
    ∧ demoWorld.defaultApp () "x-scheme-handler/http" = some browser
    ∧ (OpenMatCommand.run demoWorld ()
        (positionalOnly ["open", "existing.txt", "http://example.com"])).trace
      = [Event.fileExists "existing.txt" true,
         Event.mimeTypeForFile "existing.txt" "text/plain",
         Event.defaultApp "text/plain" (some editor),
         Event.startDetached editor "existing.txt" true,
         Event.delete editor,
         Event.fileExists "existing.txt" true,
         Event.mimeTypeForFile "existing.txt" "text/plain",
         Event.defaultApp "text/plain" (some editor),
         Event.startDetached editor "existing.txt" true,
         Event.delete editor] := by
  decide

/-- C2 (defect in the code): `open missing.txt nonexistent2.txt`, with `missing.txt`
absent, reports `Cannot access missing.txt` on standard error and leaves the
loop, but the exit status is `EXIT_SUCCESS` (0), not 1. -/
theorem open_missing_file_exits_success :
    demoWorld.fileExists () "missing.txt" = false
    ∧ (OpenMatCommand.run demoWorld ()
        (positionalOnly ["open", "missing.txt", "nonexistent2.txt"])).trace
      = [Event.fileExists "missing.txt" false,
         Event.stderr "Cannot access missing.txt: No such file or directory\n"]
    ∧ (OpenMatCommand.run demoWorld ()
        (positionalOnly ["open", "missing.txt", "nonexistent2.txt"])).exitCode = 0 := by
  decide

/-- C3: when the loop of `open` reaches a target `t` whose own scheme is empty or
`file` and whose local path does not exist, the run's actions are those of the
targets before `t`, the existence check, and the line
`Cannot access <t>: No such file or directory` on standard error; nothing
follows, so no later target causes a MIME lookup, a default-application lookup
or a launch. -/
theorem open_missing_local_file_stops {σ : Type} (W : World σ) (w : σ)
    (parser : QCommandLineParser) (pre post : List String) (t e : String)
    (hparse : OpenMatCommand.parseCommandLine parser [] ""
      = (CommandLineOk, pre ++ t :: post, e))
    (hreach : (OpenMatCommand.runLoop W (OpenMatCommand.initialState w) pre).1.stopped = false)
    (hlocal : W.urlScheme t = "" ∨ W.urlScheme t = "file")
    (hmissing : W.fileExists (OpenMatCommand.runLoop W (OpenMatCommand.initialState w) pre).1.world
      (if W.urlScheme t = "" then t else W.toLocalFile t) = false) :
    (OpenMatCommand.run W w parser).trace =
      (OpenMatCommand.runLoop W (OpenMatCommand.initialState w) pre).2 ++
        [Event.fileExists (if W.urlScheme t = "" then t else W.toLocalFile t) false,
         Event.stderr ("Cannot access " ++ t ++ ": No such file or directory\n")] := by
  have hc := OpenMatCommand.classify_own_scheme W
    (OpenMatCommand.runLoop W (OpenMatCommand.initialState w) pre).1 t hlocal
  have hb := OpenMatCommand.loopBody_missing W
    (OpenMatCommand.runLoop W (OpenMatCommand.initialState w) pre).1 t hc.1
    (by rw [hc.2]; exact hmissing)
  rw [OpenMatCommand.run_of_ok W w parser _ e hparse]
  simp only
  rw [OpenMatCommand.runLoop_append W pre (t :: post) _ hreach, OpenMatCommand.runLoop_cons]
  simp only [hb.1, if_true, hb.2, hc.2]

theorem open_missing_local_file_stops_witness :
    (OpenMatCommand.run demoWorld ()
        (positionalOnly ["open", "existing.txt", "missing.txt", "http://example.com"])).trace =
      (OpenMatCommand.runLoop demoWorld (OpenMatCommand.initialState ()) ["existing.txt"]).2 ++
        [Event.fileExists (if demoWorld.urlScheme "missing.txt" = "" then "missing.txt"
            else demoWorld.toLocalFile "missing.txt") false,
         Event.stderr ("Cannot access " ++ "missing.txt" ++ ": No such file or directory\n")] :=
  open_missing_local_file_stops demoWorld ()
    (positionalOnly ["open", "existing.txt", "missing.txt", "http://example.com"])
    ["existing.txt"] ["http://example.com"] "missing.txt" ""
    (by decide) (by decide) (by decide) (by decide)

/-- C4: for a target list that parses, `open` exits with `EXIT_SUCCESS` exactly
when every `startDetached` request it issued returned true (and with
`EXIT_FAILURE` otherwise).  An iteration whose launch fails, and an iteration
that finds no default application, do not end the loop: the run's actions go on
with those of the loop over the later targets; and finding no default
application leaves `success` as it was. -/
theorem open_exit_status_tracks_launches {σ : Type} (W : World σ) (w : σ)
    (parser : QCommandLineParser) (files : List String) (e : String)
    (hparse : OpenMatCommand.parseCommandLine parser [] "" = (CommandLineOk, files, e)) :
    ((OpenMatCommand.run W w parser).exitCode = EXIT_SUCCESS ↔
        ∀ app arg r, Event.startDetached app arg r ∈ (OpenMatCommand.run W w parser).trace →
          r = true)
    ∧ ((OpenMatCommand.run W w parser).exitCode = EXIT_SUCCESS
        ∨ (OpenMatCommand.run W w parser).exitCode = EXIT_FAILURE)
    ∧ (∀ pre t post, files = pre ++ t :: post →
        (OpenMatCommand.runLoop W (OpenMatCommand.initialState w) pre).1.stopped = false →
        (∃ app arg, Event.startDetached app arg false ∈
          (OpenMatCommand.loopBody W
            (OpenMatCommand.runLoop W (OpenMatCommand.initialState w) pre).1 t).2) →
        (OpenMatCommand.run W w parser).trace =
          (OpenMatCommand.runLoop W (OpenMatCommand.initialState w) pre).2
            ++ (OpenMatCommand.loopBody W
                (OpenMatCommand.runLoop W (OpenMatCommand.initialState w) pre).1 t).2
            ++ (OpenMatCommand.runLoop W
                (OpenMatCommand.loopBody W
                  (OpenMatCommand.runLoop W (OpenMatCommand.initialState w) pre).1 t).1 post).2)
    ∧ (∀ pre t post, files = pre ++ t :: post →
        (OpenMatCommand.runLoop W (OpenMatCommand.initialState w) pre).1.stopped = false →
        (∃ key, Event.defaultApp key none ∈
          (OpenMatCommand.loopBody W
            (OpenMatCommand.runLoop W (OpenMatCommand.initialState w) pre).1 t).2) →
        (OpenMatCommand.loopBody W
            (OpenMatCommand.runLoop W (OpenMatCommand.initialState w) pre).1 t).1.success
          = (OpenMatCommand.runLoop W (OpenMatCommand.initialState w) pre).1.success
        ∧ (OpenMatCommand.run W w parser).trace =
          (OpenMatCommand.runLoop W (OpenMatCommand.initialState w) pre).2
            ++ (OpenMatCommand.loopBody W
                (OpenMatCommand.runLoop W (OpenMatCommand.initialState w) pre).1 t).2
            ++ (OpenMatCommand.runLoop W
                (OpenMatCommand.loopBody W
                  (OpenMatCommand.runLoop W (OpenMatCommand.initialState w) pre).1 t).1
                post).2) := by
  have hrun := OpenMatCommand.run_of_ok W w parser files e hparse
  have hinv := OpenMatCommand.runLoop_success W files (OpenMatCommand.initialState w)
  refine ⟨?_, ?_, ?_, ?_⟩
  · rw [hrun]
    simp only
    have hinv2 : (OpenMatCommand.runLoop W (OpenMatCommand.initialState w) files).1.success = true ↔
        ∀ app arg r, Event.startDetached app arg r ∈
          (OpenMatCommand.runLoop W (OpenMatCommand.initialState w) files).2 → r = true := by
      rw [hinv]
      exact and_iff_right rfl
    rw [← hinv2]
    by_cases hs : (OpenMatCommand.runLoop W (OpenMatCommand.initialState w) files).1.success = true
    · simp [hs]
    · simp [hs, EXIT_SUCCESS, EXIT_FAILURE]
  · rw [hrun]
    simp only
    by_cases hs : (OpenMatCommand.runLoop W (OpenMatCommand.initialState w) files).1.success = true
    · simp [hs]
    · simp [hs]
  · intro pre t post hfiles hreach hfail
    subst hfiles
    obtain ⟨app, arg, hmem⟩ := hfail
    exact OpenMatCommand.run_trace_split W w parser pre post t e hparse hreach
      (OpenMatCommand.loopBody_launch_continues W _ t hreach (Or.inl ⟨app, arg, false, hmem⟩))
  · intro pre t post hfiles hreach hnone
    subst hfiles
    obtain ⟨key, hmem⟩ := hnone
    exact ⟨OpenMatCommand.loopBody_no_default_success W _ t key hmem,
      OpenMatCommand.run_trace_split W w parser pre post t e hparse hreach
        (OpenMatCommand.loopBody_launch_continues W _ t hreach (Or.inr ⟨key, none, hmem⟩))⟩

theorem open_exit_status_tracks_launches_witness :
    OpenMatCommand.parseCommandLine (positionalOnly ["open", "existing.txt", "http://example.com"]) [] ""
      = (CommandLineOk, ["existing.txt", "http://example.com"], "")
    ∧ Event.startDetached editor "existing.txt" false ∈
        (OpenMatCommand.run failingLaunchWorld ()
          (positionalOnly ["open", "existing.txt", "http://example.com"])).trace
    ∧ ¬ (OpenMatCommand.run failingLaunchWorld ()
          (positionalOnly ["open", "existing.txt", "http://example.com"])).exitCode = EXIT_SUCCESS :=
  ⟨by decide, by decide,
   fun h => absurd
     ((open_exit_status_tracks_launches failingLaunchWorld ()
        (positionalOnly ["open", "existing.txt", "http://example.com"])
        ["existing.txt", "http://example.com"] "" (by decide)).1.mp h editor "existing.txt" false
        (by decide))
     (by decide)⟩

/-! ## `defapp`: the parser -/

namespace DefAppMatCommand

theorem parseCommandLine_ok (parser : QCommandLineParser) (data : DefAppData) (e : String)
    (data1 : DefAppData) (e1 : String)
    (h : parseCommandLine parser data e = (CommandLineOk, data1, e1)) :
    ∃ cmd m rest, parser.positionalArguments = cmd :: m :: rest
      ∧ data1.mimeTypes = m :: rest
      ∧ data1.defAppName = (if parser.isSetSet then parser.valueSet else "")
      ∧ data1.mode = (if parser.isSetSet then DefAppCommandMode.CommandModeSetDefApp
                      else DefAppCommandMode.CommandModeGetDefApp)
      ∧ (parser.isSetSet = false → rest = [])
      ∧ (parser.isSetSet = true → parser.valueSet ≠ "")
      ∧ e1 = e := by
  unfold parseCommandLine at h
  by_cases hval : parser.valueSet = "" <;>
  cases h1 : parser.parseOk <;> cases h2 : parser.isSetVersion <;>
  cases h3 : parser.isSetHelp <;> cases h4 : parser.isSetHelpAll <;>
  cases h5 : parser.isSetSet <;>
  rcases hp : parser.positionalArguments with _ | ⟨cmd, _ | ⟨m, _ | ⟨m2, rest⟩⟩⟩ <;>
  simp [h1, h2, h3, h4, h5, hp, hval] at h <;>
  first
    | (obtain ⟨hd, he⟩ := h; subst hd; simp [he, hval])
    | (split_ifs at h <;> first
        | (simp at h; done)
        | (simp at h; obtain ⟨hd, he⟩ := h; subst hd; simp [he, hval]))

end DefAppMatCommand

/-! ## Claims about the parsers -/

/-- C5: each of the six parsers (`open`, `defapp`, `def-web-browser`,
`def-email-client`, `def-file-manager`, `def-terminal`) answers, for every
parser state: `CommandLineError` with the tokenizer's error text when
tokenization failed; otherwise `CommandLineVersionRequested` when the version
option is set; otherwise `CommandLineHelpRequested` when help or help-all is
set.  No other field of the parser state is consulted, so version beats help
and both beat every later validation error. -/
theorem parse_priority_order (parser : QCommandLineParser) (e : String) :
    (∀ files, PriorityOrder parser files e (some (OpenMatCommand.parseCommandLine parser files e)))
    ∧ (∀ data, PriorityOrder parser data e (some (DefAppMatCommand.parseCommandLine parser data e)))
    ∧ (∀ data, PriorityOrder parser data e (DefWebBrowserMatCommand.parseCommandLine parser data e))
    ∧ (∀ data, PriorityOrder parser data e (DefEmailClientMatCommand.parseCommandLine parser data e))
    ∧ (∀ data, PriorityOrder parser data e (DefFileManagerMatCommand.parseCommandLine parser data e))
    ∧ (∀ data, PriorityOrder parser data e (DefTerminalMatCommand.parseCommandLine parser data e)) := by
  refine ⟨?_, ?_, ?_, ?_, ?_, ?_⟩ <;> intro d <;> refine ⟨?_, ?_, ?_⟩
  · intro h; simp [OpenMatCommand.parseCommandLine, h]
  · intro h hv; simp [OpenMatCommand.parseCommandLine, h, hv]
  · intro h hv hh; rcases hh with hh | hh <;> simp [OpenMatCommand.parseCommandLine, h, hv, hh]
  · intro h; simp [DefAppMatCommand.parseCommandLine, h]
  · intro h hv; simp [DefAppMatCommand.parseCommandLine, h, hv]
  · intro h hv hh; rcases hh with hh | hh <;> simp [DefAppMatCommand.parseCommandLine, h, hv, hh]
  · intro h; simp [DefWebBrowserMatCommand.parseCommandLine, h]
  · intro h hv; simp [DefWebBrowserMatCommand.parseCommandLine, h, hv]
  · intro h hv hh
    rcases hh with hh | hh <;> simp [DefWebBrowserMatCommand.parseCommandLine, h, hv, hh]
  · intro h; simp [DefEmailClientMatCommand.parseCommandLine, h]
  · intro h hv; simp [DefEmailClientMatCommand.parseCommandLine, h, hv]
  · intro h hv hh
    rcases hh with hh | hh <;> simp [DefEmailClientMatCommand.parseCommandLine, h, hv, hh]
  · intro h; simp [DefFileManagerMatCommand.parseCommandLine, h]
  · intro h hv; simp [DefFileManagerMatCommand.parseCommandLine, h, hv]
  · intro h hv hh
    rcases hh with hh | hh <;> simp [DefFileManagerMatCommand.parseCommandLine, h, hv, hh]
  · intro h; simp [DefTerminalMatCommand.parseCommandLine, h]
  · intro h hv; simp [DefTerminalMatCommand.parseCommandLine, h, hv]
  · intro h hv hh
    rcases hh with hh | hh <;> simp [DefTerminalMatCommand.parseCommandLine, h, hv, hh]

theorem parse_priority_order_witness :
    DefAppMatCommand.parseCommandLine everythingSet {} ""
        = (CommandLineVersionRequested, {}, "")
    ∧ DefTerminalMatCommand.parseCommandLine { everythingSet with isSetVersion := false } {} ""
        = some (CommandLineHelpRequested, {}, "")
    ∧ OpenMatCommand.parseCommandLine
          { everythingSet with parseOk := false, errorText := "Unknown option" } [] ""
        = (CommandLineError, [], "Unknown option") :=
  ⟨Option.some.inj (((parse_priority_order everythingSet "").2.1 {}).2.1 rfl rfl),
   ((parse_priority_order { everythingSet with isSetVersion := false } "").2.2.2.2.2 {}).2.2
     rfl rfl (Or.inl rfl),
   Option.some.inj (((parse_priority_order
     { everythingSet with parseOk := false, errorText := "Unknown option" } "").1 []).1 rfl)⟩

/-- C6: when the `defapp` parser is given a parser state that tokenized, with
neither version, help, help-all nor `--set`: no MIME type after the command
token gives the error `MimeType missing`; two or more give
`Only one mimeType, please`; exactly one gives `CommandLineOk` with mode Get and
that MIME type as the only element of `mimeTypes`.  For any parser state
whatever, an Ok answer in mode Get holds exactly one MIME type, and `run` never
fails reading the first one. -/
theorem defapp_get_needs_one_mimetype (parser : QCommandLineParser) (data : DefAppData)
    (e : String) :
    (parser.parseOk = true → parser.isSetVersion = false → parser.isSetHelp = false →
      parser.isSetHelpAll = false → parser.isSetSet = false →
        (parser.positionalArguments.tail = [] →
          DefAppMatCommand.parseCommandLine parser data e
            = (CommandLineError, data, "MimeType missing"))
        ∧ (2 ≤ parser.positionalArguments.tail.length →
          DefAppMatCommand.parseCommandLine parser data e
            = (CommandLineError, data, "Only one mimeType, please"))
        ∧ (∀ mimeType, parser.positionalArguments.tail = [mimeType] →
          DefAppMatCommand.parseCommandLine parser data e
            = (CommandLineOk,
               { mode := DefAppCommandMode.CommandModeGetDefApp, defAppName := "",
                 mimeTypes := [mimeType] }, e)))
    ∧ (∀ data1 e1, DefAppMatCommand.parseCommandLine parser data e = (CommandLineOk, data1, e1) →
        data1.mode = DefAppCommandMode.CommandModeGetDefApp → data1.mimeTypes.length = 1)
    ∧ (∀ (σ : Type) (W : World σ) (w : σ), (DefAppMatCommand.run W w parser).isSome = true) := by
  refine ⟨?_, ?_, ?_⟩
  · intro hok hv hh hha hs
    rcases hp : parser.positionalArguments with _ | ⟨cmd, _ | ⟨m, _ | ⟨m2, rest⟩⟩⟩ <;>
      simp [DefAppMatCommand.parseCommandLine, hok, hv, hh, hha, hs, hp]
  · intro data1 e1 h hmode
    obtain ⟨cmd, m, rest, _, hm, _, hmd, hrest, _, _⟩ :=
      DefAppMatCommand.parseCommandLine_ok parser data e data1 e1 h
    have hs : parser.isSetSet = false := by
      cases hset : parser.isSetSet
      · rfl
      · rw [hset] at hmd
        rw [hmode] at hmd
        simp at hmd
    rw [hm, hrest hs]
    rfl
  · intro σ W w
    unfold DefAppMatCommand.run
    rcases hres : DefAppMatCommand.parseCommandLine parser {} "" with ⟨code, data1, e1⟩
    cases code with
    | CommandLineOk =>
      obtain ⟨cmd, m, rest, _, hm, _, _, _, _, _⟩ :=
        DefAppMatCommand.parseCommandLine_ok parser {} "" data1 e1 hres
      simp only
      cases data1.mode with
      | CommandModeGetDefApp =>
        simp only [hm]
        cases W.defaultApp w m <;> rfl
      | CommandModeSetDefApp =>
        simp only
        cases W.load w data1.defAppName <;> rfl
    | CommandLineError => rfl
    | CommandLineVersionRequested => rfl
    | CommandLineHelpRequested => rfl

theorem defapp_get_needs_one_mimetype_witness :
    DefAppMatCommand.parseCommandLine (positionalOnly ["defapp"]) {} ""
        = (CommandLineError, {}, "MimeType missing")
    ∧ DefAppMatCommand.parseCommandLine (positionalOnly ["defapp", "text/plain", "text/html"]) {} ""
        = (CommandLineError, {}, "Only one mimeType, please")
    ∧ DefAppMatCommand.parseCommandLine (positionalOnly ["defapp", "text/plain"]) {} ""
        = (CommandLineOk,
           { mode := DefAppCommandMode.CommandModeGetDefApp, defAppName := "",
             mimeTypes := ["text/plain"] }, "") :=
  ⟨((defapp_get_needs_one_mimetype (positionalOnly ["defapp"]) {} "").1
      rfl rfl rfl rfl rfl).1 rfl,
   ((defapp_get_needs_one_mimetype (positionalOnly ["defapp", "text/plain", "text/html"]) {} "").1
      rfl rfl rfl rfl rfl).2.1 (by decide),
   ((defapp_get_needs_one_mimetype (positionalOnly ["defapp", "text/plain"]) {} "").1
      rfl rfl rfl rfl rfl).2.2 "text/plain" rfl⟩

/-- C7 (defect in the code): in each of the four named-default parsers the
checks for leftover positional arguments come first, so `--list-available`
given with a leftover argument is never answered with the list-available
message: `-l foo` gives the message that begins `To set the default`, and
`-l -s x foo` gives `Extra arguments given: foo`. -/
theorem list_available_with_argument_gets_other_message :
    DefWebBrowserMatCommand.parseCommandLine (listWithArgument "def-web-browser") {} ""
      = some (CommandLineError, {}, "To set the default browser use the -s/--set option")
    ∧ DefEmailClientMatCommand.parseCommandLine (listWithArgument "def-email-client") {} ""
      = some (CommandLineError, {}, "To set the default email client use the -s/--set option")
    ∧ DefFileManagerMatCommand.parseCommandLine (listWithArgument "def-file-manager") {} ""
      = some (CommandLineError, {}, "To set the default file manager use the -s/--set option")
    ∧ DefTerminalMatCommand.parseCommandLine (listWithArgument "def-terminal") {} ""
      = some (CommandLineError, {}, "To set the default terminal use the -s/--set option")
    ∧ DefWebBrowserMatCommand.parseCommandLine (listSetWithArgument "def-web-browser") {} ""
      = some (CommandLineError, {}, "Extra arguments given: foo")
    ∧ DefEmailClientMatCommand.parseCommandLine (listSetWithArgument "def-email-client") {} ""
      = some (CommandLineError, {}, "Extra arguments given: foo")
    ∧ DefFileManagerMatCommand.parseCommandLine (listSetWithArgument "def-file-manager") {} ""
      = some (CommandLineError, {}, "Extra arguments given: foo")
    ∧ DefTerminalMatCommand.parseCommandLine (listSetWithArgument "def-terminal") {} ""
      = some (CommandLineError, {}, "Extra arguments given: foo") := by
  decide

/-- C8 as stated fails: `def-web-browser -s ""` (and the same for the other three
named-default commands) tokenizes without version, help or list-available,
gives `--set` an empty value, and the parser answers `CommandLineOk` with mode
Set and the empty application name. -/
theorem named_set_empty_name_accepted :
    DefWebBrowserMatCommand.parseCommandLine (setTo "def-web-browser" "" []) {} ""
      = some (CommandLineOk,
          { mode := DefWebBrowserCommandMode.CommandModeSetDefWebBrowser,
            defWebBrowserName := "" }, "")
    ∧ DefEmailClientMatCommand.parseCommandLine (setTo "def-email-client" "" []) {} ""
      = some (CommandLineOk,
          { mode := DefEmailClientCommandMode.CommandModeSetDefEmailClient,
            defEmailClientName := "" }, "")
    ∧ DefFileManagerMatCommand.parseCommandLine (setTo "def-file-manager" "" []) {} ""
      = some (CommandLineOk,
          { mode := DefFileManagerCommandMode.CommandModeSetDefFileManager,
            defFileManagerName := "" }, "")
    ∧ DefTerminalMatCommand.parseCommandLine (setTo "def-terminal" "" []) {} ""
      = some (CommandLineOk,
          { mode := DefTerminalCommandMode.CommandModeSetDefTerminal,
            defTerminalName := "" }, "") := by
  decide

/-- C8, amended: for a parser state that tokenized without version and help and
has `--set` with an empty value, `defapp` answers the error
`No application name`, and `defapp` never answers Ok with mode Set and an empty
name.  The four named-default parsers do not look at the value: without
`--list-available`, they answer Ok with mode Set and the empty name when
nothing follows the command token, and the error `Extra arguments given: ...`
when something does. -/
theorem set_empty_name_rejected_by_defapp_only (parser : QCommandLineParser) (e : String) :
    (parser.parseOk = true → parser.isSetVersion = false → parser.isSetHelp = false →
      parser.isSetHelpAll = false → parser.isSetSet = true → parser.valueSet = "" →
      ∀ data, DefAppMatCommand.parseCommandLine parser data e
        = (CommandLineError, data, "No application name"))
    ∧ (∀ data data1 e1, DefAppMatCommand.parseCommandLine parser data e
          = (CommandLineOk, data1, e1) →
        data1.mode = DefAppCommandMode.CommandModeSetDefApp → data1.defAppName ≠ "")
    ∧ (parser.parseOk = true → parser.isSetVersion = false → parser.isSetHelp = false →
      parser.isSetHelpAll = false → parser.isSetListAvailable = false →
      parser.isSetSet = true → parser.valueSet = "" →
      ∀ cmd rest, parser.positionalArguments = cmd :: rest →
        (rest = [] →
          (∀ data, DefWebBrowserMatCommand.parseCommandLine parser data e
            = some (CommandLineOk,
                { mode := DefWebBrowserCommandMode.CommandModeSetDefWebBrowser,
                  defWebBrowserName := "" }, e))
          ∧ (∀ data, DefEmailClientMatCommand.parseCommandLine parser data e
            = some (CommandLineOk,
                { mode := DefEmailClientCommandMode.CommandModeSetDefEmailClient,
                  defEmailClientName := "" }, e))
          ∧ (∀ data, DefFileManagerMatCommand.parseCommandLine parser data e
            = some (CommandLineOk,
                { mode := DefFileManagerCommandMode.CommandModeSetDefFileManager,
                  defFileManagerName := "" }, e))
          ∧ (∀ data, DefTerminalMatCommand.parseCommandLine parser data e
            = some (CommandLineOk,
                { mode := DefTerminalCommandMode.CommandModeSetDefTerminal,
                  defTerminalName := "" }, e)))
        ∧ (rest ≠ [] →
          (∀ data, DefWebBrowserMatCommand.parseCommandLine parser data e
            = some (CommandLineError, data,
                "Extra arguments given: " ++ String.intercalate "," rest))
          ∧ (∀ data, DefEmailClientMatCommand.parseCommandLine parser data e
            = some (CommandLineError, data,
                "Extra arguments given: " ++ String.intercalate "," rest))
          ∧ (∀ data, DefFileManagerMatCommand.parseCommandLine parser data e
            = some (CommandLineError, data,
                "Extra arguments given: " ++ String.intercalate "," rest))
          ∧ (∀ data, DefTerminalMatCommand.parseCommandLine parser data e
            = some (CommandLineError, data,
                "Extra arguments given: " ++ String.intercalate "," rest)))) := by
  refine ⟨?_, ?_, ?_⟩
  · intro hok hv hh hha hs hval data
    simp [DefAppMatCommand.parseCommandLine, hok, hv, hh, hha, hs, hval]
  · intro data data1 e1 h hmode hname
    obtain ⟨cmd, m, rest, _, _, hn, hmd, _, hne, _⟩ :=
      DefAppMatCommand.parseCommandLine_ok parser data e data1 e1 h
    cases hset : parser.isSetSet
    · rw [hset, hmode] at hmd
      simp at hmd
    · rw [hset] at hn
      simp only [if_true] at hn
      exact hne hset (hn ▸ hname)
  · intro hok hv hh hha hl hs hval cmd rest hp
    refine ⟨?_, ?_⟩
    · intro hrest
      subst hrest
      refine ⟨?_, ?_, ?_, ?_⟩ <;> intro data
      · simp [DefWebBrowserMatCommand.parseCommandLine, removeAt, hok, hv, hh, hha, hl, hs,
          hval, hp]
      · simp [DefEmailClientMatCommand.parseCommandLine, removeAt, hok, hv, hh, hha, hl, hs,
          hval, hp]
      · simp [DefFileManagerMatCommand.parseCommandLine, removeAt, hok, hv, hh, hha, hl, hs,
          hval, hp]
      · simp [DefTerminalMatCommand.parseCommandLine, removeAt, hok, hv, hh, hha, hl, hs,
          hval, hp]
    · intro hrest
      refine ⟨?_, ?_, ?_, ?_⟩ <;> intro data
      · simp [DefWebBrowserMatCommand.parseCommandLine, removeAt, hok, hv, hh, hha, hl, hs,
          hval, hp, hrest]
      · simp [DefEmailClientMatCommand.parseCommandLine, removeAt, hok, hv, hh, hha, hl, hs,
          hval, hp, hrest]
      · simp [DefFileManagerMatCommand.parseCommandLine, removeAt, hok, hv, hh, hha, hl, hs,
          hval, hp, hrest]
      · simp [DefTerminalMatCommand.parseCommandLine, removeAt, hok, hv, hh, hha, hl, hs,
          hval, hp, hrest]

theorem set_empty_name_rejected_by_defapp_only_witness :
    DefAppMatCommand.parseCommandLine (setTo "defapp" "" ["text/plain"]) {} ""
        = (CommandLineError, {}, "No application name")
    ∧ DefTerminalMatCommand.parseCommandLine (setTo "def-terminal" "" ["foo", "bar"]) {} ""
        = some (CommandLineError, {},
            "Extra arguments given: " ++ String.intercalate "," ["foo", "bar"]) :=
  ⟨(set_empty_name_rejected_by_defapp_only (setTo "defapp" "" ["text/plain"]) "").1
      rfl rfl rfl rfl rfl rfl {},
   ((((set_empty_name_rejected_by_defapp_only (setTo "def-terminal" "" ["foo", "bar"]) "").2.2
      rfl rfl rfl rfl rfl rfl rfl "def-terminal" ["foo", "bar"] rfl).2
        (by decide)).2.2.2) {}⟩

/-! ## `defapp`: the Set loop -/

theorem storeAnswers_length {σ : Type} (W : World σ) (app : XdgDesktopFile)
    (keys : List String) : ∀ w : σ, (storeAnswers W app w keys).length = keys.length := by
  induction keys with
  | nil => intro w; rfl
  | cons key rest ih => intro w; simp [storeAnswers, ih]

namespace DefAppMatCommand

theorem setLoop_eq {σ : Type} (W : World σ) (app : XdgDesktopFile) (keys : List String) :
    ∀ (w : σ) (success : Bool),
      setLoop W app w success keys =
        (storeAfter W app w keys,
         success && (storeAnswers W app w keys).all id,
         (List.zip keys (storeAnswers W app w keys)).flatMap
           (fun kr => setCallAndLine app kr.1 kr.2)) := by
  induction keys with
  | nil => intro w success; simp [setLoop, storeAfter, storeAnswers]
  | cons key rest ih =>
    intro w success
    unfold setLoop
    dsimp only
    cases hr : (W.setDefaultApp w key app).1
    · simp [ih, storeAfter, storeAnswers, setCallAndLine, hr]
    · simp [ih, storeAfter, storeAnswers, setCallAndLine, hr]

end DefAppMatCommand

/-! ## Claims about the Set paths -/

/-- C9: in each of the five commands with a Set path (`defapp` and the four
named-default commands), when the parser answered Ok with mode Set and the store
cannot load the application name, `run` returns `EXIT_FAILURE`, none of its
actions is a `setDefaultApp` or `setNamedDefault` call, and the world it leaves
is the world it started in. -/
theorem set_unloadable_application_fails {σ : Type} (W : World σ) (w : σ)
    (parser : QCommandLineParser) :
    (∀ data e, DefAppMatCommand.parseCommandLine parser {} "" = (CommandLineOk, data, e) →
      data.mode = DefAppCommandMode.CommandModeSetDefApp →
      W.load w data.defAppName = none →
      ∃ r, DefAppMatCommand.run W w parser = some r ∧ r.exitCode = EXIT_FAILURE
        ∧ (∀ ev ∈ r.trace, ev.isStoreWrite = false) ∧ r.world = w)
    ∧ (∀ data e, DefWebBrowserMatCommand.parseCommandLine parser {} ""
          = some (CommandLineOk, data, e) →
      data.mode = DefWebBrowserCommandMode.CommandModeSetDefWebBrowser →
      W.load w data.defWebBrowserName = none →
      ∃ r, DefWebBrowserMatCommand.run W w parser = some r ∧ r.exitCode = EXIT_FAILURE
        ∧ (∀ ev ∈ r.trace, ev.isStoreWrite = false) ∧ r.world = w)
    ∧ (∀ data e, DefEmailClientMatCommand.parseCommandLine parser {} ""
          = some (CommandLineOk, data, e) →
      data.mode = DefEmailClientCommandMode.CommandModeSetDefEmailClient →
      W.load w data.defEmailClientName = none →
      ∃ r, DefEmailClientMatCommand.run W w parser = some r ∧ r.exitCode = EXIT_FAILURE
        ∧ (∀ ev ∈ r.trace, ev.isStoreWrite = false) ∧ r.world = w)
    ∧ (∀ data e, DefFileManagerMatCommand.parseCommandLine parser {} ""
          = some (CommandLineOk, data, e) →
      data.mode = DefFileManagerCommandMode.CommandModeSetDefFileManager →
      W.load w data.defFileManagerName = none →
      ∃ r, DefFileManagerMatCommand.run W w parser = some r ∧ r.exitCode = EXIT_FAILURE
        ∧ (∀ ev ∈ r.trace, ev.isStoreWrite = false) ∧ r.world = w)
    ∧ (∀ data e, DefTerminalMatCommand.parseCommandLine parser {} ""
          = some (CommandLineOk, data, e) →
      data.mode = DefTerminalCommandMode.CommandModeSetDefTerminal →
      W.load w data.defTerminalName = none →
      ∃ r, DefTerminalMatCommand.run W w parser = some r ∧ r.exitCode = EXIT_FAILURE
        ∧ (∀ ev ∈ r.trace, ev.isStoreWrite = false) ∧ r.world = w) := by
  refine ⟨?_, ?_, ?_, ?_, ?_⟩ <;> intro data e hparse hmode hload
  · have hrun : DefAppMatCommand.run W w parser = some ⟨EXIT_FAILURE,
        [Event.load data.defAppName none,
         Event.stderr ("Could not find find '" ++ data.defAppName ++ "'\n")], w⟩ := by
      unfold DefAppMatCommand.run
      rw [hparse]
      simp only [hmode, hload]
    exact ⟨_, hrun, rfl, by simp [Event.isStoreWrite], rfl⟩
  · have hrun : DefWebBrowserMatCommand.run W w parser = some ⟨EXIT_FAILURE,
        [Event.load data.defWebBrowserName none,
         Event.stderr ("Could not find find '" ++ data.defWebBrowserName ++ "'\n")], w⟩ := by
      unfold DefWebBrowserMatCommand.run
      rw [hparse]
      simp only [hmode, hload]
    exact ⟨_, hrun, rfl, by simp [Event.isStoreWrite], rfl⟩
  · have hrun : DefEmailClientMatCommand.run W w parser = some ⟨EXIT_FAILURE,
        [Event.load data.defEmailClientName none,
         Event.stderr ("Could not find find '" ++ data.defEmailClientName ++ "'\n")], w⟩ := by
      unfold DefEmailClientMatCommand.run
      rw [hparse]
      simp only [hmode, hload]
    exact ⟨_, hrun, rfl, by simp [Event.isStoreWrite], rfl⟩
  · have hrun : DefFileManagerMatCommand.run W w parser = some ⟨EXIT_FAILURE,
        [Event.load data.defFileManagerName none,
         Event.stderr ("Could not find find '" ++ data.defFileManagerName ++ "'\n")], w⟩ := by
      unfold DefFileManagerMatCommand.run
      rw [hparse]
      simp only [hmode, hload]
    exact ⟨_, hrun, rfl, by simp [Event.isStoreWrite], rfl⟩
  · have hrun : DefTerminalMatCommand.run W w parser = some ⟨EXIT_FAILURE,
        [Event.load data.defTerminalName none,
         Event.stderr ("Could not find find '" ++ data.defTerminalName ++ "'\n")], w⟩ := by
      unfold DefTerminalMatCommand.run
      rw [hparse]
      simp only [hmode, hload]
    exact ⟨_, hrun, rfl, by simp [Event.isStoreWrite], rfl⟩

theorem set_unloadable_application_fails_witness :
    demoWorld.load () "nosuch" = none
    ∧ (∃ r, DefAppMatCommand.run demoWorld () (setTo "defapp" "nosuch" ["text/plain"]) = some r
        ∧ r.exitCode = EXIT_FAILURE ∧ (∀ ev ∈ r.trace, ev.isStoreWrite = false) ∧ r.world = ())
    ∧ (∃ r, DefFileManagerMatCommand.run demoWorld () (setTo "def-file-manager" "nosuch" [])
          = some r
        ∧ r.exitCode = EXIT_FAILURE ∧ (∀ ev ∈ r.trace, ev.isStoreWrite = false)
        ∧ r.world = ()) :=
  ⟨by decide,
   (set_unloadable_application_fails demoWorld () (setTo "defapp" "nosuch" ["text/plain"])).1
     { mode := DefAppCommandMode.CommandModeSetDefApp, defAppName := "nosuch",
       mimeTypes := ["text/plain"] } "" (by decide) rfl (by decide),
   (set_unloadable_application_fails demoWorld ()
      (setTo "def-file-manager" "nosuch" [])).2.2.2.1
     { mode := DefFileManagerCommandMode.CommandModeSetDefFileManager,
       defFileManagerName := "nosuch" } "" (by decide) rfl (by decide)⟩

/-- C10: `defapp` in Set mode with an application the store can load: the MIME
type list is not empty; after the `load`, the actions are, for each MIME type
in list order, one `setDefaultApp` call for it followed by one line: `Set
'<app>' as default for '<key>'` on standard output when the call returned true,
`Could not set '<app>' as default for '<key>'` on standard error when it
returned false.  Every MIME type is called for whatever the earlier answers
were, each call acting on the world the previous one left, and the exit status
is `EXIT_SUCCESS` exactly when every call returned true, `EXIT_FAILURE`
otherwise. -/
theorem defapp_set_calls_store_for_every_mimetype {σ : Type} (W : World σ) (w : σ)
    (parser : QCommandLineParser) (data : DefAppData) (e : String) (app : XdgDesktopFile)
    (hparse : DefAppMatCommand.parseCommandLine parser {} "" = (CommandLineOk, data, e))
    (hmode : data.mode = DefAppCommandMode.CommandModeSetDefApp)
    (hload : W.load w data.defAppName = some app) :
    data.mimeTypes ≠ []
    ∧ ∃ r, DefAppMatCommand.run W w parser = some r
      ∧ r.trace = Event.load data.defAppName (some app) ::
          (List.zip data.mimeTypes (storeAnswers W app w data.mimeTypes)).flatMap
            (fun kr => setCallAndLine app kr.1 kr.2)
      ∧ (storeAnswers W app w data.mimeTypes).length = data.mimeTypes.length
      ∧ (r.exitCode = EXIT_SUCCESS ↔ ∀ ok ∈ storeAnswers W app w data.mimeTypes, ok = true)
      ∧ (r.exitCode = EXIT_SUCCESS ∨ r.exitCode = EXIT_FAILURE)
      ∧ r.world = storeAfter W app w data.mimeTypes := by
  obtain ⟨cmd, m, rest, _, hm, _, _, _, _, _⟩ :=
    DefAppMatCommand.parseCommandLine_ok parser {} "" data e hparse
  have hrun : DefAppMatCommand.run W w parser = some
      ⟨if (DefAppMatCommand.setLoop W app w true data.mimeTypes).2.1 then EXIT_SUCCESS
         else EXIT_FAILURE,
       Event.load data.defAppName (some app)
         :: (DefAppMatCommand.setLoop W app w true data.mimeTypes).2.2,
       (DefAppMatCommand.setLoop W app w true data.mimeTypes).1⟩ := by
    unfold DefAppMatCommand.run
    rw [hparse]
    simp only [hmode, hload]
  refine ⟨by rw [hm]; simp, _, hrun, ?_, ?_, ?_, ?_, ?_⟩
  · simp only [DefAppMatCommand.setLoop_eq]
  · exact storeAnswers_length W app data.mimeTypes w
  · simp only [DefAppMatCommand.setLoop_eq, Bool.true_and]
    by_cases hall : (storeAnswers W app w data.mimeTypes).all id = true
    · simp only [hall, if_true, true_iff]
      simpa using hall
    · simp only [hall, if_false]
      constructor
      · intro h
        exact absurd h (by decide)
      · intro h
        exact absurd (by simpa using h) hall
  · simp only [DefAppMatCommand.setLoop_eq, Bool.true_and]
    by_cases hall : (storeAnswers W app w data.mimeTypes).all id = true
    · simp [hall]
    · simp [hall]
  · simp only [DefAppMatCommand.setLoop_eq]

theorem defapp_set_calls_store_for_every_mimetype_witness :
    (∃ r, DefAppMatCommand.run demoWorld ()
          (setTo "defapp" "editor" ["text/plain", "image/png", "text/html"]) = some r
      ∧ r.trace =
        [Event.load "editor" (some editor),
         Event.setDefaultApp "text/plain" editor true,
         Event.stdout
           "Set '/usr/share/applications/editor.desktop' as default for 'text/plain'\n",
         Event.setDefaultApp "image/png" editor false,
         Event.stderr
           "Could not set '/usr/share/applications/editor.desktop' as default for 'image/png'\n",
         Event.setDefaultApp "text/html" editor true,
         Event.stdout
           "Set '/usr/share/applications/editor.desktop' as default for 'text/html'\n"]
      ∧ ¬ r.exitCode = EXIT_SUCCESS) := by
  obtain ⟨_, r, hrun, htrace, _, hexit, _, _⟩ :=
    defapp_set_calls_store_for_every_mimetype demoWorld ()
      (setTo "defapp" "editor" ["text/plain", "image/png", "text/html"])
      { mode := DefAppCommandMode.CommandModeSetDefApp, defAppName := "editor",
        mimeTypes := ["text/plain", "image/png", "text/html"] } "" editor
      (by decide) rfl (by decide)
  refine ⟨r, hrun, ?_, ?_⟩
  · rw [htrace]
    decide
  · intro h
    exact absurd (hexit.mp h false (by decide)) (by decide)

/-! ## Claims about parse outcomes -/

/-- C13: in each of the six subcommands, when the parser answers
`CommandLineError` with a message, `run` writes to standard error the message,
a blank line (`\n\n`) and the help text, does nothing else (no call to the store,
no launch, no lookup), leaves the world as it was and returns `EXIT_FAILURE`. -/
theorem parse_error_is_only_reported {σ : Type} (W : World σ) (w : σ)
    (parser : QCommandLineParser) :
    (∀ files msg, OpenMatCommand.parseCommandLine parser [] "" = (CommandLineError, files, msg) →
      OpenMatCommand.run W w parser = ⟨EXIT_FAILURE,
        [Event.stderr msg, Event.stderr "\n\n", Event.stderr parser.helpText], w⟩)
    ∧ (∀ data msg, DefAppMatCommand.parseCommandLine parser {} ""
          = (CommandLineError, data, msg) →
      DefAppMatCommand.run W w parser = some ⟨EXIT_FAILURE,
        [Event.stderr msg, Event.stderr "\n\n", Event.stderr parser.helpText], w⟩)
    ∧ (∀ data msg, DefWebBrowserMatCommand.parseCommandLine parser {} ""
          = some (CommandLineError, data, msg) →
      DefWebBrowserMatCommand.run W w parser = some ⟨EXIT_FAILURE,
        [Event.stderr msg, Event.stderr "\n\n", Event.stderr parser.helpText], w⟩)
    ∧ (∀ data msg, DefEmailClientMatCommand.parseCommandLine parser {} ""
          = some (CommandLineError, data, msg) →
      DefEmailClientMatCommand.run W w parser = some ⟨EXIT_FAILURE,
        [Event.stderr msg, Event.stderr "\n\n", Event.stderr parser.helpText], w⟩)
    ∧ (∀ data msg, DefFileManagerMatCommand.parseCommandLine parser {} ""
          = some (CommandLineError, data, msg) →
      DefFileManagerMatCommand.run W w parser = some ⟨EXIT_FAILURE,
        [Event.stderr msg, Event.stderr "\n\n", Event.stderr parser.helpText], w⟩)
    ∧ (∀ data msg, DefTerminalMatCommand.parseCommandLine parser {} ""
          = some (CommandLineError, data, msg) →
      DefTerminalMatCommand.run W w parser = some ⟨EXIT_FAILURE,
        [Event.stderr msg, Event.stderr "\n\n", Event.stderr parser.helpText], w⟩) := by
  refine ⟨?_, ?_, ?_, ?_, ?_, ?_⟩ <;> intro data msg h
  · unfold OpenMatCommand.run
    rw [h]
    rfl
  · unfold DefAppMatCommand.run
    rw [h]
    rfl
  · unfold DefWebBrowserMatCommand.run
    rw [h]
    rfl
  · unfold DefEmailClientMatCommand.run
    rw [h]
    rfl
  · unfold DefFileManagerMatCommand.run
    rw [h]
    rfl
  · unfold DefTerminalMatCommand.run
    rw [h]
    rfl

theorem parse_error_is_only_reported_witness :
    OpenMatCommand.run demoWorld () (positionalOnly ["open"]) = ⟨EXIT_FAILURE,
        [Event.stderr "No file or URL given", Event.stderr "\n\n",
         Event.stderr (positionalOnly ["open"]).helpText], ()⟩
    ∧ DefTerminalMatCommand.run demoWorld () (positionalOnly ["def-terminal", "xterm"])
      = some ⟨EXIT_FAILURE,
        [Event.stderr "To set the default terminal use the -s/--set option",
         Event.stderr "\n\n", Event.stderr (positionalOnly ["def-terminal", "xterm"]).helpText],
        ()⟩ :=
  ⟨(parse_error_is_only_reported demoWorld () (positionalOnly ["open"])).1
      [] "No file or URL given" (by decide),
   (parse_error_is_only_reported demoWorld ()
      (positionalOnly ["def-terminal", "xterm"])).2.2.2.2.2
      {} "To set the default terminal use the -s/--set option" (by decide)⟩

/-! ## The named-default parsers: Ok answers -/

theorem removeAt_zero (l : List String) :
    removeAt l 0 = match l with
      | [] => none
      | _ :: rest => some rest := by
  cases l <;> simp [removeAt]

theorem webBrowser_parse_ok (parser : QCommandLineParser) (data : DefWebBrowserData) (e : String)
    (data1 : DefWebBrowserData) (e1 : String)
    (h : DefWebBrowserMatCommand.parseCommandLine parser data e = some (CommandLineOk, data1, e1)) :
    ∃ cmd, parser.positionalArguments = [cmd]
      ∧ (parser.isSetListAvailable = true → parser.isSetSet = false
          ∧ data1 = { data with mode := DefWebBrowserCommandMode.CommandModeListAvailableWebBrowsers })
      ∧ (parser.isSetListAvailable = false →
          data1 = { mode := if parser.isSetSet then DefWebBrowserCommandMode.CommandModeSetDefWebBrowser
                            else DefWebBrowserCommandMode.CommandModeGetDefWebBrowser,
                    defWebBrowserName := if parser.isSetSet then parser.valueSet else "" })
      ∧ e1 = e := by
  unfold DefWebBrowserMatCommand.parseCommandLine at h
  rw [removeAt_zero] at h
  rcases hp : parser.positionalArguments with _ | ⟨cmd, _ | ⟨a, rest⟩⟩ <;>
  cases h1 : parser.parseOk <;> cases h2 : parser.isSetVersion <;>
  cases h3 : parser.isSetHelp <;> cases h4 : parser.isSetHelpAll <;>
  cases h5 : parser.isSetSet <;> cases h6 : parser.isSetListAvailable <;>
  simp [h1, h2, h3, h4, h5, h6, hp] at h <;>
  (obtain ⟨hd, he⟩ := h; subst hd; simp [he])

theorem emailClient_parse_ok (parser : QCommandLineParser) (data : DefEmailClientData) (e : String)
    (data1 : DefEmailClientData) (e1 : String)
    (h : DefEmailClientMatCommand.parseCommandLine parser data e = some (CommandLineOk, data1, e1)) :
    ∃ cmd, parser.positionalArguments = [cmd]
      ∧ (parser.isSetListAvailable = true → parser.isSetSet = false
          ∧ data1 = { data with mode := DefEmailClientCommandMode.CommandModeListAvailableEmailClients })
      ∧ (parser.isSetListAvailable = false →
          data1 = { mode := if parser.isSetSet then DefEmailClientCommandMode.CommandModeSetDefEmailClient
                            else DefEmailClientCommandMode.CommandModeGetDefEmailClient,
                    defEmailClientName := if parser.isSetSet then parser.valueSet else "" })
      ∧ e1 = e := by
  unfold DefEmailClientMatCommand.parseCommandLine at h
  rw [removeAt_zero] at h
  rcases hp : parser.positionalArguments with _ | ⟨cmd, _ | ⟨a, rest⟩⟩ <;>
  cases h1 : parser.parseOk <;> cases h2 : parser.isSetVersion <;>
  cases h3 : parser.isSetHelp <;> cases h4 : parser.isSetHelpAll <;>
  cases h5 : parser.isSetSet <;> cases h6 : parser.isSetListAvailable <;>
  simp [h1, h2, h3, h4, h5, h6, hp] at h <;>
  (obtain ⟨hd, he⟩ := h; subst hd; simp [he])

theorem fileManager_parse_ok (parser : QCommandLineParser) (data : DefFileManagerData) (e : String)
    (data1 : DefFileManagerData) (e1 : String)
    (h : DefFileManagerMatCommand.parseCommandLine parser data e = some (CommandLineOk, data1, e1)) :
    ∃ cmd, parser.positionalArguments = [cmd]
      ∧ (parser.isSetListAvailable = true → parser.isSetSet = false
          ∧ data1 = { data with mode := DefFileManagerCommandMode.CommandModeListAvailableFileManagers })
      ∧ (parser.isSetListAvailable = false →
          data1 = { mode := if parser.isSetSet then DefFileManagerCommandMode.CommandModeSetDefFileManager
                            else DefFileManagerCommandMode.CommandModeGetDefFileManager,
                    defFileManagerName := if parser.isSetSet then parser.valueSet else "" })
      ∧ e1 = e := by
  unfold DefFileManagerMatCommand.parseCommandLine at h
  rw [removeAt_zero] at h
  rcases hp : parser.positionalArguments with _ | ⟨cmd, _ | ⟨a, rest⟩⟩ <;>
  cases h1 : parser.parseOk <;> cases h2 : parser.isSetVersion <;>
  cases h3 : parser.isSetHelp <;> cases h4 : parser.isSetHelpAll <;>
  cases h5 : parser.isSetSet <;> cases h6 : parser.isSetListAvailable <;>
  simp [h1, h2, h3, h4, h5, h6, hp] at h <;>
  (obtain ⟨hd, he⟩ := h; subst hd; simp [he])

theorem terminal_parse_ok (parser : QCommandLineParser) (data : DefTerminalData) (e : String)
    (data1 : DefTerminalData) (e1 : String)
    (h : DefTerminalMatCommand.parseCommandLine parser data e = some (CommandLineOk, data1, e1)) :
    ∃ cmd, parser.positionalArguments = [cmd]
      ∧ (parser.isSetListAvailable = true → parser.isSetSet = false
          ∧ data1 = { data with mode := DefTerminalCommandMode.CommandModeListAvailableTerminals })
      ∧ (parser.isSetListAvailable = false →
          data1 = { mode := if parser.isSetSet then DefTerminalCommandMode.CommandModeSetDefTerminal
                            else DefTerminalCommandMode.CommandModeGetDefTerminal,
                    defTerminalName := if parser.isSetSet then parser.valueSet else "" })
      ∧ e1 = e := by
  unfold DefTerminalMatCommand.parseCommandLine at h
  rw [removeAt_zero] at h
  rcases hp : parser.positionalArguments with _ | ⟨cmd, _ | ⟨a, rest⟩⟩ <;>
  cases h1 : parser.parseOk <;> cases h2 : parser.isSetVersion <;>
  cases h3 : parser.isSetHelp <;> cases h4 : parser.isSetHelpAll <;>
  cases h5 : parser.isSetSet <;> cases h6 : parser.isSetListAvailable <;>
  simp [h1, h2, h3, h4, h5, h6, hp] at h <;>
  (obtain ⟨hd, he⟩ := h; subst hd; simp [he])

/-- C14: whenever one of the four named-default parsers answers Ok, the stored
mode is ListAvailable if `--list-available` was given, otherwise Set if `--set`
was given, otherwise Get.  In a ListAvailable answer `--set` was not given,
nothing follows the command token among the positional arguments, and the name
field is the one of the record passed in, which is empty for the freshly
constructed record that `run` passes.  Whenever the `defapp` parser answers Ok,
the mode is Set exactly when `--set` was given, and the stored name is then the
value of `--set` (and empty when `--set` was not given). -/
theorem ok_mode_follows_options (parser : QCommandLineParser) (e : String) :
    (∀ data data1 e1, DefWebBrowserMatCommand.parseCommandLine parser data e
          = some (CommandLineOk, data1, e1) →
        data1.mode =
          (if parser.isSetListAvailable then DefWebBrowserCommandMode.CommandModeListAvailableWebBrowsers
           else if parser.isSetSet then DefWebBrowserCommandMode.CommandModeSetDefWebBrowser
           else DefWebBrowserCommandMode.CommandModeGetDefWebBrowser)
        ∧ (data1.mode = DefWebBrowserCommandMode.CommandModeListAvailableWebBrowsers →
            data1.defWebBrowserName = data.defWebBrowserName ∧ (data = {} → data1.defWebBrowserName = "")
            ∧ parser.isSetSet = false ∧ parser.positionalArguments.tail = []))
    ∧ (∀ data data1 e1, DefEmailClientMatCommand.parseCommandLine parser data e
          = some (CommandLineOk, data1, e1) →
        data1.mode =
          (if parser.isSetListAvailable then DefEmailClientCommandMode.CommandModeListAvailableEmailClients
           else if parser.isSetSet then DefEmailClientCommandMode.CommandModeSetDefEmailClient
           else DefEmailClientCommandMode.CommandModeGetDefEmailClient)
        ∧ (data1.mode = DefEmailClientCommandMode.CommandModeListAvailableEmailClients →
            data1.defEmailClientName = data.defEmailClientName ∧ (data = {} → data1.defEmailClientName = "")
            ∧ parser.isSetSet = false ∧ parser.positionalArguments.tail = []))
    ∧ (∀ data data1 e1, DefFileManagerMatCommand.parseCommandLine parser data e
          = some (CommandLineOk, data1, e1) →
        data1.mode =
          (if parser.isSetListAvailable then DefFileManagerCommandMode.CommandModeListAvailableFileManagers
           else if parser.isSetSet then DefFileManagerCommandMode.CommandModeSetDefFileManager
           else DefFileManagerCommandMode.CommandModeGetDefFileManager)
        ∧ (data1.mode = DefFileManagerCommandMode.CommandModeListAvailableFileManagers →
            data1.defFileManagerName = data.defFileManagerName ∧ (data = {} → data1.defFileManagerName = "")
            ∧ parser.isSetSet = false ∧ parser.positionalArguments.tail = []))
    ∧ (∀ data data1 e1, DefTerminalMatCommand.parseCommandLine parser data e
          = some (CommandLineOk, data1, e1) →
        data1.mode =
          (if parser.isSetListAvailable then DefTerminalCommandMode.CommandModeListAvailableTerminals
           else if parser.isSetSet then DefTerminalCommandMode.CommandModeSetDefTerminal
           else DefTerminalCommandMode.CommandModeGetDefTerminal)
        ∧ (data1.mode = DefTerminalCommandMode.CommandModeListAvailableTerminals →
            data1.defTerminalName = data.defTerminalName ∧ (data = {} → data1.defTerminalName = "")
            ∧ parser.isSetSet = false ∧ parser.positionalArguments.tail = []))
    ∧ (∀ data data1 e1, DefAppMatCommand.parseCommandLine parser data e
          = (CommandLineOk, data1, e1) →
        (data1.mode = DefAppCommandMode.CommandModeSetDefApp ↔ parser.isSetSet = true)
        ∧ (parser.isSetSet = true → data1.defAppName = parser.valueSet)
        ∧ (parser.isSetSet = false → data1.defAppName = "")) := by
  refine ⟨?_, ?_, ?_, ?_, ?_⟩ <;> intro data data1 e1 h
  · obtain ⟨cmd, hp, hl, hn, _⟩ := webBrowser_parse_ok parser data e data1 e1 h
    cases hla : parser.isSetListAvailable
    · rw [hn hla]
      cases hs : parser.isSetSet <;> simp
    · obtain ⟨hs, hd⟩ := hl hla
      rw [hd]
      refine ⟨by simp, fun _ => ⟨rfl, ?_, hs, by rw [hp]; rfl⟩⟩
      intro hdata
      rw [hdata]
  · obtain ⟨cmd, hp, hl, hn, _⟩ := emailClient_parse_ok parser data e data1 e1 h
    cases hla : parser.isSetListAvailable
    · rw [hn hla]
      cases hs : parser.isSetSet <;> simp
    · obtain ⟨hs, hd⟩ := hl hla
      rw [hd]
      refine ⟨by simp, fun _ => ⟨rfl, ?_, hs, by rw [hp]; rfl⟩⟩
      intro hdata
      rw [hdata]
  · obtain ⟨cmd, hp, hl, hn, _⟩ := fileManager_parse_ok parser data e data1 e1 h
    cases hla : parser.isSetListAvailable
    · rw [hn hla]
      cases hs : parser.isSetSet <;> simp
    · obtain ⟨hs, hd⟩ := hl hla
      rw [hd]
      refine ⟨by simp, fun _ => ⟨rfl, ?_, hs, by rw [hp]; rfl⟩⟩
      intro hdata
      rw [hdata]
  · obtain ⟨cmd, hp, hl, hn, _⟩ := terminal_parse_ok parser data e data1 e1 h
    cases hla : parser.isSetListAvailable
    · rw [hn hla]
      cases hs : parser.isSetSet <;> simp
    · obtain ⟨hs, hd⟩ := hl hla
      rw [hd]
      refine ⟨by simp, fun _ => ⟨rfl, ?_, hs, by rw [hp]; rfl⟩⟩
      intro hdata
      rw [hdata]
  · obtain ⟨cmd, m, rest, _, _, hn, hmd, _, _, _⟩ :=
      DefAppMatCommand.parseCommandLine_ok parser data e data1 e1 h
    rw [hmd, hn]
    cases hs : parser.isSetSet <;> simp

theorem ok_mode_follows_options_witness :
    ({ mode := DefTerminalCommandMode.CommandModeListAvailableTerminals,
       defTerminalName := "" } : DefTerminalData).mode
      = (if (listOnly "def-terminal").isSetListAvailable
          then DefTerminalCommandMode.CommandModeListAvailableTerminals
         else if (listOnly "def-terminal").isSetSet
          then DefTerminalCommandMode.CommandModeSetDefTerminal
         else DefTerminalCommandMode.CommandModeGetDefTerminal)
    ∧ (({ mode := DefAppCommandMode.CommandModeSetDefApp, defAppName := "editor",
          mimeTypes := ["text/plain"] } : DefAppData).mode
        = DefAppCommandMode.CommandModeSetDefApp ↔
        (setTo "defapp" "editor" ["text/plain"]).isSetSet = true) :=
  ⟨((ok_mode_follows_options (listOnly "def-terminal") "").2.2.2.1 {}
      { mode := DefTerminalCommandMode.CommandModeListAvailableTerminals, defTerminalName := "" }
      "" (by decide)).1,
   ((ok_mode_follows_options (setTo "defapp" "editor" ["text/plain"]) "").2.2.2.2 {}
      { mode := DefAppCommandMode.CommandModeSetDefApp, defAppName := "editor",
        mimeTypes := ["text/plain"] } "" (by decide)).1⟩

theorem open_parse_frame (parser : QCommandLineParser) (e : String)
    (code : CommandLineParseResult) (hcode : code ≠ CommandLineOk)
    (files files1 : List String) (e1 : String)
    (h : OpenMatCommand.parseCommandLine parser files e = (code, files1, e1)) :
    files1 = files := by
  unfold OpenMatCommand.parseCommandLine at h
  dsimp only at h
  split_ifs at h <;> simp at h <;>
    first
      | exact h.2.1.symm
      | exact absurd h.1.symm hcode

theorem defapp_parse_frame (parser : QCommandLineParser) (e : String)
    (code : CommandLineParseResult) (hcode : code ≠ CommandLineOk)
    (data data1 : DefAppData) (e1 : String)
    (h : DefAppMatCommand.parseCommandLine parser data e = (code, data1, e1)) :
    data1 = data := by
  unfold DefAppMatCommand.parseCommandLine at h
  dsimp only at h
  split_ifs at h <;> simp at h <;>
    first
      | exact h.2.1.symm
      | exact absurd h.1.symm hcode

theorem webBrowser_parse_frame (parser : QCommandLineParser) (e : String)
    (code : CommandLineParseResult) (hcode : code ≠ CommandLineOk)
    (data data1 : DefWebBrowserData) (e1 : String)
    (h : DefWebBrowserMatCommand.parseCommandLine parser data e = some (code, data1, e1)) :
    data1 = data := by
  unfold DefWebBrowserMatCommand.parseCommandLine at h
  dsimp only at h
  cases hr : removeAt parser.positionalArguments 0 with
  | none =>
    rw [hr] at h
    split_ifs at h <;> simp at h <;> exact h.2.1.symm
  | some posArgs =>
    rw [hr] at h
    dsimp only at h
    split_ifs at h <;> simp at h <;>
      first
        | exact h.2.1.symm
        | exact absurd h.1.symm hcode

theorem emailClient_parse_frame (parser : QCommandLineParser) (e : String)
    (code : CommandLineParseResult) (hcode : code ≠ CommandLineOk)
    (data data1 : DefEmailClientData) (e1 : String)
    (h : DefEmailClientMatCommand.parseCommandLine parser data e = some (code, data1, e1)) :
    data1 = data := by
  unfold DefEmailClientMatCommand.parseCommandLine at h
  dsimp only at h
  cases hr : removeAt parser.positionalArguments 0 with
  | none =>
    rw [hr] at h
    split_ifs at h <;> simp at h <;> exact h.2.1.symm
  | some posArgs =>
    rw [hr] at h
    dsimp only at h
    split_ifs at h <;> simp at h <;>
      first
        | exact h.2.1.symm
        | exact absurd h.1.symm hcode

theorem fileManager_parse_frame (parser : QCommandLineParser) (e : String)
    (code : CommandLineParseResult) (hcode : code ≠ CommandLineOk)
    (data data1 : DefFileManagerData) (e1 : String)
    (h : DefFileManagerMatCommand.parseCommandLine parser data e = some (code, data1, e1)) :
    data1 = data := by
  unfold DefFileManagerMatCommand.parseCommandLine at h
  dsimp only at h
  cases hr : removeAt parser.positionalArguments 0 with
  | none =>
    rw [hr] at h
    split_ifs at h <;> simp at h <;> exact h.2.1.symm
  | some posArgs =>
    rw [hr] at h
    dsimp only at h
    split_ifs at h <;> simp at h <;>
      first
        | exact h.2.1.symm
        | exact absurd h.1.symm hcode

theorem terminal_parse_frame (parser : QCommandLineParser) (e : String)
    (code : CommandLineParseResult) (hcode : code ≠ CommandLineOk)
    (data data1 : DefTerminalData) (e1 : String)
    (h : DefTerminalMatCommand.parseCommandLine parser data e = some (code, data1, e1)) :
    data1 = data := by
  unfold DefTerminalMatCommand.parseCommandLine at h
  dsimp only at h
  cases hr : removeAt parser.positionalArguments 0 with
  | none =>
    rw [hr] at h
    split_ifs at h <;> simp at h <;> exact h.2.1.symm
  | some posArgs =>
    rw [hr] at h
    dsimp only at h
    split_ifs at h <;> simp at h <;>
      first
        | exact h.2.1.symm
        | exact absurd h.1.symm hcode

/-- C15: each of the six parsers leaves the caller's record as it was passed in
whenever its answer is not Ok (`CommandLineError`, `CommandLineVersionRequested`
or `CommandLineHelpRequested`): the file list for `open`, the mode, name and
MIME-type list for `defapp`, the mode and name for the four named-default
commands. -/
theorem parse_not_ok_leaves_record (parser : QCommandLineParser) (e : String)
    (code : CommandLineParseResult) (hcode : code ≠ CommandLineOk) :
    (∀ files files1 e1, OpenMatCommand.parseCommandLine parser files e = (code, files1, e1) →
      files1 = files)
    ∧ (∀ data data1 e1, DefAppMatCommand.parseCommandLine parser data e = (code, data1, e1) →
      data1 = data)
    ∧ (∀ data data1 e1, DefWebBrowserMatCommand.parseCommandLine parser data e
          = some (code, data1, e1) → data1 = data)
    ∧ (∀ data data1 e1, DefEmailClientMatCommand.parseCommandLine parser data e
          = some (code, data1, e1) → data1 = data)
    ∧ (∀ data data1 e1, DefFileManagerMatCommand.parseCommandLine parser data e
          = some (code, data1, e1) → data1 = data)
    ∧ (∀ data data1 e1, DefTerminalMatCommand.parseCommandLine parser data e
          = some (code, data1, e1) → data1 = data) :=
  ⟨fun files files1 e1 h => open_parse_frame parser e code hcode files files1 e1 h,
   fun data data1 e1 h => defapp_parse_frame parser e code hcode data data1 e1 h,
   fun data data1 e1 h => webBrowser_parse_frame parser e code hcode data data1 e1 h,
   fun data data1 e1 h => emailClient_parse_frame parser e code hcode data data1 e1 h,
   fun data data1 e1 h => fileManager_parse_frame parser e code hcode data data1 e1 h,
   fun data data1 e1 h => terminal_parse_frame parser e code hcode data data1 e1 h⟩

theorem parse_not_ok_leaves_record_witness :
    (DefAppMatCommand.parseCommandLine (positionalOnly ["defapp"]) usedRecord "").1
        = CommandLineError
    ∧ (DefAppMatCommand.parseCommandLine (positionalOnly ["defapp"]) usedRecord "").2.1
        = usedRecord :=
  ⟨by decide,
   (parse_not_ok_leaves_record (positionalOnly ["defapp"]) "" CommandLineError
      (by decide)).2.1 usedRecord _ _ rfl⟩

/-! ## Claims about what is printed -/

theorem stdoutText_append (l1 l2 : List Event) :
    stdoutText (l1 ++ l2) = stdoutText l1 ++ stdoutText l2 := by
  induction l1 with
  | nil => rfl
  | cons ev rest ih => cases ev <;> simp [stdoutText, ih]

theorem stderrText_append (l1 l2 : List Event) :
    stderrText (l1 ++ l2) = stderrText l1 ++ stderrText l2 := by
  induction l1 with
  | nil => rfl
  | cons ev rest ih => cases ev <;> simp [stderrText, ih]

theorem stdoutText_map_stdout {α : Type} (f : α → String) (l : List α) :
    stdoutText (l.map (fun a => Event.stdout (f a))) = l.map f := by
  induction l with
  | nil => rfl
  | cons a rest ih => simp [stdoutText, ih]

theorem stderrText_map_stdout {α : Type} (f : α → String) (l : List α) :
    stderrText (l.map (fun a => Event.stdout (f a))) = [] := by
  induction l with
  | nil => rfl
  | cons a rest ih => simp [stderrText, ih]

theorem stdoutText_map_delete (l : List XdgDesktopFile) :
    stdoutText (l.map Event.delete) = [] := by
  induction l with
  | nil => rfl
  | cons a rest ih => simp [stdoutText, ih]

theorem stderrText_map_delete (l : List XdgDesktopFile) :
    stderrText (l.map Event.delete) = [] := by
  induction l with
  | nil => rfl
  | cons a rest ih => simp [stderrText, ih]

theorem stdoutText_noHandler {σ : Type} (W : World σ) (files : List String) :
    stdoutText (files.flatMap (noHandlerActions W))
      = files.map (fun t => "No default application for '" ++ t ++ "'\n") := by
  induction files with
  | nil => rfl
  | cons t rest ih =>
    rw [List.flatMap_cons, stdoutText_append, ih]
    simp [noHandlerActions, stdoutText]

theorem stderrText_noHandler {σ : Type} (W : World σ) (files : List String) :
    stderrText (files.flatMap (noHandlerActions W)) = [] := by
  induction files with
  | nil => rfl
  | cons t rest ih =>
    rw [List.flatMap_cons, stderrText_append, ih]
    simp [noHandlerActions, stderrText]

theorem runLoop_no_handler {σ : Type} (W : World σ) (files : List String) :
    ∀ s : OpenMatCommand.LoopState σ, s.isLocalFile = false → s.stopped = false →
      (∀ t ∈ files, W.urlScheme t ≠ "" ∧ W.urlScheme t ≠ "file"
        ∧ W.defaultApp s.world ("x-scheme-handler/" ++ W.urlScheme t) = none) →
      OpenMatCommand.runLoop W s files = (s, files.flatMap (noHandlerActions W)) := by
  induction files with
  | nil => intro s _ _ _; rfl
  | cons t rest ih =>
    intro s hs hst h
    obtain ⟨h1, h2, h3⟩ := h t (List.mem_cons_self t rest)
    have hbody : OpenMatCommand.loopBody W s t = (s, noHandlerActions W t) := by
      simp [OpenMatCommand.loopBody, OpenMatCommand.classify, OpenMatCommand.launch,
        noHandlerActions, h1, h2, h3, hs]
    rw [OpenMatCommand.runLoop_cons, hbody]
    simp only [hst]
    rw [ih s hs hst (fun u hu => h u (List.mem_cons_of_mem t hu))]
    simp

/-- C17: when `open` is given targets that all have a scheme other than empty and
`file`, and the store has no default application under
`x-scheme-handler/<scheme>` for any of them, `run` does, per target and in
order, one lookup and one line `No default application for '<target>'` on
standard output; it issues no launch, writes nothing to standard error, leaves
the world as it was and returns `EXIT_SUCCESS`. -/
theorem open_without_handler_only_informs {σ : Type} (W : World σ) (w : σ)
    (parser : QCommandLineParser) (files : List String) (e : String)
    (hparse : OpenMatCommand.parseCommandLine parser [] "" = (CommandLineOk, files, e))
    (hnone : ∀ t ∈ files, W.urlScheme t ≠ "" ∧ W.urlScheme t ≠ "file"
      ∧ W.defaultApp w ("x-scheme-handler/" ++ W.urlScheme t) = none) :
    OpenMatCommand.run W w parser = ⟨EXIT_SUCCESS, files.flatMap (noHandlerActions W), w⟩
    ∧ stdoutText (OpenMatCommand.run W w parser).trace
        = files.map (fun t => "No default application for '" ++ t ++ "'\n")
    ∧ stderrText (OpenMatCommand.run W w parser).trace = []
    ∧ (∀ app arg r, Event.startDetached app arg r ∉ (OpenMatCommand.run W w parser).trace)
    ∧ files ≠ [] := by
  have hrun : OpenMatCommand.run W w parser
      = ⟨EXIT_SUCCESS, files.flatMap (noHandlerActions W), w⟩ := by
    rw [OpenMatCommand.run_of_ok W w parser files e hparse,
      runLoop_no_handler W files (OpenMatCommand.initialState w) rfl rfl hnone]
    rfl
  refine ⟨hrun, ?_, ?_, ?_, ?_⟩
  · rw [hrun]
    exact stdoutText_noHandler W files
  · rw [hrun]
    exact stderrText_noHandler W files
  · intro app arg r
    rw [hrun]
    simp [List.mem_flatMap, noHandlerActions]
  · intro hnil
    subst hnil
    unfold OpenMatCommand.parseCommandLine at hparse
    dsimp only at hparse
    split_ifs at hparse with h1 h2 h3 h4 <;> simp at hparse
    rcases hp : parser.positionalArguments with _ | ⟨a, _ | ⟨b, rest⟩⟩
    · simp [hp] at h4
    · simp [hp] at h4
    · simp [hp] at hparse

theorem open_without_handler_only_informs_witness :
    OpenMatCommand.run noHandlerWorld () (positionalOnly ["open", "http://example.com"])
      = ⟨EXIT_SUCCESS,
         [Event.defaultApp "x-scheme-handler/http" none,
          Event.stdout "No default application for 'http://example.com'\n"], ()⟩ :=
  (open_without_handler_only_informs noHandlerWorld ()
    (positionalOnly ["open", "http://example.com"]) ["http://example.com"] ""
    (by decide) (by decide)).1

/-- C18: in each of the four named-default commands, when the parser answered Ok
with mode ListAvailable, `run` prints to standard output one line per candidate
of the store, in the store's order: the desktop-entry id of its file name (the
bare file name for `def-terminal`) followed by a newline; nothing is written to
standard error and the exit status is `EXIT_SUCCESS`.  With no candidate nothing
is printed and the exit status is still `EXIT_SUCCESS`. -/
theorem list_available_prints_every_candidate {σ : Type} (W : World σ) (w : σ)
    (parser : QCommandLineParser) :
    (∀ data e, DefWebBrowserMatCommand.parseCommandLine parser {} ""
          = some (CommandLineOk, data, e) →
        data.mode = DefWebBrowserCommandMode.CommandModeListAvailableWebBrowsers →
        ∃ r, DefWebBrowserMatCommand.run W w parser = some r ∧ r.exitCode = EXIT_SUCCESS
          ∧ stdoutText r.trace
              = (W.namedCandidates Category.webBrowser w).map (fun app => W.desktopId app.fileName ++ "\n")
          ∧ stderrText r.trace = []
          ∧ (W.namedCandidates Category.webBrowser w = [] → stdoutText r.trace = []))
    ∧ (∀ data e, DefEmailClientMatCommand.parseCommandLine parser {} ""
          = some (CommandLineOk, data, e) →
        data.mode = DefEmailClientCommandMode.CommandModeListAvailableEmailClients →
        ∃ r, DefEmailClientMatCommand.run W w parser = some r ∧ r.exitCode = EXIT_SUCCESS
          ∧ stdoutText r.trace
              = (W.namedCandidates Category.emailClient w).map (fun app => W.desktopId app.fileName ++ "\n")
          ∧ stderrText r.trace = []
          ∧ (W.namedCandidates Category.emailClient w = [] → stdoutText r.trace = []))
    ∧ (∀ data e, DefFileManagerMatCommand.parseCommandLine parser {} ""
          = some (CommandLineOk, data, e) →
        data.mode = DefFileManagerCommandMode.CommandModeListAvailableFileManagers →
        ∃ r, DefFileManagerMatCommand.run W w parser = some r ∧ r.exitCode = EXIT_SUCCESS
          ∧ stdoutText r.trace
              = (W.namedCandidates Category.fileManager w).map (fun app => W.desktopId app.fileName ++ "\n")
          ∧ stderrText r.trace = []
          ∧ (W.namedCandidates Category.fileManager w = [] → stdoutText r.trace = []))
    ∧ (∀ data e, DefTerminalMatCommand.parseCommandLine parser {} ""
          = some (CommandLineOk, data, e) →
        data.mode = DefTerminalCommandMode.CommandModeListAvailableTerminals →
        ∃ r, DefTerminalMatCommand.run W w parser = some r ∧ r.exitCode = EXIT_SUCCESS
          ∧ stdoutText r.trace
              = (W.namedCandidates Category.terminal w).map (fun app => W.baseName app.fileName ++ "\n")
          ∧ stderrText r.trace = []
          ∧ (W.namedCandidates Category.terminal w = [] → stdoutText r.trace = [])) := by
  refine ⟨?_, ?_, ?_, ?_⟩ <;> intro data e hparse hmode
  · have hrun : DefWebBrowserMatCommand.run W w parser = some ⟨EXIT_SUCCESS,
        Event.namedCandidates Category.webBrowser (W.namedCandidates Category.webBrowser w)
          :: ((W.namedCandidates Category.webBrowser w).map
                (fun app => Event.stdout (W.desktopId app.fileName ++ "\n"))
              ++ (W.namedCandidates Category.webBrowser w).map Event.delete), w⟩ := by
      unfold DefWebBrowserMatCommand.run
      rw [hparse]
      simp only [hmode]
    have hout : stdoutText (Event.namedCandidates Category.webBrowser (W.namedCandidates Category.webBrowser w)
          :: ((W.namedCandidates Category.webBrowser w).map
                (fun app => Event.stdout (W.desktopId app.fileName ++ "\n"))
              ++ (W.namedCandidates Category.webBrowser w).map Event.delete))
        = (W.namedCandidates Category.webBrowser w).map (fun app => W.desktopId app.fileName ++ "\n") := by
      simp only [stdoutText, stdoutText_append, stdoutText_map_delete, List.append_nil]
      exact stdoutText_map_stdout (fun app : XdgDesktopFile => W.desktopId app.fileName ++ "\n") _
    refine ⟨_, hrun, rfl, hout, ?_, ?_⟩
    · show stderrText (_ :: (_ ++ _)) = []
      simp only [stderrText, stderrText_append, stderrText_map_delete, List.append_nil]
      exact stderrText_map_stdout (fun app : XdgDesktopFile => W.desktopId app.fileName ++ "\n") _
    · intro hnil
      rw [hout, hnil]
      rfl
  · have hrun : DefEmailClientMatCommand.run W w parser = some ⟨EXIT_SUCCESS,
        Event.namedCandidates Category.emailClient (W.namedCandidates Category.emailClient w)
          :: ((W.namedCandidates Category.emailClient w).map
                (fun app => Event.stdout (W.desktopId app.fileName ++ "\n"))
              ++ (W.namedCandidates Category.emailClient w).map Event.delete), w⟩ := by
      unfold DefEmailClientMatCommand.run
      rw [hparse]
      simp only [hmode]
    have hout : stdoutText (Event.namedCandidates Category.emailClient (W.namedCandidates Category.emailClient w)
          :: ((W.namedCandidates Category.emailClient w).map
                (fun app => Event.stdout (W.desktopId app.fileName ++ "\n"))
              ++ (W.namedCandidates Category.emailClient w).map Event.delete))
        = (W.namedCandidates Category.emailClient w).map (fun app => W.desktopId app.fileName ++ "\n") := by
      simp only [stdoutText, stdoutText_append, stdoutText_map_delete, List.append_nil]
      exact stdoutText_map_stdout (fun app : XdgDesktopFile => W.desktopId app.fileName ++ "\n") _
    refine ⟨_, hrun, rfl, hout, ?_, ?_⟩
    · show stderrText (_ :: (_ ++ _)) = []
      simp only [stderrText, stderrText_append, stderrText_map_delete, List.append_nil]
      exact stderrText_map_stdout (fun app : XdgDesktopFile => W.desktopId app.fileName ++ "\n") _
    · intro hnil
      rw [hout, hnil]
      rfl
  · have hrun : DefFileManagerMatCommand.run W w parser = some ⟨EXIT_SUCCESS,
        Event.namedCandidates Category.fileManager (W.namedCandidates Category.fileManager w)
          :: ((W.namedCandidates Category.fileManager w).map
                (fun app => Event.stdout (W.desktopId app.fileName ++ "\n"))
              ++ (W.namedCandidates Category.fileManager w).map Event.delete), w⟩ := by
      unfold DefFileManagerMatCommand.run
      rw [hparse]
      simp only [hmode]
    have hout : stdoutText (Event.namedCandidates Category.fileManager (W.namedCandidates Category.fileManager w)
          :: ((W.namedCandidates Category.fileManager w).map
                (fun app => Event.stdout (W.desktopId app.fileName ++ "\n"))
              ++ (W.namedCandidates Category.fileManager w).map Event.delete))
        = (W.namedCandidates Category.fileManager w).map (fun app => W.desktopId app.fileName ++ "\n") := by
      simp only [stdoutText, stdoutText_append, stdoutText_map_delete, List.append_nil]
      exact stdoutText_map_stdout (fun app : XdgDesktopFile => W.desktopId app.fileName ++ "\n") _
    refine ⟨_, hrun, rfl, hout, ?_, ?_⟩
    · show stderrText (_ :: (_ ++ _)) = []
      simp only [stderrText, stderrText_append, stderrText_map_delete, List.append_nil]
      exact stderrText_map_stdout (fun app : XdgDesktopFile => W.desktopId app.fileName ++ "\n") _
    · intro hnil
      rw [hout, hnil]
      rfl
  · have hrun : DefTerminalMatCommand.run W w parser = some ⟨EXIT_SUCCESS,
        Event.namedCandidates Category.terminal (W.namedCandidates Category.terminal w)
          :: ((W.namedCandidates Category.terminal w).map
                (fun app => Event.stdout (W.baseName app.fileName ++ "\n"))
              ++ (W.namedCandidates Category.terminal w).map Event.delete), w⟩ := by
      unfold DefTerminalMatCommand.run
      rw [hparse]
      simp only [hmode]
    have hout : stdoutText (Event.namedCandidates Category.terminal (W.namedCandidates Category.terminal w)
          :: ((W.namedCandidates Category.terminal w).map
                (fun app => Event.stdout (W.baseName app.fileName ++ "\n"))
              ++ (W.namedCandidates Category.terminal w).map Event.delete))
        = (W.namedCandidates Category.terminal w).map (fun app => W.baseName app.fileName ++ "\n") := by
      simp only [stdoutText, stdoutText_append, stdoutText_map_delete, List.append_nil]
      exact stdoutText_map_stdout (fun app : XdgDesktopFile => W.baseName app.fileName ++ "\n") _
    refine ⟨_, hrun, rfl, hout, ?_, ?_⟩
    · show stderrText (_ :: (_ ++ _)) = []
      simp only [stderrText, stderrText_append, stderrText_map_delete, List.append_nil]
      exact stderrText_map_stdout (fun app : XdgDesktopFile => W.baseName app.fileName ++ "\n") _
    · intro hnil
      rw [hout, hnil]
      rfl

theorem list_available_prints_every_candidate_witness :
    ∃ r, DefTerminalMatCommand.run twoTerminalsWorld () (listOnly "def-terminal") = some r
      ∧ r.exitCode = EXIT_SUCCESS
      ∧ stdoutText r.trace = ["xterm.desktop\n", "qterminal.desktop\n"]
      ∧ stderrText r.trace = [] := by
  obtain ⟨r, hrun, hexit, hout, herr, _⟩ :=
    (list_available_prints_every_candidate twoTerminalsWorld () (listOnly "def-terminal")).2.2.2
      { mode := DefTerminalCommandMode.CommandModeListAvailableTerminals, defTerminalName := "" }
      "" (by decide) rfl
  exact ⟨r, hrun, hexit, by rw [hout]; decide, herr⟩

/-- C19: in each of the five Get paths, when the store has no default
application for the key (the first MIME type for `defapp`, the category for the
named-default commands), `run` makes the lookup, writes nothing to standard
output and nothing to standard error, leaves the world as it was and returns
`EXIT_SUCCESS`. -/
theorem get_without_default_is_silent {σ : Type} (W : World σ) (w : σ)
    (parser : QCommandLineParser) :
    (∀ data e mimeType, DefAppMatCommand.parseCommandLine parser {} ""
          = (CommandLineOk, data, e) →
        data.mode = DefAppCommandMode.CommandModeGetDefApp →
        data.mimeTypes.head? = some mimeType → W.defaultApp w mimeType = none →
        DefAppMatCommand.run W w parser
            = some ⟨EXIT_SUCCESS, [Event.defaultApp mimeType none], w⟩
          ∧ stdoutText [Event.defaultApp mimeType none] = []
          ∧ stderrText [Event.defaultApp mimeType none] = [])
    ∧ (∀ data e, DefWebBrowserMatCommand.parseCommandLine parser {} ""
          = some (CommandLineOk, data, e) →
        data.mode = DefWebBrowserCommandMode.CommandModeGetDefWebBrowser →
        W.namedDefault Category.webBrowser w = none →
        DefWebBrowserMatCommand.run W w parser
            = some ⟨EXIT_SUCCESS, [Event.namedDefault Category.webBrowser none], w⟩
          ∧ stdoutText [Event.namedDefault Category.webBrowser none] = []
          ∧ stderrText [Event.namedDefault Category.webBrowser none] = [])
    ∧ (∀ data e, DefEmailClientMatCommand.parseCommandLine parser {} ""
          = some (CommandLineOk, data, e) →
        data.mode = DefEmailClientCommandMode.CommandModeGetDefEmailClient →
        W.namedDefault Category.emailClient w = none →
        DefEmailClientMatCommand.run W w parser
            = some ⟨EXIT_SUCCESS, [Event.namedDefault Category.emailClient none], w⟩
          ∧ stdoutText [Event.namedDefault Category.emailClient none] = []
          ∧ stderrText [Event.namedDefault Category.emailClient none] = [])
    ∧ (∀ data e, DefFileManagerMatCommand.parseCommandLine parser {} ""
          = some (CommandLineOk, data, e) →
        data.mode = DefFileManagerCommandMode.CommandModeGetDefFileManager →
        W.namedDefault Category.fileManager w = none →
        DefFileManagerMatCommand.run W w parser
            = some ⟨EXIT_SUCCESS, [Event.namedDefault Category.fileManager none], w⟩
          ∧ stdoutText [Event.namedDefault Category.fileManager none] = []
          ∧ stderrText [Event.namedDefault Category.fileManager none] = [])
    ∧ (∀ data e, DefTerminalMatCommand.parseCommandLine parser {} ""
          = some (CommandLineOk, data, e) →
        data.mode = DefTerminalCommandMode.CommandModeGetDefTerminal →
        W.namedDefault Category.terminal w = none →
        DefTerminalMatCommand.run W w parser
            = some ⟨EXIT_SUCCESS, [Event.namedDefault Category.terminal none], w⟩
          ∧ stdoutText [Event.namedDefault Category.terminal none] = []
          ∧ stderrText [Event.namedDefault Category.terminal none] = []) := by
  refine ⟨?_, ?_, ?_, ?_, ?_⟩
  · intro data e mimeType hparse hmode hhead hnone
    refine ⟨?_, rfl, rfl⟩
    unfold DefAppMatCommand.run
    rw [hparse]
    rcases hm : data.mimeTypes with _ | ⟨m, rest⟩
    · rw [hm] at hhead
      simp at hhead
    · rw [hm] at hhead
      simp only [List.head?_cons, Option.some.injEq] at hhead
      subst hhead
      simp only [hmode, hm, hnone]
  · intro data e hparse hmode hnone
    refine ⟨?_, rfl, rfl⟩
    unfold DefWebBrowserMatCommand.run
    rw [hparse]
    simp only [hmode, hnone]
  · intro data e hparse hmode hnone
    refine ⟨?_, rfl, rfl⟩
    unfold DefEmailClientMatCommand.run
    rw [hparse]
    simp only [hmode, hnone]
  · intro data e hparse hmode hnone
    refine ⟨?_, rfl, rfl⟩
    unfold DefFileManagerMatCommand.run
    rw [hparse]
    simp only [hmode, hnone]
  · intro data e hparse hmode hnone
    refine ⟨?_, rfl, rfl⟩
    unfold DefTerminalMatCommand.run
    rw [hparse]
    simp only [hmode, hnone]

theorem get_without_default_is_silent_witness :
    DefAppMatCommand.run demoWorld () (positionalOnly ["defapp", "image/png"])
        = some ⟨EXIT_SUCCESS, [Event.defaultApp "image/png" none], ()⟩
    ∧ DefWebBrowserMatCommand.run demoWorld () (positionalOnly ["def-web-browser"])
        = some ⟨EXIT_SUCCESS, [Event.namedDefault Category.webBrowser none], ()⟩ :=
  ⟨((get_without_default_is_silent demoWorld () (positionalOnly ["defapp", "image/png"])).1
      { mode := DefAppCommandMode.CommandModeGetDefApp, defAppName := "",
        mimeTypes := ["image/png"] } "" "image/png" (by decide) rfl rfl (by decide)).1,
   ((get_without_default_is_silent demoWorld () (positionalOnly ["def-web-browser"])).2.1
      { mode := DefWebBrowserCommandMode.CommandModeGetDefWebBrowser, defWebBrowserName := "" }
      "" (by decide) rfl (by decide)).1⟩

/-- C20 (defect in the code): when the application name cannot be loaded, each of
the five Set paths writes `Could not find find '<name>'` (the word `find` twice)
and a newline to standard error, not `Could not find '<name>'`. -/
theorem unloadable_name_message_repeats_find :
    demoWorld.load () "nosuch" = none
    ∧ (DefAppMatCommand.run demoWorld () (setTo "defapp" "nosuch" ["text/plain"])).map
        (fun r => stderrText r.trace) = some ["Could not find find 'nosuch'\n"]
    ∧ (DefWebBrowserMatCommand.run demoWorld () (setTo "def-web-browser" "nosuch" [])).map
        (fun r => stderrText r.trace) = some ["Could not find find 'nosuch'\n"]
    ∧ (DefEmailClientMatCommand.run demoWorld () (setTo "def-email-client" "nosuch" [])).map
        (fun r => stderrText r.trace) = some ["Could not find find 'nosuch'\n"]
    ∧ (DefFileManagerMatCommand.run demoWorld () (setTo "def-file-manager" "nosuch" [])).map
        (fun r => stderrText r.trace) = some ["Could not find find 'nosuch'\n"]
    ∧ (DefTerminalMatCommand.run demoWorld () (setTo "def-terminal" "nosuch" [])).map
        (fun r => stderrText r.trace) = some ["Could not find find 'nosuch'\n"] := by
  decide

/-! ## Claims about the entry point -/

/-- C11 (defect in the code): for `qtxdg-mat -s def-terminal`, the first parse of
`main`, which knows no option, has `def-terminal` as its only positional
argument and dispatches to `def-terminal`; the parse of the subcommand takes
`def-terminal` as the value of `-s`, so its positional list is empty and
`removeAt(0)` is out of range: the run ends in the failed assertion.  The same
happens with the other three named-default commands. -/
theorem option_before_command_reaches_removeAt :
    (QCommandLineParser.parse [] ["qtxdg-mat", "-s", "def-terminal"]).positionalArguments
      = ["def-terminal"]
    ∧ (QCommandLineParser.parse (namedDefaultOptions "terminal")
        ["qtxdg-mat", "-s", "def-terminal"]).positionalArguments = []
    ∧ DefTerminalMatCommand.parseCommandLine
        (QCommandLineParser.parse (namedDefaultOptions "terminal")
          ["qtxdg-mat", "-s", "def-terminal"]) {} "" = none
    ∧ (Main.main QCommandLineParser.parse demoWorld mimeTypeStub
        ["qtxdg-mat", "-s", "def-terminal"] ()).isNone = true
    ∧ (Main.main QCommandLineParser.parse demoWorld mimeTypeStub
        ["qtxdg-mat", "-s", "def-web-browser"] ()).isNone = true
    ∧ (Main.main QCommandLineParser.parse demoWorld mimeTypeStub
        ["qtxdg-mat", "-s", "def-email-client"] ()).isNone = true
    ∧ (Main.main QCommandLineParser.parse demoWorld mimeTypeStub
        ["qtxdg-mat", "-s", "def-file-manager"] ()).isNone = true := by
  decide

theorem add_eq_some {σ : Type} (commands result : List (MatCommandInterface σ))
    (cmd : MatCommandInterface σ) (h : MatCommandManager.add commands cmd = some result) :
    result = commands ++ [cmd] := by
  unfold MatCommandManager.add at h
  split_ifs at h
  exact (Option.some.inj h).symm

theorem registerCommands_eq {σ : Type} (tok : Tokenizer) (W : World σ)
    (mimeTypeCmd : MatCommandInterface σ) (argv : List String)
    (commands : List (MatCommandInterface σ))
    (hreg : Main.registerCommands tok W mimeTypeCmd argv = some commands) :
    commands =
      [DefAppMatCommand.command tok W argv, OpenMatCommand.command tok W argv, mimeTypeCmd,
       DefWebBrowserMatCommand.command tok W argv, DefEmailClientMatCommand.command tok W argv,
       DefFileManagerMatCommand.command tok W argv, DefTerminalMatCommand.command tok W argv] := by
  unfold Main.registerCommands at hreg
  simp only [Option.bind_eq_bind, Option.bind_eq_some] at hreg
  obtain ⟨m1, h1, m2, h2, m3, h3, m4, h4, m5, h5, m6, h6, h7⟩ := hreg
  rw [add_eq_some _ _ _ h7, add_eq_some _ _ _ h6, add_eq_some _ _ _ h5, add_eq_some _ _ _ h4,
    add_eq_some _ _ _ h3, add_eq_some _ _ _ h2, add_eq_some _ _ _ h1]
  rfl

theorem runFirstMatch_first {σ : Type} (command : String) (args : List String) (w : σ)
    (pre post : List (MatCommandInterface σ)) (cmd : MatCommandInterface σ)
    (hname : cmd.name = command) (hpre : ∀ c ∈ pre, c.name ≠ command) :
    Main.runFirstMatch command args w (pre ++ cmd :: post) = some (cmd.run args w) := by
  induction pre with
  | nil => simp [Main.runFirstMatch, hname]
  | cons c pre ih =>
    have hc : ¬ command = c.name := fun h => hpre c (List.mem_cons_self c pre) h.symm
    simp only [List.cons_append, Main.runFirstMatch, hc, if_false]
    exact ih (fun d hd => hpre d (List.mem_cons_of_mem c hd))

theorem runFirstMatch_none {σ : Type} (command : String) (args : List String) (w : σ)
    (commands : List (MatCommandInterface σ)) (h : ∀ c ∈ commands, c.name ≠ command) :
    Main.runFirstMatch command args w commands = none := by
  induction commands with
  | nil => rfl
  | cons c rest ih =>
    have hc : ¬ command = c.name := fun heq => h c (List.mem_cons_self c rest) heq.symm
    simp only [Main.runFirstMatch, hc, if_false]
    exact ih (fun d hd => h d (List.mem_cons_of_mem c hd))

/-- C12: when the first parse of `main` finds at least one positional argument
and the seven commands were registered (in the order `defapp`, `open`, the
`mimetype` command, `def-web-browser`, `def-email-client`, `def-file-manager`,
`def-terminal`), the outcome of `main` is the outcome of `run` of the first
registered command whose name equals the first positional argument: its exit
status, its actions and nothing else.  When no registered name equals it, no
command runs: the only action of `main` is one write to standard output of the
parser's help text, a newline, the line `Available commands:`, one line per
registered command with its name and description, and a newline; the world is
left as it was and the exit status is 1 (`EXIT_FAILURE`). -/
theorem main_runs_first_matching_command {σ : Type} (tok : Tokenizer) (W : World σ)
    (mimeTypeCmd : MatCommandInterface σ) (argv : List String) (w : σ)
    (commands : List (MatCommandInterface σ)) (command : String) (rest : List String)
    (hreg : Main.registerCommands tok W mimeTypeCmd argv = some commands)
    (hargs : (tok [] argv).positionalArguments = command :: rest) :
    commands =
      [DefAppMatCommand.command tok W argv, OpenMatCommand.command tok W argv, mimeTypeCmd,
       DefWebBrowserMatCommand.command tok W argv, DefEmailClientMatCommand.command tok W argv,
       DefFileManagerMatCommand.command tok W argv, DefTerminalMatCommand.command tok W argv]
    ∧ (∀ pre cmd post, commands = pre ++ cmd :: post → cmd.name = command →
        (∀ c ∈ pre, c.name ≠ command) →
        Main.main tok W mimeTypeCmd argv w = cmd.run (command :: rest) w)
    ∧ ((∀ c ∈ commands, c.name ≠ command) →
        Main.main tok W mimeTypeCmd argv w =
          some ⟨1,
            [Event.stdout ((tok (helpOptions ++ [versionOption]) argv).helpText ++ "\n"
              ++ "Available commands:\n"
              ++ String.join (commands.map (fun c => c.name ++ "  " ++ c.description ++ "\n"))
              ++ "\n")],
            w⟩) := by
  refine ⟨registerCommands_eq tok W mimeTypeCmd argv commands hreg, ?_, ?_⟩
  · intro pre cmd post hsplit hname hpre
    unfold Main.main
    rw [hreg]
    simp only [hargs]
    rw [hsplit, runFirstMatch_first command (command :: rest) w pre post cmd hname hpre]
  · intro hnone
    unfold Main.main
    rw [hreg]
    simp only [hargs]
    rw [runFirstMatch_none command (command :: rest) w commands hnone]
    rfl

theorem main_runs_first_matching_command_witness :
    Main.main QCommandLineParser.parse demoWorld mimeTypeStub
        ["qtxdg-mat", "open", "http://example.com"] ()
      = some (OpenMatCommand.run demoWorld ()
          (QCommandLineParser.parse (helpOptions ++ [versionOption])
            ["qtxdg-mat", "open", "http://example.com"]))
    ∧ Main.main QCommandLineParser.parse demoWorld mimeTypeStub ["qtxdg-mat", "frobnicate"] ()
      = some ⟨1,
          [Event.stdout ("\nAvailable commands:\n"
            ++ "defapp  Get/Set the default application for a mimetype\n"
            ++ "open  Open files with the default application\n"
            ++ "mimetype  \n"
            ++ "def-web-browser  Get/Set the default web browser\n"
            ++ "def-email-client  Get/Set the default email client\n"
            ++ "def-file-manager  Get/Set the default file manager\n"
            ++ "def-terminal  Get/Set the default terminal\n"
            ++ "\n")],
          ()⟩ :=
  ⟨(main_runs_first_matching_command QCommandLineParser.parse demoWorld mimeTypeStub
      ["qtxdg-mat", "open", "http://example.com"] ()
      [DefAppMatCommand.command QCommandLineParser.parse demoWorld ["qtxdg-mat", "open", "http://example.com"],
       OpenMatCommand.command QCommandLineParser.parse demoWorld ["qtxdg-mat", "open", "http://example.com"],
       mimeTypeStub,
       DefWebBrowserMatCommand.command QCommandLineParser.parse demoWorld ["qtxdg-mat", "open", "http://example.com"],
       DefEmailClientMatCommand.command QCommandLineParser.parse demoWorld ["qtxdg-mat", "open", "http://example.com"],
       DefFileManagerMatCommand.command QCommandLineParser.parse demoWorld ["qtxdg-mat", "open", "http://example.com"],
       DefTerminalMatCommand.command QCommandLineParser.parse demoWorld ["qtxdg-mat", "open", "http://example.com"]]
      "open" ["http://example.com"] rfl rfl).2.1
      [DefAppMatCommand.command QCommandLineParser.parse demoWorld ["qtxdg-mat", "open", "http://example.com"]]
      (OpenMatCommand.command QCommandLineParser.parse demoWorld ["qtxdg-mat", "open", "http://example.com"])
      [mimeTypeStub,
       DefWebBrowserMatCommand.command QCommandLineParser.parse demoWorld ["qtxdg-mat", "open", "http://example.com"],
       DefEmailClientMatCommand.command QCommandLineParser.parse demoWorld ["qtxdg-mat", "open", "http://example.com"],
       DefFileManagerMatCommand.command QCommandLineParser.parse demoWorld ["qtxdg-mat", "open", "http://example.com"],
       DefTerminalMatCommand.command QCommandLineParser.parse demoWorld ["qtxdg-mat", "open", "http://example.com"]]
      rfl rfl (by decide),
   (main_runs_first_matching_command QCommandLineParser.parse demoWorld mimeTypeStub
      ["qtxdg-mat", "frobnicate"] ()
      [DefAppMatCommand.command QCommandLineParser.parse demoWorld ["qtxdg-mat", "frobnicate"],
       OpenMatCommand.command QCommandLineParser.parse demoWorld ["qtxdg-mat", "frobnicate"],
       mimeTypeStub,
       DefWebBrowserMatCommand.command QCommandLineParser.parse demoWorld ["qtxdg-mat", "frobnicate"],
       DefEmailClientMatCommand.command QCommandLineParser.parse demoWorld ["qtxdg-mat", "frobnicate"],
       DefFileManagerMatCommand.command QCommandLineParser.parse demoWorld ["qtxdg-mat", "frobnicate"],
       DefTerminalMatCommand.command QCommandLineParser.parse demoWorld ["qtxdg-mat", "frobnicate"]]
      "frobnicate" [] rfl rfl).2.2 (by decide)⟩

theorem list_and_set_with_command_token_is_error (parser : QCommandLineParser) (e : String)
    (hok : parser.parseOk = true) (hv : parser.isSetVersion = false)
    (hh : parser.isSetHelp = false) (hha : parser.isSetHelpAll = false)
    (hl : parser.isSetListAvailable = true) (hs : parser.isSetSet = true)
    (cmd : String) (rest : List String) (hp : parser.positionalArguments = cmd :: rest) :
    (∀ data, DefWebBrowserMatCommand.parseCommandLine parser data e
        = some (CommandLineError, data,
            if rest = [] then
              "list-available can't be used with other options and doesn't take arguments"
            else "Extra arguments given: " ++ String.intercalate "," rest))
    ∧ (∀ data, DefEmailClientMatCommand.parseCommandLine parser data e
        = some (CommandLineError, data,
            if rest = [] then
              "list-available can't be used with other options and doesn't take arguments"
            else "Extra arguments given: " ++ String.intercalate "," rest))
    ∧ (∀ data, DefFileManagerMatCommand.parseCommandLine parser data e
        = some (CommandLineError, data,
            if rest = [] then
              "list-available can't be used with other options and doesn't take arguments"
            else "Extra arguments given: " ++ String.intercalate "," rest))
    ∧ (∀ data, DefTerminalMatCommand.parseCommandLine parser data e
        = some (CommandLineError, data,
            if rest = [] then
              "list-available can't be used with other options and doesn't take arguments"
            else "Extra arguments given: " ++ String.intercalate "," rest)) := by
  refine ⟨?_, ?_, ?_, ?_⟩ <;> intro data <;> cases rest
  · simp [DefWebBrowserMatCommand.parseCommandLine, removeAt, hok, hv, hh, hha, hl, hs, hp]
  · simp [DefWebBrowserMatCommand.parseCommandLine, removeAt, hok, hv, hh, hha, hl, hs, hp]
  · simp [DefEmailClientMatCommand.parseCommandLine, removeAt, hok, hv, hh, hha, hl, hs, hp]
  · simp [DefEmailClientMatCommand.parseCommandLine, removeAt, hok, hv, hh, hha, hl, hs, hp]
  · simp [DefFileManagerMatCommand.parseCommandLine, removeAt, hok, hv, hh, hha, hl, hs, hp]
  · simp [DefFileManagerMatCommand.parseCommandLine, removeAt, hok, hv, hh, hha, hl, hs, hp]
  · simp [DefTerminalMatCommand.parseCommandLine, removeAt, hok, hv, hh, hha, hl, hs, hp]
  · simp [DefTerminalMatCommand.parseCommandLine, removeAt, hok, hv, hh, hha, hl, hs, hp]

/-- C16 (defect in the code, the one of C11): `qtxdg-mat -l -s def-terminal`
tokenizes without error, version or help and has both `--list-available` and
`--set` with the non-empty value `def-terminal`; its positional list is empty,
so the parser of `def-terminal` does not answer `CommandLineError`: it ends in
the failed assertion of `removeAt(0)`.  The same happens with the other three
named-default commands. -/
theorem list_and_set_without_command_token_is_no_error :
    (QCommandLineParser.parse (namedDefaultOptions "terminal")
        ["qtxdg-mat", "-l", "-s", "def-terminal"])
      = { parseOk := true, errorText := "", helpText := "", isSetVersion := false,
          isSetHelp := false, isSetHelpAll := false, isSetSet := true,
          valueSet := "def-terminal", isSetListAvailable := true, positionalArguments := [] }
    ∧ DefTerminalMatCommand.parseCommandLine
        (QCommandLineParser.parse (namedDefaultOptions "terminal")
          ["qtxdg-mat", "-l", "-s", "def-terminal"]) {} "" = none
    ∧ (Main.main QCommandLineParser.parse demoWorld mimeTypeStub
        ["qtxdg-mat", "-l", "-s", "def-terminal"] ()).isNone = true
    ∧ (Main.main QCommandLineParser.parse demoWorld mimeTypeStub
        ["qtxdg-mat", "-l", "-s", "def-web-browser"] ()).isNone = true
    ∧ (Main.main QCommandLineParser.parse demoWorld mimeTypeStub
        ["qtxdg-mat", "-l", "-s", "def-email-client"] ()).isNone = true
    ∧ (Main.main QCommandLineParser.parse demoWorld mimeTypeStub
        ["qtxdg-mat", "-l", "-s", "def-file-manager"] ()).isNone = true := by
  decide

/-! ## The named-default parsers: one decision -/

theorem extra_arguments_ne_listAvailable (text : String) :
    "Extra arguments given: " ++ text ≠ listAvailableMessage := by
  intro h
  have h2 := congrArg (fun s => s.data.head?) h
  simp [listAvailableMessage] at h2

theorem use_set_ne_listAvailable (noun : String) :
    "To set the default " ++ noun ++ " use the -s/--set option" ≠ listAvailableMessage := by
  intro h
  have h2 := congrArg (fun s => s.data.head?) h
  simp [listAvailableMessage] at h2

theorem namedDefaultError_listAvailable (noun : String) (parser : QCommandLineParser)
    (rest : List String) :
    namedDefaultError noun parser rest = some listAvailableMessage ↔
      (parser.isSetListAvailable = true ∧ parser.isSetSet = true ∧ rest = []) := by
  unfold namedDefaultError
  split_ifs with h1 h2 h3
  · simp only [Option.some.injEq]
    constructor
    · intro h; exact absurd h (extra_arguments_ne_listAvailable _)
    · intro h; exact absurd h.2.2 h1.1
  · simp only [Option.some.injEq]
    constructor
    · intro h; exact absurd h (use_set_ne_listAvailable _)
    · intro h; exact absurd h.2.2 h2
  · simp only [ne_eq, not_not] at h2
    simp [h3.1, h3.2, h2]
  · simp only [ne_eq, not_not] at h2
    constructor
    · intro h; exact absurd h (by simp)
    · intro h; exact absurd ⟨h.1, h.2.1⟩ h3

theorem webBrowser_parse_decision (parser : QCommandLineParser) (e : String)
    (cmd : String) (rest : List String)
    (hok : parser.parseOk = true) (hv : parser.isSetVersion = false)
    (hh : parser.isSetHelp = false) (hha : parser.isSetHelpAll = false)
    (hp : parser.positionalArguments = cmd :: rest) (data : DefWebBrowserData) :
    DefWebBrowserMatCommand.parseCommandLine parser data e =
      match namedDefaultError "browser" parser rest with
      | some msg => some (CommandLineError, data, msg)
      | none =>
        some (CommandLineOk,
          { mode :=
              if parser.isSetListAvailable then
                DefWebBrowserCommandMode.CommandModeListAvailableWebBrowsers
              else if parser.isSetSet then DefWebBrowserCommandMode.CommandModeSetDefWebBrowser
              else DefWebBrowserCommandMode.CommandModeGetDefWebBrowser,
            defWebBrowserName :=
              if parser.isSetListAvailable then data.defWebBrowserName
              else if parser.isSetSet then parser.valueSet else "" }, e) := by
  cases rest <;> cases hs : parser.isSetSet <;> cases hl : parser.isSetListAvailable <;>
    simp [DefWebBrowserMatCommand.parseCommandLine, removeAt, namedDefaultError, listAvailableMessage,
      hok, hv, hh, hha, hp, hs, hl]

theorem emailClient_parse_decision (parser : QCommandLineParser) (e : String)
    (cmd : String) (rest : List String)
    (hok : parser.parseOk = true) (hv : parser.isSetVersion = false)
    (hh : parser.isSetHelp = false) (hha : parser.isSetHelpAll = false)
    (hp : parser.positionalArguments = cmd :: rest) (data : DefEmailClientData) :
    DefEmailClientMatCommand.parseCommandLine parser data e =
      match namedDefaultError "email client" parser rest with
      | some msg => some (CommandLineError, data, msg)
      | none =>
        some (CommandLineOk,
          { mode :=
              if parser.isSetListAvailable then
                DefEmailClientCommandMode.CommandModeListAvailableEmailClients
              else if parser.isSetSet then DefEmailClientCommandMode.CommandModeSetDefEmailClient
              else DefEmailClientCommandMode.CommandModeGetDefEmailClient,
            defEmailClientName :=
              if parser.isSetListAvailable then data.defEmailClientName
              else if parser.isSetSet then parser.valueSet else "" }, e) := by
  cases rest <;> cases hs : parser.isSetSet <;> cases hl : parser.isSetListAvailable <;>
    simp [DefEmailClientMatCommand.parseCommandLine, removeAt, namedDefaultError, listAvailableMessage,
      hok, hv, hh, hha, hp, hs, hl]

theorem fileManager_parse_decision (parser : QCommandLineParser) (e : String)
    (cmd : String) (rest : List String)
    (hok : parser.parseOk = true) (hv : parser.isSetVersion = false)
    (hh : parser.isSetHelp = false) (hha : parser.isSetHelpAll = false)
    (hp : parser.positionalArguments = cmd :: rest) (data : DefFileManagerData) :
    DefFileManagerMatCommand.parseCommandLine parser data e =
      match namedDefaultError "file manager" parser rest with
      | some msg => some (CommandLineError, data, msg)
      | none =>
        some (CommandLineOk,
          { mode :=
              if parser.isSetListAvailable then
                DefFileManagerCommandMode.CommandModeListAvailableFileManagers
              else if parser.isSetSet then DefFileManagerCommandMode.CommandModeSetDefFileManager
              else DefFileManagerCommandMode.CommandModeGetDefFileManager,
            defFileManagerName :=
              if parser.isSetListAvailable then data.defFileManagerName
              else if parser.isSetSet then parser.valueSet else "" }, e) := by
  cases rest <;> cases hs : parser.isSetSet <;> cases hl : parser.isSetListAvailable <;>
    simp [DefFileManagerMatCommand.parseCommandLine, removeAt, namedDefaultError, listAvailableMessage,
      hok, hv, hh, hha, hp, hs, hl]

theorem terminal_parse_decision (parser : QCommandLineParser) (e : String)
    (cmd : String) (rest : List String)
    (hok : parser.parseOk = true) (hv : parser.isSetVersion = false)
    (hh : parser.isSetHelp = false) (hha : parser.isSetHelpAll = false)
    (hp : parser.positionalArguments = cmd :: rest) (data : DefTerminalData) :
    DefTerminalMatCommand.parseCommandLine parser data e =
      match namedDefaultError "terminal" parser rest with
      | some msg => some (CommandLineError, data, msg)
      | none =>
        some (CommandLineOk,
          { mode :=
              if parser.isSetListAvailable then
                DefTerminalCommandMode.CommandModeListAvailableTerminals
              else if parser.isSetSet then DefTerminalCommandMode.CommandModeSetDefTerminal
              else DefTerminalCommandMode.CommandModeGetDefTerminal,
            defTerminalName :=
              if parser.isSetListAvailable then data.defTerminalName
              else if parser.isSetSet then parser.valueSet else "" }, e) := by
  cases rest <;> cases hs : parser.isSetSet <;> cases hl : parser.isSetListAvailable <;>
    simp [DefTerminalMatCommand.parseCommandLine, removeAt, namedDefaultError, listAvailableMessage,
      hok, hv, hh, hha, hp, hs, hl]

/-- C22: the four named-default parsers make one decision and differ only in the
noun of one message.  For a parser state that tokenized without version and
help, with `rest` the positional arguments left after the command token: when
`rest` is not empty the answer is the error `Extra arguments given: ` followed
by `rest` joined with `,` if `--set` is given, and the error that begins `To set
the default <noun>` if it is not, whether or not `--list-available` is given
(noun: browser, email client, file manager, terminal); when `rest` is
empty and both `--list-available` and `--set` are given it is the list-available
error; in every other case it is Ok, with the mode and name the options give.
So the list-available error comes exactly when `--list-available` and `--set`
are both given and `rest` is empty. -/
theorem named_parsers_share_one_decision (parser : QCommandLineParser) (e : String)
    (cmd : String) (rest : List String)
    (hok : parser.parseOk = true) (hv : parser.isSetVersion = false)
    (hh : parser.isSetHelp = false) (hha : parser.isSetHelpAll = false)
    (hp : parser.positionalArguments = cmd :: rest) :
    (∀ data, DefWebBrowserMatCommand.parseCommandLine parser data e =
        match namedDefaultError "browser" parser rest with
        | some msg => some (CommandLineError, data, msg)
        | none =>
          some (CommandLineOk,
            { mode :=
                if parser.isSetListAvailable then
                  DefWebBrowserCommandMode.CommandModeListAvailableWebBrowsers
                else if parser.isSetSet then DefWebBrowserCommandMode.CommandModeSetDefWebBrowser
                else DefWebBrowserCommandMode.CommandModeGetDefWebBrowser,
              defWebBrowserName :=
                if parser.isSetListAvailable then data.defWebBrowserName
                else if parser.isSetSet then parser.valueSet else "" }, e))
    ∧ (∀ data, DefEmailClientMatCommand.parseCommandLine parser data e =
        match namedDefaultError "email client" parser rest with
        | some msg => some (CommandLineError, data, msg)
        | none =>
          some (CommandLineOk,
            { mode :=
                if parser.isSetListAvailable then
                  DefEmailClientCommandMode.CommandModeListAvailableEmailClients
                else if parser.isSetSet then DefEmailClientCommandMode.CommandModeSetDefEmailClient
                else DefEmailClientCommandMode.CommandModeGetDefEmailClient,
              defEmailClientName :=
                if parser.isSetListAvailable then data.defEmailClientName
                else if parser.isSetSet then parser.valueSet else "" }, e))
    ∧ (∀ data, DefFileManagerMatCommand.parseCommandLine parser data e =
        match namedDefaultError "file manager" parser rest with
        | some msg => some (CommandLineError, data, msg)
        | none =>
          some (CommandLineOk,
            { mode :=
                if parser.isSetListAvailable then
                  DefFileManagerCommandMode.CommandModeListAvailableFileManagers
                else if parser.isSetSet then DefFileManagerCommandMode.CommandModeSetDefFileManager
                else DefFileManagerCommandMode.CommandModeGetDefFileManager,
              defFileManagerName :=
                if parser.isSetListAvailable then data.defFileManagerName
                else if parser.isSetSet then parser.valueSet else "" }, e))
    ∧ (∀ data, DefTerminalMatCommand.parseCommandLine parser data e =
        match namedDefaultError "terminal" parser rest with
        | some msg => some (CommandLineError, data, msg)
        | none =>
          some (CommandLineOk,
            { mode :=
                if parser.isSetListAvailable then
                  DefTerminalCommandMode.CommandModeListAvailableTerminals
                else if parser.isSetSet then DefTerminalCommandMode.CommandModeSetDefTerminal
                else DefTerminalCommandMode.CommandModeGetDefTerminal,
              defTerminalName :=
                if parser.isSetListAvailable then data.defTerminalName
                else if parser.isSetSet then parser.valueSet else "" }, e))
    ∧ (∀ noun, namedDefaultError noun parser rest = some listAvailableMessage ↔
        (parser.isSetListAvailable = true ∧ parser.isSetSet = true ∧ rest = [])) :=
  ⟨fun data => webBrowser_parse_decision parser e cmd rest hok hv hh hha hp data,
   fun data => emailClient_parse_decision parser e cmd rest hok hv hh hha hp data,
   fun data => fileManager_parse_decision parser e cmd rest hok hv hh hha hp data,
   fun data => terminal_parse_decision parser e cmd rest hok hv hh hha hp data,
   fun noun => namedDefaultError_listAvailable noun parser rest⟩

theorem named_parsers_share_one_decision_witness :
    DefWebBrowserMatCommand.parseCommandLine (listWithArgument "def-web-browser") {} ""
      = some (CommandLineError, {}, "To set the default browser use the -s/--set option")
    ∧ DefTerminalMatCommand.parseCommandLine (listSetWithArgument "def-terminal") {} ""
      = some (CommandLineError, {}, "Extra arguments given: foo")
    ∧ DefEmailClientMatCommand.parseCommandLine (setTo "def-email-client" "mutt" []) {} ""
      = some (CommandLineOk,
          { mode := DefEmailClientCommandMode.CommandModeSetDefEmailClient,
            defEmailClientName := "mutt" }, "") :=
  ⟨(named_parsers_share_one_decision (listWithArgument "def-web-browser") ""
      "def-web-browser" ["foo"] rfl rfl rfl rfl rfl).1 {},
   (named_parsers_share_one_decision (listSetWithArgument "def-terminal") ""
      "def-terminal" ["foo"] rfl rfl rfl rfl rfl).2.2.2.1 {},
   (named_parsers_share_one_decision (setTo "def-email-client" "mutt" []) ""
      "def-email-client" [] rfl rfl rfl rfl rfl).2.1 {}⟩

/-! ## Handles: acquired and released -/

theorem acquired_append (l1 l2 : List Event) :
    acquired (l1 ++ l2) = acquired l1 ++ acquired l2 := by
  induction l1 with
  | nil => rfl
  | cons ev rest ih =>
    cases ev with
    | defaultApp key r => cases r <;> simp [acquired, ih]
    | namedDefault c r => cases r <;> simp [acquired, ih]
    | namedCandidates c apps => simp [acquired, ih]
    | _ => simp [acquired, ih]

theorem released_append (l1 l2 : List Event) :
    released (l1 ++ l2) = released l1 ++ released l2 := by
  induction l1 with
  | nil => rfl
  | cons ev rest ih => cases ev <;> simp [released, ih]

theorem released_map_delete (l : List XdgDesktopFile) : released (l.map Event.delete) = l := by
  induction l with
  | nil => rfl
  | cons a rest ih => simp [released, ih]

theorem acquired_map_delete (l : List XdgDesktopFile) : acquired (l.map Event.delete) = [] := by
  induction l with
  | nil => rfl
  | cons a rest ih => simp [acquired, ih]

theorem acquired_map_stdout {α : Type} (f : α → String) (l : List α) :
    acquired (l.map (fun a => Event.stdout (f a))) = [] := by
  induction l with
  | nil => rfl
  | cons a rest ih => simp [acquired, ih]

theorem released_map_stdout {α : Type} (f : α → String) (l : List α) :
    released (l.map (fun a => Event.stdout (f a))) = [] := by
  induction l with
  | nil => rfl
  | cons a rest ih => simp [released, ih]

theorem launch_handles {σ : Type} (W : World σ) (s : OpenMatCommand.LoopState σ) (u : String)
    (df : Option XdgDesktopFile) :
    acquired (OpenMatCommand.launch W s u df).2 = []
      ∧ released (OpenMatCommand.launch W s u df).2 = df.toList := by
  unfold OpenMatCommand.launch
  cases df with
  | none => simp [acquired, released]
  | some app =>
    dsimp only
    split_ifs <;> simp [acquired, released]

theorem loopBody_handles {σ : Type} (W : World σ) (s : OpenMatCommand.LoopState σ) (u : String) :
    released (OpenMatCommand.loopBody W s u).2 = acquired (OpenMatCommand.loopBody W s u).2 := by
  unfold OpenMatCommand.loopBody
  dsimp only
  split_ifs with h1 h2
  · simp [acquired, released]
  · rw [released_append, acquired_append, (launch_handles W _ u _).1, (launch_handles W _ u _).2]
    cases W.defaultApp (OpenMatCommand.classify W s u).world
      (W.mimeTypeForFile (OpenMatCommand.classify W s u).world
        (OpenMatCommand.classify W s u).localFilename) <;> simp [acquired, released]
  · cases hdf : W.defaultApp (OpenMatCommand.classify W s u).world
      ("x-scheme-handler/" ++ W.urlScheme u) <;>
      simp [acquired, released, (launch_handles W _ u _).1, (launch_handles W _ u _).2]

theorem runLoop_handles {σ : Type} (W : World σ) (files : List String) :
    ∀ s : OpenMatCommand.LoopState σ,
      released (OpenMatCommand.runLoop W s files).2
        = acquired (OpenMatCommand.runLoop W s files).2 := by
  induction files with
  | nil => intro s; rfl
  | cons u rest ih =>
    intro s
    rw [OpenMatCommand.runLoop_cons]
    split_ifs with h
    · exact loopBody_handles W s u
    · simp only [released_append, acquired_append, loopBody_handles W s u, ih]

/-- Every run of `open` releases exactly the handles the store handed out, in the
same order. -/
theorem open_releases_every_handle {σ : Type} (W : World σ) (w : σ)
    (parser : QCommandLineParser) :
    released (OpenMatCommand.run W w parser).trace
      = acquired (OpenMatCommand.run W w parser).trace := by
  unfold OpenMatCommand.run
  rcases hres : OpenMatCommand.parseCommandLine parser [] "" with ⟨code, files, msg⟩
  cases code with
  | CommandLineOk => exact runLoop_handles W files _
  | CommandLineError => rfl
  | CommandLineVersionRequested => rfl
  | CommandLineHelpRequested => rfl

theorem setCalls_handles (app : XdgDesktopFile) (pairs : List (String × Bool)) :
    acquired (pairs.flatMap (fun kr => setCallAndLine app kr.1 kr.2)) = []
      ∧ released (pairs.flatMap (fun kr => setCallAndLine app kr.1 kr.2)) = [] := by
  induction pairs with
  | nil => exact ⟨rfl, rfl⟩
  | cons kr rest ih =>
    rw [List.flatMap_cons, acquired_append, released_append, ih.1, ih.2]
    cases hk : kr.2 <;> simp [setCallAndLine, acquired, released, hk]

/-- Every run of `defapp` that returns releases exactly the handles the store
handed out. -/
theorem defapp_releases_every_handle {σ : Type} (W : World σ) (w : σ)
    (parser : QCommandLineParser) (r : RunResult σ)
    (hrun : DefAppMatCommand.run W w parser = some r) :
    released r.trace = acquired r.trace := by
  unfold DefAppMatCommand.run at hrun
  rcases hres : DefAppMatCommand.parseCommandLine parser {} "" with ⟨code, data, msg⟩
  rw [hres] at hrun
  cases code with
  | CommandLineOk =>
    dsimp only at hrun
    cases hm : data.mode with
    | CommandModeGetDefApp =>
      rw [hm] at hrun
      dsimp only at hrun
      rcases hmt : data.mimeTypes with _ | ⟨m, rest⟩
      · rw [hmt] at hrun
        exact absurd hrun (by simp)
      · rw [hmt] at hrun
        dsimp only at hrun
        cases hd : W.defaultApp w m with
        | none =>
          rw [hd] at hrun
          rw [← Option.some.inj hrun]
          rfl
        | some app =>
          rw [hd] at hrun
          rw [← Option.some.inj hrun]
          rfl
    | CommandModeSetDefApp =>
      rw [hm] at hrun
      dsimp only at hrun
      cases hl : W.load w data.defAppName with
      | none =>
        rw [hl] at hrun
        rw [← Option.some.inj hrun]
        rfl
      | some app =>
        rw [hl] at hrun
        rw [← Option.some.inj hrun]
        simp only [DefAppMatCommand.setLoop_eq, acquired, released]
        rw [(setCalls_handles app _).1, (setCalls_handles app _).2]
  | CommandLineError => rw [← Option.some.inj hrun]; rfl
  | CommandLineVersionRequested => rw [← Option.some.inj hrun]; rfl
  | CommandLineHelpRequested => rw [← Option.some.inj hrun]; rfl

/-- Every run of `def-web-browser` that returns releases exactly the handles the store
handed out, except in Get mode when the default is not valid: that handle is
not released. -/
theorem webBrowser_handles {σ : Type} (W : World σ) (w : σ)
    (parser : QCommandLineParser) (r : RunResult σ)
    (hrun : DefWebBrowserMatCommand.run W w parser = some r) :
    released r.trace = acquired r.trace
      ∨ (∃ app, W.namedDefault Category.webBrowser w = some app ∧ app.isValid = false
          ∧ acquired r.trace = [app] ∧ released r.trace = []) := by
  unfold DefWebBrowserMatCommand.run at hrun
  cases hres : DefWebBrowserMatCommand.parseCommandLine parser {} "" with
  | none =>
    rw [hres] at hrun
    exact absurd hrun (by simp)
  | some res =>
    obtain ⟨code, data, msg⟩ := res
    rw [hres] at hrun
    cases code with
    | CommandLineOk =>
      dsimp only at hrun
      cases hm : data.mode with
      | CommandModeListAvailableWebBrowsers =>
        rw [hm] at hrun
        rw [← Option.some.inj hrun]
        left
        simp only [acquired, released, acquired_append, released_append, released_map_delete,
          acquired_map_delete, List.append_nil]
        rw [acquired_map_stdout (fun app : XdgDesktopFile => W.desktopId app.fileName ++ "\n"),
          released_map_stdout (fun app : XdgDesktopFile => W.desktopId app.fileName ++ "\n")]
        simp
      | CommandModeGetDefWebBrowser =>
        rw [hm] at hrun
        dsimp only at hrun
        cases hd : W.namedDefault Category.webBrowser w with
        | none =>
          rw [hd] at hrun
          rw [← Option.some.inj hrun]
          left
          rfl
        | some app =>
          rw [hd] at hrun
          dsimp only at hrun
          cases hv : app.isValid with
          | true =>
            rw [hv] at hrun
            rw [← Option.some.inj hrun]
            left
            rfl
          | false =>
            rw [hv] at hrun
            rw [← Option.some.inj hrun]
            right
            exact ⟨app, rfl, hv, rfl, rfl⟩
      | CommandModeSetDefWebBrowser =>
        rw [hm] at hrun
        dsimp only at hrun
        cases hl : W.load w data.defWebBrowserName with
        | none =>
          rw [hl] at hrun
          rw [← Option.some.inj hrun]
          left
          rfl
        | some app =>
          rw [hl] at hrun
          dsimp only at hrun
          split_ifs at hrun <;> (rw [← Option.some.inj hrun]; left; rfl)
    | CommandLineError => rw [← Option.some.inj hrun]; left; rfl
    | CommandLineVersionRequested => rw [← Option.some.inj hrun]; left; rfl
    | CommandLineHelpRequested => rw [← Option.some.inj hrun]; left; rfl

/-- Every run of `def-email-client` that returns releases exactly the handles the store
handed out, except in Get mode when the default is not valid: that handle is
not released. -/
theorem emailClient_handles {σ : Type} (W : World σ) (w : σ)
    (parser : QCommandLineParser) (r : RunResult σ)
    (hrun : DefEmailClientMatCommand.run W w parser = some r) :
    released r.trace = acquired r.trace
      ∨ (∃ app, W.namedDefault Category.emailClient w = some app ∧ app.isValid = false
          ∧ acquired r.trace = [app] ∧ released r.trace = []) := by
  unfold DefEmailClientMatCommand.run at hrun
  cases hres : DefEmailClientMatCommand.parseCommandLine parser {} "" with
  | none =>
    rw [hres] at hrun
    exact absurd hrun (by simp)
  | some res =>
    obtain ⟨code, data, msg⟩ := res
    rw [hres] at hrun
    cases code with
    | CommandLineOk =>
      dsimp only at hrun
      cases hm : data.mode with
      | CommandModeListAvailableEmailClients =>
        rw [hm] at hrun
        rw [← Option.some.inj hrun]
        left
        simp only [acquired, released, acquired_append, released_append, released_map_delete,
          acquired_map_delete, List.append_nil]
        rw [acquired_map_stdout (fun app : XdgDesktopFile => W.desktopId app.fileName ++ "\n"),
          released_map_stdout (fun app : XdgDesktopFile => W.desktopId app.fileName ++ "\n")]
        simp
      | CommandModeGetDefEmailClient =>
        rw [hm] at hrun
        dsimp only at hrun
        cases hd : W.namedDefault Category.emailClient w with
        | none =>
          rw [hd] at hrun
          rw [← Option.some.inj hrun]
          left
          rfl
        | some app =>
          rw [hd] at hrun
          dsimp only at hrun
          cases hv : app.isValid with
          | true =>
            rw [hv] at hrun
            rw [← Option.some.inj hrun]
            left
            rfl
          | false =>
            rw [hv] at hrun
            rw [← Option.some.inj hrun]
            right
            exact ⟨app, rfl, hv, rfl, rfl⟩
      | CommandModeSetDefEmailClient =>
        rw [hm] at hrun
        dsimp only at hrun
        cases hl : W.load w data.defEmailClientName with
        | none =>
          rw [hl] at hrun
          rw [← Option.some.inj hrun]
          left
          rfl
        | some app =>
          rw [hl] at hrun
          dsimp only at hrun
          split_ifs at hrun <;> (rw [← Option.some.inj hrun]; left; rfl)
    | CommandLineError => rw [← Option.some.inj hrun]; left; rfl
    | CommandLineVersionRequested => rw [← Option.some.inj hrun]; left; rfl
    | CommandLineHelpRequested => rw [← Option.some.inj hrun]; left; rfl

/-- Every run of `def-file-manager` that returns releases exactly the handles the store
handed out, except in Get mode when the default is not valid: that handle is
not released. -/
theorem fileManager_handles {σ : Type} (W : World σ) (w : σ)
    (parser : QCommandLineParser) (r : RunResult σ)
    (hrun : DefFileManagerMatCommand.run W w parser = some r) :
    released r.trace = acquired r.trace
      ∨ (∃ app, W.namedDefault Category.fileManager w = some app ∧ app.isValid = false
          ∧ acquired r.trace = [app] ∧ released r.trace = []) := by
  unfold DefFileManagerMatCommand.run at hrun
  cases hres : DefFileManagerMatCommand.parseCommandLine parser {} "" with
  | none =>
    rw [hres] at hrun
    exact absurd hrun (by simp)
  | some res =>
    obtain ⟨code, data, msg⟩ := res
    rw [hres] at hrun
    cases code with
    | CommandLineOk =>
      dsimp only at hrun
      cases hm : data.mode with
      | CommandModeListAvailableFileManagers =>
        rw [hm] at hrun
        rw [← Option.some.inj hrun]
        left
        simp only [acquired, released, acquired_append, released_append, released_map_delete,
          acquired_map_delete, List.append_nil]
        rw [acquired_map_stdout (fun app : XdgDesktopFile => W.desktopId app.fileName ++ "\n"),
          released_map_stdout (fun app : XdgDesktopFile => W.desktopId app.fileName ++ "\n")]
        simp
      | CommandModeGetDefFileManager =>
        rw [hm] at hrun
        dsimp only at hrun
        cases hd : W.namedDefault Category.fileManager w with
        | none =>
          rw [hd] at hrun
          rw [← Option.some.inj hrun]
          left
          rfl
        | some app =>
          rw [hd] at hrun
          dsimp only at hrun
          cases hv : app.isValid with
          | true =>
            rw [hv] at hrun
            rw [← Option.some.inj hrun]
            left
            rfl
          | false =>
            rw [hv] at hrun
            rw [← Option.some.inj hrun]
            right
            exact ⟨app, rfl, hv, rfl, rfl⟩
      | CommandModeSetDefFileManager =>
        rw [hm] at hrun
        dsimp only at hrun
        cases hl : W.load w data.defFileManagerName with
        | none =>
          rw [hl] at hrun
          rw [← Option.some.inj hrun]
          left
          rfl
        | some app =>
          rw [hl] at hrun
          dsimp only at hrun
          split_ifs at hrun <;> (rw [← Option.some.inj hrun]; left; rfl)
    | CommandLineError => rw [← Option.some.inj hrun]; left; rfl
    | CommandLineVersionRequested => rw [← Option.some.inj hrun]; left; rfl
    | CommandLineHelpRequested => rw [← Option.some.inj hrun]; left; rfl

/-- Every run of `def-terminal` that returns releases exactly the handles the store
handed out, except in Get mode when the default is not valid: that handle is
not released. -/
theorem terminal_handles {σ : Type} (W : World σ) (w : σ)
    (parser : QCommandLineParser) (r : RunResult σ)
    (hrun : DefTerminalMatCommand.run W w parser = some r) :
    released r.trace = acquired r.trace
      ∨ (∃ app, W.namedDefault Category.terminal w = some app ∧ app.isValid = false
          ∧ acquired r.trace = [app] ∧ released r.trace = []) := by
  unfold DefTerminalMatCommand.run at hrun
  cases hres : DefTerminalMatCommand.parseCommandLine parser {} "" with
  | none =>
    rw [hres] at hrun
    exact absurd hrun (by simp)
  | some res =>
    obtain ⟨code, data, msg⟩ := res
    rw [hres] at hrun
    cases code with
    | CommandLineOk =>
      dsimp only at hrun
      cases hm : data.mode with
      | CommandModeListAvailableTerminals =>
        rw [hm] at hrun
        rw [← Option.some.inj hrun]
        left
        simp only [acquired, released, acquired_append, released_append, released_map_delete,
          acquired_map_delete, List.append_nil]
        rw [acquired_map_stdout (fun app : XdgDesktopFile => W.baseName app.fileName ++ "\n"),
          released_map_stdout (fun app : XdgDesktopFile => W.baseName app.fileName ++ "\n")]
        simp
      | CommandModeGetDefTerminal =>
        rw [hm] at hrun
        dsimp only at hrun
        cases hd : W.namedDefault Category.terminal w with
        | none =>
          rw [hd] at hrun
          rw [← Option.some.inj hrun]
          left
          rfl
        | some app =>
          rw [hd] at hrun
          dsimp only at hrun
          cases hv : app.isValid with
          | true =>
            rw [hv] at hrun
            rw [← Option.some.inj hrun]
            left
            rfl
          | false =>
            rw [hv] at hrun
            rw [← Option.some.inj hrun]
            right
            exact ⟨app, rfl, hv, rfl, rfl⟩
      | CommandModeSetDefTerminal =>
        rw [hm] at hrun
        dsimp only at hrun
        cases hl : W.load w data.defTerminalName with
        | none =>
          rw [hl] at hrun
          rw [← Option.some.inj hrun]
          left
          rfl
        | some app =>
          rw [hl] at hrun
          dsimp only at hrun
          split_ifs at hrun <;> (rw [← Option.some.inj hrun]; left; rfl)
    | CommandLineError => rw [← Option.some.inj hrun]; left; rfl
    | CommandLineVersionRequested => rw [← Option.some.inj hrun]; left; rfl
    | CommandLineHelpRequested => rw [← Option.some.inj hrun]; left; rfl

/-- C21 (defect in the code): in the Get path of each of the four named-default
commands the `delete` stands inside the test `!= nullptr && isValid()`.  When
the store returns a handle that is not null but not valid, nothing is printed
and the handle is not released: the run acquires it and releases nothing. -/
theorem invalid_default_is_not_released :
    invalidDefaultWorld.namedDefault Category.webBrowser () = some brokenEntry
    ∧ brokenEntry.isValid = false
    ∧ (DefWebBrowserMatCommand.run invalidDefaultWorld () (positionalOnly ["def-web-browser"])).map
        (fun r => (r.trace, acquired r.trace, released r.trace))
      = some ([Event.namedDefault Category.webBrowser (some brokenEntry)], [brokenEntry], [])
    ∧ (DefEmailClientMatCommand.run invalidDefaultWorld ()
          (positionalOnly ["def-email-client"])).map
        (fun r => (r.trace, acquired r.trace, released r.trace))
      = some ([Event.namedDefault Category.emailClient (some brokenEntry)], [brokenEntry], [])
    ∧ (DefFileManagerMatCommand.run invalidDefaultWorld ()
          (positionalOnly ["def-file-manager"])).map
        (fun r => (r.trace, acquired r.trace, released r.trace))
      = some ([Event.namedDefault Category.fileManager (some brokenEntry)], [brokenEntry], [])
    ∧ (DefTerminalMatCommand.run invalidDefaultWorld () (positionalOnly ["def-terminal"])).map
        (fun r => (r.trace, acquired r.trace, released r.trace))
      = some ([Event.namedDefault Category.terminal (some brokenEntry)], [brokenEntry], []) := by
  decide

end QtXdgMat
